import Mathlib

/-!
Order, points and dashboard handlers of the recycling marketplace.

A shallow embedding of the API route handlers

* `src/app/api/orders/route.js` (`GET`, `POST`),
* `src/app/api/orders/[id]/route.js` (`GET`, `PATCH`),
* `src/app/api/dashboard/route.js` (`GET`),
* `src/app/api/products/[id]/route.js` (`GET`),

and of the client-side functions of the pages `marketplace/page.js` (filter, sort, displayed
price, `addToCart`), `marketplace/cart/page.js` (totals, `updateItemQuantity`, `removeItem`)
and `collection/page.js` (the two sections and the cancel control).

Modelling conventions.

* The database client is an in-memory `Store`: one list of records per table, in insertion
  order. `findUnique` is the first record with the given id, `findMany` a filter, `create`
  appends, `update` rewrites the first record with the given id. Database calls do not fail.
* A handler is a function from the store, the session and the request to a response and
  the store it leaves behind. A `throw` inside the handler's `try` block becomes the
  handler's 500 response.
* The request body is the JSON object returned by `request.json()`; its fields are typed:
  identifiers and the status are absent or a string, numbers are the result of `parseFloat`
  (`none` for `NaN`).
* JS numbers are rationals (`ℚ`); dates are milliseconds since the epoch (`Int`).
* An `include` of a relation is the looked-up record (`none` when it does not exist); a
  `select` is not modelled as a projection, the whole record is carried.
-/

namespace PlasticWaste

/-! ## Data model -/

/-- A row of the `User` table. -/
structure User where
  id : String
  name : String
  email : String
  phoneNumber : String
  address : String
  userType : String
  points : Option Int
deriving DecidableEq, Repr

/-- A row of the `Listing` table. -/
structure Listing where
  id : String
  userId : String
  title : String
  wasteType : String
  price : ℚ
  location : String
deriving DecidableEq, Repr

/-- A row of the `Order` table. `totalPrice` is `none` when the stored value is missing or
not numeric, `createdAt` is `none` when the stored value is missing. -/
structure Order where
  id : String
  buyerId : String
  listingId : String
  quantity : ℚ
  totalPrice : Option ℚ
  status : String
  createdAt : Option Int
deriving DecidableEq, Repr

/-- A row of the `Collection` table; the fields the dashboard guards with `||` or `?:`
are optional. -/
structure Collection where
  id : String
  userId : String
  type : String
  date : Option Int
  status : Option String
  address : String
  wasteType : Option String
  quantity : Option ℚ
  createdAt : Option Int
deriving DecidableEq, Repr

/-- A row of the `Product` table. -/
structure Product where
  id : String
  sellerId : String
  name : String
  price : ℚ
  category : String
  quantity : ℚ
  inStock : Bool
  createdAt : Option Int
deriving DecidableEq, Repr

/-- The database behind the `prisma` client. -/
structure Store where
  users : List User
  listings : List Listing
  orders : List Order
  collections : List Collection
  products : List Product
deriving DecidableEq, Repr

/-- The `session.user` object: `userType` is `none` when the property is undefined. -/
structure SessionUser where
  id : String
  userType : Option String
deriving DecidableEq, Repr

/-- An order as returned by a query with `include`: the order and the related records the
query asked for (`none` for a relation that was not included or has no record). -/
structure OrderView where
  order : Order
  listing : Option Listing
  listingUser : Option User
  buyer : Option User
deriving DecidableEq, Repr

/-- An entry of the dashboard's `recentActivity` feed. -/
structure Activity where
  type : String
  title : String
  description : String
  date : Int
deriving DecidableEq, Repr

/-- The `dashboardData` object; `orders`, `totalSpent` and `totalRevenue` are the
properties only some roles add. -/
structure DashboardData where
  collections : List Collection
  products : List Product
  points : Int
  totalCollections : Nat
  totalProducts : Nat
  totalOrders : Nat
  recentActivity : List Activity
  orders : Option (List OrderView)
  totalSpent : Option ℚ
  totalRevenue : Option ℚ
deriving DecidableEq, Repr

/-- The JSON body of a response. -/
inductive Body where
  | error (error : String)
  | order (message : Option String) (order : OrderView)
  | orders (orders : List OrderView) (totalCount : Nat)
  | dashboard (data : DashboardData)
deriving DecidableEq, Repr

/-- A `NextResponse.json(body, { status })`; the status defaults to 200. -/
structure Response where
  status : Nat
  body : Body
deriving DecidableEq, Repr

/-! ## Database client -/

/-- The call `prisma.order.findUnique({ where: { id } })`. -/
def findOrder (s : Store) (id : String) : Option Order :=
  s.orders.find? (fun o => o.id == id)

/-- The call `prisma.listing.findUnique({ where: { id } })`. -/
def findListing (s : Store) (id : String) : Option Listing :=
  s.listings.find? (fun l => l.id == id)

/-- The call `prisma.user.findUnique({ where: { id } })`. -/
def findUser (s : Store) (id : String) : Option User :=
  s.users.find? (fun u => u.id == id)

/-- Rewrites the first order with the given id. -/
def updateFirst (id : String) (f : Order → Order) : List Order → List Order
  | [] => []
  | o :: os => if o.id == id then f o :: os else o :: updateFirst id f os

/-- The data `{ status }` of `prisma.order.update`: an undefined value leaves the column
as it is. -/
def setStatus (status : Option String) (o : Order) : Order :=
  match status with
  | some st => { o with status := st }
  | none => o

/-- The write of `prisma.order.update({ where: { id }, data: { status } })`. -/
def updateOrder (s : Store) (id : String) (status : Option String) : Store :=
  { s with orders := updateFirst id (setStatus status) s.orders }

/-! ## Responses and JS helpers -/

/-- The 401 answer of every handler to a request without session. -/
def unauthorized : Response := ⟨401, .error "Unauthorized"⟩

/-- The method `String.prototype.toUpperCase` on the ASCII letters; other characters are
kept. The handlers only compare the result with `COLLECTOR`, `INDIVIDUAL` and `BUSINESS`.
No character outside ASCII is mapped by JS to letters of `COLLECTOR`, so that comparison is
exact for every string; for the other two constants JS also accepts spellings with the
dotless i, the long s, the sharp s or a ligature, which this function leaves as they are. -/
def toUpperCase (t : String) : String := ⟨t.data.map Char.toUpper⟩

/-- The method `String.prototype.toLowerCase` on the ASCII letters; other characters are
kept. -/
def toLowerCase (t : String) : String := ⟨t.data.map Char.toLower⟩

/-- The expression `session.user.userType?.toUpperCase() || 'INDIVIDUAL'`. -/
def normalizedUserType (userType : Option String) : String :=
  match userType with
  | none => "INDIVIDUAL"
  | some t => if toUpperCase t = "" then "INDIVIDUAL" else toUpperCase t

/-- The expression `a || b` on two optional strings: the empty string is falsy. -/
def orElseStr (a b : Option String) : Option String :=
  match a with
  | some x => if x = "" then b else some x
  | none => b

/-- The expression `x || 0` on a number that may be `NaN` or missing. -/
def orZero (x : Option ℚ) : ℚ :=
  match x with
  | some v => if v = 0 then 0 else v
  | none => 0

/-- The order of `orderBy: { ...: 'desc' }` on an optional date: later dates first, missing
dates last. -/
def dateGe : Option Int → Option Int → Bool
  | _, none => true
  | none, some _ => false
  | some x, some y => decide (y ≤ x)

/-- The relation "a is listed no later than b" of a descending sort on the date `key`. -/
def DescBy {α : Type} (key : α → Option Int) (a b : α) : Prop :=
  dateGe (key a) (key b) = true

instance {α : Type} (key : α → Option Int) : DecidableRel (DescBy key) := fun a b =>
  inferInstanceAs (Decidable (dateGe (key a) (key b) = true))

/-- A descending sort on the date `key` that keeps the order of equal keys: the clause
`orderBy: { ...: 'desc' }` of a query, and `Array.prototype.sort` with the comparator
`(a, b) => new Date(b.date) - new Date(a.date)`. -/
def sortDescBy {α : Type} (key : α → Option Int) (xs : List α) : List α :=
  xs.insertionSort (DescBy key)

instance {α : Type} (key : α → Option Int) : IsTotal α (DescBy key) :=
  ⟨fun a b => by
    unfold DescBy
    cases key a <;> cases key b <;> simp [dateGe]
    exact Int.le_total _ _⟩

instance {α : Type} (key : α → Option Int) : IsTrans α (DescBy key) :=
  ⟨fun a b c h1 h2 => by
    unfold DescBy at h1 h2 ⊢
    cases ha : key a <;> cases hb : key b <;> cases hc : key c <;>
      simp [dateGe, ha, hb, hc] at h1 h2 ⊢
    exact Int.le_trans h2 h1⟩

/-! ## `src/app/api/orders/[id]/route.js` -/

namespace OrderById

/-- The body of `PATCH /api/orders/{id}`: `data.status`. -/
structure PatchBody where
  status : Option String
deriving DecidableEq, Repr

/-- The 403 answer of `PATCH`. -/
def forbidden : Response := ⟨403, .error "You are not authorized to update this order"⟩

/-- The handler `GET` of `orders/[id]/route.js`. -/
def GET (s : Store) (session : Option SessionUser) (id : String) : Response × Store :=
  match session with
  | none => (unauthorized, s)
  | some _ =>
    match findOrder s id with
    | none => (⟨404, .error "Order not found"⟩, s)
    | some order =>
      let listing := findListing s order.listingId
      (⟨200, .order none
          { order := order
            listing := listing
            listingUser := listing.bind (fun l => findUser s l.userId)
            buyer := findUser s order.buyerId }⟩, s)

/-- The handler `PATCH` of `orders/[id]/route.js`, over a store whose `status` column admits
every string (`OrderById.Schema.PATCH` is the handler over a typed column). Reading
`order.listing.userId` when the order has no listing record throws, which the handler
answers with 500. -/
def PATCH (s : Store) (session : Option SessionUser) (id : String) (data : PatchBody) :
    Response × Store :=
  match session with
  | none => (unauthorized, s)
  | some user =>
    match findOrder s id with
    | none => (⟨404, .error "Order not found"⟩, s)
    | some order =>
      let listing := findListing s order.listingId
      if user.userType = some "COLLECTOR" then
        match listing with
        | none => (⟨500, .error "Failed to update order"⟩, s)
        | some l =>
          if l.userId ≠ user.id then (forbidden, s)
          else
            let s' := updateOrder s id data.status
            (⟨200, .order (some "Order status updated successfully")
                { order := setStatus data.status order
                  listing := findListing s' order.listingId
                  listingUser := none
                  buyer := findUser s' order.buyerId }⟩, s')
      else if (user.userType = some "INDIVIDUAL" ∨ user.userType = some "BUSINESS" ∨
          user.userType = some "COMMUNITY") ∧ order.buyerId ≠ user.id then
        (forbidden, s)
      else
        let s' := updateOrder s id data.status
        (⟨200, .order (some "Order status updated successfully")
            { order := setStatus data.status order
              listing := findListing s' order.listingId
              listingUser := none
              buyer := findUser s' order.buyerId }⟩, s')

end OrderById

/-! ## `src/app/api/orders/route.js` -/

namespace Orders

/-- The handler `GET` of `orders/route.js`. -/
def GET (s : Store) (session : Option SessionUser) : Response × Store :=
  match session with
  | none => (unauthorized, s)
  | some user =>
    let userId := user.id
    let userType := normalizedUserType user.userType
    if userType = "COLLECTOR" then
      let collectorListings := s.listings.filter (fun l => l.userId == userId)
      let listingIds := collectorListings.map (fun listing => listing.id)
      let orders := sortDescBy (fun o => o.createdAt) (s.orders.filter (fun o => listingIds.contains o.listingId))
      let totalCount := (s.orders.filter (fun o => listingIds.contains o.listingId)).length
      (⟨200, .orders
          (orders.map (fun o =>
            { order := o
              listing := findListing s o.listingId
              listingUser := none
              buyer := findUser s o.buyerId }))
          totalCount⟩, s)
    else
      let orders := sortDescBy (fun o => o.createdAt) (s.orders.filter (fun o => o.buyerId == userId))
      let totalCount := (s.orders.filter (fun o => o.buyerId == userId)).length
      (⟨200, .orders
          (orders.map (fun o =>
            { order := o
              listing := findListing s o.listingId
              listingUser := (findListing s o.listingId).bind (fun l => findUser s l.userId)
              buyer := none }))
          totalCount⟩, s)

/-- The body of `POST /api/orders` when its identifier fields are strings or absent.
`quantity` and `totalPrice` hold `parseFloat(data.quantity)` and
`parseFloat(data.totalPrice)`, `none` standing for `NaN`. Identifier fields that hold other
JSON values are covered by `Orders.Raw.Body`. -/
structure PostBody where
  listingId : Option String
  productId : Option String
  quantity : Option ℚ
  totalPrice : Option ℚ
deriving DecidableEq, Repr

/-- One character of the class `[0-9a-fA-F]`. -/
def isHexDigit (c : Char) : Bool :=
  ('0' ≤ c && c ≤ '9') || ('a' ≤ c && c ≤ 'f') || ('A' ≤ c && c ≤ 'F')

/-- The test `/^[0-9a-fA-F]{24}$/.test(listingId)`; an undefined `listingId` is tested as
the string `undefined` and fails. -/
def isValidObjectId (listingId : Option String) : Bool :=
  match listingId with
  | none => false
  | some t => t.data.length == 24 && t.data.all isHexDigit

/-- What a call of `distributePoints` leaves behind: the user table, and whether the call
threw. -/
structure Distribution where
  users : List User
  threw : Bool

/-- Modelled from the spec: the module `@/lib/points` is not among the sources.
`calculatePoints` maps an order quantity to an integer number of points, or throws;
`distributePoints` increments the `points` field of individual users (spec §4.2), so it
acts on the user table only, and may throw. Both are parameters of `POST`. -/
structure PointsLib where
  calculatePoints : ℚ → Except String Int
  distributePoints : List User → Int → Distribution

/-- What `prisma.order.create` fills in by itself: the new id and the creation time. -/
structure Env where
  newId : String
  now : Int
deriving DecidableEq, Repr

/-- The result of `POST`: the response, the store left behind, and the amounts
`distributePoints` was called with, in call order. -/
structure PostResult where
  response : Response
  store : Store
  distributed : List Int

/-- The `if (session.user.userType === 'BUSINESS') { try { ... } catch { } }` block of
`POST`: the user table it leaves and the calls of `distributePoints` it made. A throw of
either function is swallowed by the `catch`. -/
def pointsStep (lib : PointsLib) (userType : Option String) (quantity : ℚ)
    (users : List User) : List User × List Int :=
  if userType = some "BUSINESS" then
    match lib.calculatePoints quantity with
    | .error _ => (users, [])
    | .ok points =>
      if points > 0 then ((lib.distributePoints users points).users, [points])
      else (users, [])
  else (users, [])

/-- The record written by `prisma.order.create` in `POST`. -/
def newOrder (env : Env) (user : SessionUser) (listing : Listing) (data : PostBody) : Order :=
  { id := env.newId
    buyerId := user.id
    listingId := listing.id
    quantity := orZero data.quantity
    totalPrice := some (orZero data.totalPrice)
    status := "PENDING"
    createdAt := some env.now }

/-- The handler `POST` of `orders/route.js` on a body whose identifier fields are strings or
absent (`Orders.Raw.POST` is the handler on arbitrary JSON identifiers, and agrees with
this one on such bodies). The two log lines after the points block read `order.buyer.name`
and `order.listing.title`; when the created order has no buyer record the read throws and
the handler answers 500 (the order stays created). -/
def POST (lib : PointsLib) (env : Env) (s : Store) (session : Option SessionUser)
    (data : PostBody) : PostResult :=
  match session with
  | none => ⟨unauthorized, s, []⟩
  | some user =>
    let listingId := orElseStr data.listingId data.productId
    if !isValidObjectId listingId then
      ⟨⟨400, .error "Invalid listing ID format"⟩, s, []⟩
    else
      match listingId.bind (findListing s) with
      | none => ⟨⟨404, .error "Listing not found"⟩, s, []⟩
      | some listing =>
        let order := newOrder env user listing data
        let s1 : Store := { s with orders := s.orders ++ [order] }
        let view : OrderView :=
          { order := order
            listing := findListing s1 order.listingId
            listingUser := none
            buyer := findUser s1 order.buyerId }
        let step := pointsStep lib user.userType order.quantity s1.users
        let s2 : Store := { s1 with users := step.1 }
        match view.buyer, view.listing with
        | some _, some _ => ⟨⟨200, .order (some "Order placed successfully") view⟩, s2, step.2⟩
        | _, _ => ⟨⟨500, .error "Failed to create order"⟩, s2, step.2⟩

end Orders

/-! ## `src/app/api/dashboard/route.js` -/

namespace Dashboard

/-- The expression `x || d` on an optional string. -/
def strOr (x : Option String) (d : String) : String :=
  match x with
  | some v => if v = "" then d else v
  | none => d

/-- The feed entry of a collection. `fmt` is the JS conversion of a number to a string. -/
def collectionActivity (fmt : ℚ → String) (now : Int) (c : Collection) : Activity :=
  { type := "collection"
    title := "Collection " ++ toLowerCase (strOr c.status "scheduled")
    description := strOr c.wasteType "Mixed Waste" ++ " - " ++ fmt (orZero c.quantity) ++ "kg"
    date := match c.date with
      | some d => d
      | none => now }

/-- The feed entry of an order. -/
def orderActivity (now : Int) (o : Order) : Activity :=
  { type := "order"
    title := "Order " ++ toLowerCase (strOr (some o.status) "placed")
    description := "Order #" ++ o.id
    date := match o.createdAt with
      | some d => d
      | none => now }

/-- The reducer `(sum, order) => sum + (parseFloat(order.totalPrice) || 0)` from 0. -/
def sumTotalPrice (os : List Order) : ℚ :=
  os.foldl (fun sum order => sum + orZero order.totalPrice) 0

/-- The handler `GET` of `dashboard/route.js`. `now` is the value of `new Date()`. -/
def GET (fmt : ℚ → String) (now : Int) (s : Store) (session : Option SessionUser) :
    Response × Store :=
  match session with
  | none => (unauthorized, s)
  | some sessionUser =>
    let userId := sessionUser.id
    let userType := normalizedUserType sessionUser.userType
    let collections :=
      (sortDescBy (fun c => c.date) (s.collections.filter (fun c => c.userId == userId))).take 5
    let orders :=
      (sortDescBy (fun o => o.createdAt) (s.orders.filter (fun o => o.buyerId == userId))).take 5
    let base : DashboardData :=
      { collections := collections
        products := []
        points := 0
        totalCollections := collections.length
        totalProducts := 0
        totalOrders := 0
        recentActivity := []
        orders := none
        totalSpent := none
        totalRevenue := none }
    let dashboardData : DashboardData :=
      if userType = "INDIVIDUAL" then
        let user := findUser s userId
        let individualOrders := (s.orders.filter (fun o => o.buyerId == userId)).length
        { base with
          points := (user.bind (fun u => u.points)).getD 0
          totalOrders := individualOrders }
      else if userType = "BUSINESS" then
        let businessOrders := s.orders.filter (fun o => o.buyerId == userId)
        { base with
          orders := some (orders.map (fun o =>
            { order := o, listing := none, listingUser := none, buyer := findUser s o.buyerId }))
          totalOrders := businessOrders.length
          totalSpent := some (sumTotalPrice businessOrders) }
      else if userType = "COLLECTOR" then
        let collectorProducts := s.products.filter (fun p => p.sellerId == userId)
        let collectorListings := s.listings.filter (fun l => l.userId == userId)
        let listingIds := collectorListings.map (fun listing => listing.id)
        let collectorOrders :=
          sortDescBy (fun o => o.createdAt)
            (s.orders.filter (fun o => listingIds.contains o.listingId))
        { base with
          products := collectorProducts
          orders := some (collectorOrders.map (fun o =>
            { order := o
              listing := findListing s o.listingId
              listingUser := none
              buyer := findUser s o.buyerId }))
          totalProducts := collectorProducts.length
          totalOrders := collectorOrders.length
          totalRevenue := some (sumTotalPrice collectorOrders) }
      else base
    let recentActivity :=
      (sortDescBy (fun a => some a.date)
        (collections.map (collectionActivity fmt now) ++ orders.map (orderActivity now))).take 5
    (⟨200, .dashboard { dashboardData with recentActivity := recentActivity }⟩, s)

/-- The dashboard object of a response, when the response carries one. -/
def dataOf (r : Response) : Option DashboardData :=
  match r.body with
  | .dashboard d => some d
  | _ => none

end Dashboard

/-! ## `src/app/api/products/[id]/route.js` -/

namespace ProductById

/-- The `seller` property of the formatted product. -/
structure Seller where
  name : String
  id : Option String
  userType : String
deriving DecidableEq, Repr

/-- The object `formattedProduct`: the stored product, the seller summary and the creation
date. -/
structure FormattedProduct where
  product : Product
  seller : Seller
  createdAt : Int
deriving DecidableEq, Repr

/-- The JSON answer of the product route. -/
inductive Reply where
  | error (status : Nat) (error : String)
  | product (product : FormattedProduct)
deriving DecidableEq, Repr

/-- The result of the product route: the answer, the store left behind, and the `findOne`
calls made, each with its collection and the `_id` asked for. -/
structure Result where
  reply : Reply
  store : Store
  queries : List (String × String)
deriving DecidableEq, Repr

/-- The handler `GET` of `products/[id]/route.js`. `objectId` is the constructor
`new ObjectId(...)` of the `mongodb` driver: `none` when it throws, otherwise the identifier
it builds, written as stored in `_id`. `now` is the value of `new Date()`. -/
def GET (objectId : String → Option String) (now : Int) (s : Store) (id : String) : Result :=
  if id = "create" then ⟨.error 400 "Invalid product ID", s, []⟩
  else if id = "" then ⟨.error 400 "Product ID is required", s, []⟩
  else
    match objectId id with
    | none => ⟨.error 400 "Invalid product ID format", s, []⟩
    | some productId =>
      match s.products.find? (fun p => p.id == productId) with
      | none => ⟨.error 404 "Product not found", s, [("Product", productId)]⟩
      | some product =>
        let createdAt := match product.createdAt with
          | some d => d
          | none => now
        if product.sellerId = "" then
          ⟨.product ⟨product, ⟨"Unknown Seller", none, "unknown"⟩, createdAt⟩, s,
            [("Product", productId)]⟩
        else
          match objectId product.sellerId with
          | none => ⟨.error 500 "Failed to fetch product", s, [("Product", productId)]⟩
          | some sellerId =>
            match s.users.find? (fun u => u.id == sellerId) with
            | some seller =>
              ⟨.product ⟨product, ⟨seller.name, some seller.id, seller.userType⟩, createdAt⟩, s,
                [("Product", productId), ("User", sellerId)]⟩
            | none =>
              ⟨.product ⟨product, ⟨"Unknown Seller", none, "unknown"⟩, createdAt⟩, s,
                [("Product", productId), ("User", sellerId)]⟩

end ProductById

/-! ## `src/app/(marketplace)/marketplace/page.js` and `cart/page.js` -/

namespace Marketplace

/-- A product as the marketplace page receives it from `/api/products`. -/
structure Product where
  _id : String
  name : String
  description : String
  price : ℚ
  image : String
  category : String
  inStock : Bool
  discount : Option ℚ
  rating : ℚ
  createdAt : Option Int
deriving DecidableEq, Repr

/-- An entry of the cart kept in local storage under `ecorecycleCart`. -/
structure CartItem where
  _id : String
  name : String
  price : ℚ
  image : String
  quantity : Int
  discount : ℚ
deriving DecidableEq, Repr

/-- The method `Array.prototype.findIndex`: `none` stands for -1. -/
def findIndex {α : Type} (p : α → Bool) : List α → Option Nat
  | [] => none
  | x :: xs => if p x then some 0 else (findIndex p xs).map (fun i => i + 1)

/-- The in-place update `cart[i] = f(cart[i])`. -/
def modifyAt {α : Type} (f : α → α) : Nat → List α → List α
  | _, [] => []
  | 0, x :: xs => f x :: xs
  | i + 1, x :: xs => x :: modifyAt f i xs

/-- The function `addToCart` of the marketplace page, as a function from the stored cart to
the cart it stores. -/
def addToCart (cart : List CartItem) (product : Product) : List CartItem :=
  if !product.inStock then cart
  else
    match findIndex (fun item => item._id == product._id) cart with
    | some existingProductIndex =>
      modifyAt (fun item => { item with quantity := item.quantity + 1 }) existingProductIndex cart
    | none =>
      cart ++ [{ _id := product._id
                 name := product.name
                 price := product.price
                 image := product.image
                 quantity := 1
                 discount := orZero product.discount }]

end Marketplace

namespace Cart

open Marketplace

/-- The constant `subtotal` of the cart page in exact arithmetic: the value the page
computes when none of its additions and multiplications rounds. `Cart.Double.subtotal` is
the same constant with the rounding of JS numbers made explicit. -/
def subtotal (cartItems : List CartItem) : ℚ :=
  cartItems.foldl (fun total item => total + item.price * item.quantity) 0

/-- The constant `shipping` of the cart page, on the exact subtotal. -/
def shipping (cartItems : List CartItem) : ℚ :=
  if subtotal cartItems ≥ 5000 then 0 else 350

/-- The constant `total` of the cart page, in exact arithmetic. -/
def total (cartItems : List CartItem) : ℚ :=
  subtotal cartItems + shipping cartItems

namespace Double

/-- The constant `subtotal` of the cart page in the arithmetic of JS numbers (IEEE 754
doubles): `round` maps the exact result of an addition or a multiplication to the double
the operation returns, so `total + item.price * item.quantity` is
`round (total + round (item.price * item.quantity))`. The prices and quantities of the
stored cart are doubles already. -/
def subtotal (round : ℚ → ℚ) (cartItems : List CartItem) : ℚ :=
  cartItems.foldl (fun total item => round (total + round (item.price * item.quantity))) 0

/-- The constant `shipping` of the cart page: the comparison `subtotal >= 5000` is made on
the double the reduce returned. -/
def shipping (round : ℚ → ℚ) (cartItems : List CartItem) : ℚ :=
  if subtotal round cartItems ≥ 5000 then 0 else 350

/-- The constant `total` of the cart page: one more addition of doubles. -/
def total (round : ℚ → ℚ) (cartItems : List CartItem) : ℚ :=
  round (subtotal round cartItems + shipping round cartItems)

end Double

end Cart

/-! ## Filter, sort and displayed price of `marketplace/page.js` -/

namespace Marketplace

/-- The method `String.prototype.includes`. -/
def includes (t sub : String) : Bool :=
  decide (List.IsInfix sub.data t.data)

/-- The constant `filteredProducts` of the marketplace page. `lower` is the method
`String.prototype.toLowerCase`, which follows the Unicode case mapping; it is a parameter,
and `toLowerCase` above is its restriction to ASCII letters. -/
def filteredProducts (lower : String → String) (products : List Product)
    (categoryFilter searchQuery : String) : List Product :=
  products.filter (fun product =>
    let matchesCategory := categoryFilter == "all" || product.category == categoryFilter
    let matchesSearch :=
      includes (lower product.name) (lower searchQuery) ||
        includes (lower product.description) (lower searchQuery)
    matchesCategory && matchesSearch)

/-- The value of `new Date(product.createdAt)` in milliseconds; a missing `createdAt` is the
JSON `null`, which `new Date` reads as the epoch. -/
def createdTime (product : Product) : Int :=
  product.createdAt.getD 0

/-- The comparator passed to `sort` on the marketplace page. -/
def compareProducts (sortBy : String) (a b : Product) : ℚ :=
  if sortBy = "price-low" then a.price - b.price
  else if sortBy = "price-high" then b.price - a.price
  else if sortBy = "rating" then b.rating - a.rating
  else ((createdTime b : ℚ) - (createdTime a : ℚ))

/-- The key the comparator subtracts: `compareProducts sortBy a b` is the key of `a` minus
the key of `b`. -/
def sortKey (sortBy : String) (a : Product) : ℚ :=
  if sortBy = "price-low" then a.price
  else if sortBy = "price-high" then -a.price
  else if sortBy = "rating" then -a.rating
  else -(createdTime a : ℚ)

/-- The relation "the comparator does not put `a` after `b`". -/
def NotAfter (sortBy : String) (a b : Product) : Prop :=
  compareProducts sortBy a b ≤ 0

instance (sortBy : String) : DecidableRel (NotAfter sortBy) := fun a b =>
  inferInstanceAs (Decidable (compareProducts sortBy a b ≤ 0))

instance (sortBy : String) : IsTotal Product (NotAfter sortBy) :=
  ⟨fun a b => by
    have h : ∀ x y : Product,
        compareProducts sortBy x y = sortKey sortBy x - sortKey sortBy y := by
      intro x y
      unfold compareProducts sortKey
      split_ifs <;> ring
    unfold NotAfter
    rw [h a b, h b a, sub_nonpos, sub_nonpos]
    exact le_total _ _⟩

instance (sortBy : String) : IsTrans Product (NotAfter sortBy) :=
  ⟨fun a b c => by
    have h : ∀ x y : Product,
        compareProducts sortBy x y = sortKey sortBy x - sortKey sortBy y := by
      intro x y
      unfold compareProducts sortKey
      split_ifs <;> ring
    unfold NotAfter
    rw [h a b, h b c, h a c, sub_nonpos, sub_nonpos, sub_nonpos]
    exact le_trans⟩

/-- The constant `sortedProducts` of the marketplace page, the list the grid displays:
`Array.prototype.sort` keeps the order of the elements the comparator calls equal. -/
def sortedProducts (lower : String → String) (products : List Product)
    (categoryFilter searchQuery sortBy : String) : List Product :=
  (filteredProducts lower products categoryFilter searchQuery).insertionSort (NotAfter sortBy)

/-- The price the product card shows in green: `price * (1 - discount / 100)` when the
product has a (non-zero) discount, the price otherwise. -/
def displayedPrice (product : Product) : ℚ :=
  match product.discount with
  | some discount => if discount = 0 then product.price
      else product.price * (1 - discount / 100)
  | none => product.price

end Marketplace

/-! ## `updateItemQuantity` and `removeItem` of `marketplace/cart/page.js` -/

namespace Cart

open Marketplace

/-- The function `updateItemQuantity` of the cart page, on the cart it is applied to. -/
def updateItemQuantity (prevItems : List CartItem) (productId : String) (newQuantity : Int) :
    List CartItem :=
  prevItems.map (fun item =>
    if item._id = productId then { item with quantity := max 1 newQuantity } else item)

/-- The function `removeItem` of the cart page, on the cart it is applied to. -/
def removeItem (prevItems : List CartItem) (productId : String) : List CartItem :=
  prevItems.filter (fun item => item._id != productId)

end Cart

/-! ## `src/app/(collection)/collection/page.js` -/

namespace CollectionPage

/-- The value of `new Date(c.date)` in milliseconds; a missing date is the JSON `null`,
which `new Date` reads as the epoch. -/
def time (c : Collection) : Int :=
  c.date.getD 0

/-- The state `collections` after `fetchCollections`: the fetched list sorted by date,
latest first. -/
def sorted (fetched : List Collection) : List Collection :=
  sortDescBy (fun c => some (time c)) fetched

/-- The constant `upcomingCollections`; `now` is the value of `new Date()`. -/
def upcomingCollections (now : Int) (collections : List Collection) : List Collection :=
  collections.filter (fun c => decide (time c > now) && c.status != some "CANCELLED")

/-- The constant `pastCollections`. -/
def pastCollections (now : Int) (collections : List Collection) : List Collection :=
  collections.filter (fun c => decide (time c ≤ now) || c.status == some "CANCELLED")

/-- A rendered `CollectionCard` with its props `collection` and `isPast` (false when the
prop is not passed). -/
structure Card where
  collection : Collection
  isPast : Bool
deriving DecidableEq, Repr

/-- The cards of the page: the upcoming section, then the past section. -/
def cards (now : Int) (fetched : List Collection) : List Card :=
  (upcomingCollections now (sorted fetched)).map (fun c => ⟨c, false⟩) ++
    (pastCollections now (sorted fetched)).map (fun c => ⟨c, true⟩)

/-- The condition `!isPast && collection.status === 'SCHEDULED'` under which a card renders
the cancel button. -/
def cancelOffered (card : Card) : Bool :=
  !card.isPast && card.collection.status == some "SCHEDULED"

end CollectionPage

/-! ## `POST /api/orders` on a body whose identifiers are arbitrary JSON values -/

namespace Orders

namespace Raw

/-- The value of `data.listingId` or `data.productId` in the parsed JSON body. The handler
uses it in three places: under `||`, as the argument of `RegExp.prototype.test` (which
converts it with `ToString`), and as `where.id` of `findUnique`. `other` stands for every
remaining JSON value (a number, a boolean, an object, an array that does not hold strings
only) by the string `ToString` gives for it and by its truthiness. -/
inductive JsonId where
  | absent
  | null
  | string (value : String)
  | stringArray (items : List String)
  | other (text : String) (truthy : Bool)
deriving DecidableEq, Repr

/-- Truthiness, as `||` tests it: `undefined`, `null` and the empty string are falsy, an array
is truthy. -/
def JsonId.truthy : JsonId → Bool
  | .absent => false
  | .null => false
  | .string value => value != ""
  | .stringArray _ => true
  | .other _ truthy => truthy

/-- The conversion `ToString` that `test` applies to its argument: an array is converted by
`join(',')`. -/
def JsonId.text : JsonId → String
  | .absent => "undefined"
  | .null => "null"
  | .string value => value
  | .stringArray items => ",".intercalate items
  | .other text _ => text

/-- The expression `data.listingId || data.productId`. -/
def orElseId (a b : JsonId) : JsonId :=
  if a.truthy then a else b

/-- The parsed body of `POST /api/orders` with its identifier fields as JSON values. -/
structure Body where
  listingId : JsonId
  productId : JsonId
  quantity : Option ℚ
  totalPrice : Option ℚ
deriving DecidableEq, Repr

/-- The handler `POST` of `orders/route.js` on a body whose identifier fields hold arbitrary
JSON values. The format test sees the identifier through `ToString`. The Prisma client
checks the type of `where.id` before it sends a query: an identifier that passed the test
without being a string makes `findUnique` throw, and the handler's `catch` answers 500.
From the lookup on, the handler is the one of `Orders.POST`. -/
def POST (lib : PointsLib) (env : Env) (s : Store) (session : Option SessionUser)
    (data : Body) : PostResult :=
  match session with
  | none => ⟨unauthorized, s, []⟩
  | some user =>
    let listingId := orElseId data.listingId data.productId
    if !isValidObjectId (some listingId.text) then
      ⟨⟨400, .error "Invalid listing ID format"⟩, s, []⟩
    else
      match listingId with
      | .string lid =>
        match findListing s lid with
        | none => ⟨⟨404, .error "Listing not found"⟩, s, []⟩
        | some listing =>
          let order := newOrder env user listing ⟨none, none, data.quantity, data.totalPrice⟩
          let s1 : Store := { s with orders := s.orders ++ [order] }
          let view : OrderView :=
            { order := order
              listing := findListing s1 order.listingId
              listingUser := none
              buyer := findUser s1 order.buyerId }
          let step := pointsStep lib user.userType order.quantity s1.users
          let s2 : Store := { s1 with users := step.1 }
          match view.buyer, view.listing with
          | some _, some _ =>
            ⟨⟨200, .order (some "Order placed successfully") view⟩, s2, step.2⟩
          | _, _ => ⟨⟨500, .error "Failed to create order"⟩, s2, step.2⟩
      | _ => ⟨⟨500, .error "Failed to create order"⟩, s, []⟩

/-- An identifier field of `Orders.PostBody` as a JSON value. -/
def ofString (id : Option String) : JsonId :=
  match id with
  | some value => .string value
  | none => .absent

/-- A body of `Orders.POST` (identifiers that are strings or absent) as a body of
`Orders.Raw.POST`. -/
def ofPostBody (data : PostBody) : Body :=
  ⟨ofString data.listingId, ofString data.productId, data.quantity, data.totalPrice⟩

end Raw

end Orders

/-! ## `PATCH /api/orders/{id}` over a typed `status` column -/

namespace OrderById

namespace Schema

/-- Modelled from the spec: the Prisma schema is not among the sources. `acceptsStatus` tells
which values the column `status` of `Order` admits; the data model of the specification
lists six. `prisma.order.update` checks `data.status` against the column type before it
writes and throws on a value the column does not admit (`none`); an undefined `status` is
left out of the update. -/
def update (acceptsStatus : String → Bool) (s : Store) (id : String)
    (status : Option String) : Option Store :=
  match status with
  | some st => if acceptsStatus st then some (updateOrder s id status) else none
  | none => some (updateOrder s id status)

/-- Modelled from the spec: the handler `PATCH` of `orders/[id]/route.js` over a `status`
column that admits the values `acceptsStatus`. A throw of `prisma.order.update` is caught
by the handler and answered with 500. `OrderById.PATCH` is this handler over a column that
admits every string. -/
def PATCH (acceptsStatus : String → Bool) (s : Store) (session : Option SessionUser)
    (id : String) (data : PatchBody) : Response × Store :=
  match session with
  | none => (unauthorized, s)
  | some user =>
    match findOrder s id with
    | none => (⟨404, .error "Order not found"⟩, s)
    | some order =>
      let listing := findListing s order.listingId
      if user.userType = some "COLLECTOR" then
        match listing with
        | none => (⟨500, .error "Failed to update order"⟩, s)
        | some l =>
          if l.userId ≠ user.id then (forbidden, s)
          else
            match update acceptsStatus s id data.status with
            | none => (⟨500, .error "Failed to update order"⟩, s)
            | some s' =>
              (⟨200, .order (some "Order status updated successfully")
                  { order := setStatus data.status order
                    listing := findListing s' order.listingId
                    listingUser := none
                    buyer := findUser s' order.buyerId }⟩, s')
      else if (user.userType = some "INDIVIDUAL" ∨ user.userType = some "BUSINESS" ∨
          user.userType = some "COMMUNITY") ∧ order.buyerId ≠ user.id then
        (forbidden, s)
      else
        match update acceptsStatus s id data.status with
        | none => (⟨500, .error "Failed to update order"⟩, s)
        | some s' =>
          (⟨200, .order (some "Order status updated successfully")
              { order := setStatus data.status order
                listing := findListing s' order.listingId
                listingUser := none
                buyer := findUser s' order.buyerId }⟩, s')

end Schema

end OrderById

/-! ## Predicates of the specification -/

/-- A well-formed listing identifier: a string of exactly 24 hexadecimal digits. -/
def IsObjectIdString (t : String) : Prop :=
  t.length = 24 ∧ ∀ c ∈ t.toList, c ∈ "0123456789abcdefABCDEF".toList

instance (t : String) : Decidable (IsObjectIdString t) := by
  unfold IsObjectIdString
  infer_instance

/-- The request reaches `prisma.order.create`: it has a session, and its listing identifier
is well formed and names the stored `listing`. -/
def CreatesOrder (s : Store) (session : Option SessionUser) (data : Orders.PostBody)
    (user : SessionUser) (listing : Listing) : Prop :=
  session = some user ∧ ∃ lid, orElseStr data.listingId data.productId = some lid ∧
    IsObjectIdString lid ∧ findListing s lid = some listing

instance (s : Store) (session : Option SessionUser) (data : Orders.PostBody)
    (user : SessionUser) (listing : Listing) :
    Decidable (CreatesOrder s session data user listing) :=
  match h : orElseStr data.listingId data.productId with
  | none => isFalse (by
      rintro ⟨_, lid, hid, _⟩
      rw [h] at hid
      cases hid)
  | some lid =>
    if hc : session = some user ∧ IsObjectIdString lid ∧ findListing s lid = some listing then
      isTrue ⟨hc.1, lid, h, hc.2.1, hc.2.2⟩
    else
      isFalse (by
        rintro ⟨hs, lid2, hid, hwf, hf⟩
        rw [h] at hid
        cases hid
        exact hc ⟨hs, hwf, hf⟩)

/-- The session's role is collector, in any letter case. -/
def IsCollector (userType : Option String) : Prop :=
  ∃ t, userType = some t ∧ toLowerCase t = "collector"

instance (userType : Option String) : Decidable (IsCollector userType) :=
  match userType with
  | none => isFalse (by
      rintro ⟨_, h, _⟩
      cases h)
  | some t =>
    if hc : toLowerCase t = "collector" then isTrue ⟨t, rfl, hc⟩
    else
      isFalse (by
        rintro ⟨t2, h1, h2⟩
        cases h1
        exact hc h2)

/-- The session's role is business, in any letter case. -/
def IsBusiness (userType : Option String) : Prop :=
  ∃ t, userType = some t ∧ toLowerCase t = "business"

instance (userType : Option String) : Decidable (IsBusiness userType) :=
  match userType with
  | none => isFalse (by
      rintro ⟨_, h, _⟩
      cases h)
  | some t =>
    if hc : toLowerCase t = "business" then isTrue ⟨t, rfl, hc⟩
    else
      isFalse (by
        rintro ⟨t2, h1, h2⟩
        cases h1
        exact hc h2)

/-- The session's role is individual in any letter case, or the session has no
`userType`. -/
def IsIndividualOrAbsent (userType : Option String) : Prop :=
  userType = none ∨ ∃ t, userType = some t ∧ toLowerCase t = "individual"

instance (userType : Option String) : Decidable (IsIndividualOrAbsent userType) :=
  match userType with
  | none => isTrue (Or.inl rfl)
  | some t =>
    if hc : toLowerCase t = "individual" then isTrue (Or.inr ⟨t, rfl, hc⟩)
    else
      isFalse (by
        rintro (h | ⟨t2, h1, h2⟩)
        · cases h
        · cases h1
          exact hc h2)

/-- The six order statuses of the data model. -/
def validStatuses : List String :=
  ["PENDING", "ACCEPTED", "PAID", "DELIVERED", "COMPLETED", "CANCELLED"]

/-- Every stored order has one of the six statuses. -/
def StatusInvariant (s : Store) : Prop :=
  ∀ o ∈ s.orders, o.status ∈ validStatuses

instance (s : Store) : Decidable (StatusInvariant s) := by
  unfold StatusInvariant
  infer_instance

/-- The items of the cart have pairwise distinct ids and every quantity is at least 1. -/
def CartInvariant (cart : List Marketplace.CartItem) : Prop :=
  (cart.map (fun item => item._id)).Nodup ∧ ∀ item ∈ cart, 1 ≤ item.quantity

instance (cart : List Marketplace.CartItem) : Decidable (CartInvariant cart) := by
  unfold CartInvariant
  infer_instance

/-- The dates of all the user's events: the `date` of each collection of the user and the
`createdAt` of each order the user placed. -/
def eventDates (s : Store) (userId : String) : List (Option Int) :=
  (s.collections.filter (fun c => decide (c.userId = userId))).map (fun c => c.date) ++
    (s.orders.filter (fun o => decide (o.buyerId = userId))).map (fun o => o.createdAt)

/-- All the user's events as feed entries: every collection of the user and every order the
user placed. -/
def allEvents (fmt : ℚ → String) (now : Int) (s : Store) (userId : String) : List Activity :=
  (s.collections.filter (fun c => decide (c.userId = userId))).map
      (Dashboard.collectionActivity fmt now) ++
    (s.orders.filter (fun o => decide (o.buyerId = userId))).map (Dashboard.orderActivity now)

/-- The feed over all the user's events: latest first, cut after five. -/
def fullFeed (fmt : ℚ → String) (now : Int) (s : Store) (userId : String) : List Activity :=
  (sortDescBy (fun a => some a.date) (allEvents fmt now s userId)).take 5

/-! ## Sample data -/

def alice : User := ⟨"u1", "Alice", "alice@example.org", "0711", "Kandy", "INDIVIDUAL", some 10⟩
def bob : User := ⟨"u2", "Bob", "bob@example.org", "0722", "Galle", "COLLECTOR", none⟩
def carol : User := ⟨"u3", "Carol", "carol@example.org", "0733", "Jaffna", "BUSINESS", some 0⟩

def listingA : Listing := ⟨"aaaaaaaaaaaaaaaaaaaaaaaa", "u2", "PET bottles", "PLASTIC", 120, "Galle"⟩

def order1 : Order := ⟨"o1", "u1", "aaaaaaaaaaaaaaaaaaaaaaaa", 3, some 360, "PENDING", some 1000⟩
def order2 : Order := ⟨"o2", "u3", "aaaaaaaaaaaaaaaaaaaaaaaa", 50, some 6000, "PAID", some 2000⟩

def store1 : Store := ⟨[alice, bob, carol], [listingA], [order1, order2], [], []⟩

def collectionAt (id : String) (date : Int) : Collection :=
  ⟨id, "u1", "PICKUP", some date, some "SCHEDULED", "Kandy", some "PLASTIC", some 4, some date⟩

def orderAt (id : String) (createdAt : Int) (totalPrice : Option ℚ) : Order :=
  ⟨id, "u3", "aaaaaaaaaaaaaaaaaaaaaaaa", 10, totalPrice, "PENDING", some createdAt⟩

def productP : Product :=
  ⟨"cccccccccccccccccccccccc", "u2", "Recycled tote bag", 1500, "accessories", 7, true,
    some 500⟩

/-- A store in which Alice (`u1`) has six collections and Carol (`u3`) has placed six orders
on Bob's listing, one of them without a numeric `totalPrice`. -/
def store2 : Store :=
  ⟨[alice, bob, carol], [listingA],
    [orderAt "o1" 100 (some 1000), orderAt "o2" 200 (some 2000), orderAt "o3" 300 none,
      orderAt "o4" 400 (some 4000), orderAt "o5" 500 (some 5000), orderAt "o6" 600 (some 6000)],
    [collectionAt "c1" 10, collectionAt "c2" 20, collectionAt "c3" 30, collectionAt "c4" 40,
      collectionAt "c5" 50, collectionAt "c6" 60],
    [productP]⟩

/-- A sample `ObjectId` constructor: it accepts the strings of 24 hexadecimal digits and
writes them in lower case. -/
def sampleObjectId (t : String) : Option String :=
  if Orders.isValidObjectId (some t) then some (toLowerCase t) else none

def bagItem : Marketplace.CartItem := ⟨"p1", "Recycled tote bag", 2000, "bag.png", 1, 0⟩
def chairItem : Marketplace.CartItem := ⟨"p2", "Bottle-cap chair", 4000, "chair.png", 1, 10⟩
def penItem : Marketplace.CartItem := ⟨"p3", "Paper pen", 500, "pen.png", 2, 0⟩

def chairProduct : Marketplace.Product :=
  ⟨"p2", "Bottle-cap chair", "A chair of bottle caps", 4000, "chair.png", "furniture", true,
    some 10, 4, some 900⟩

/-- A sample points module: `calculatePoints` gives one point per ten whole units and
`distributePoints` adds the amount to every individual user. -/
def samplePoints : Orders.PointsLib where
  calculatePoints q := .ok (q.floor / 10)
  distributePoints users points :=
    ⟨users.map (fun u =>
      if u.userType = "INDIVIDUAL" then { u with points := some (u.points.getD 0 + points) }
      else u), false⟩

/-- A points module whose `distributePoints` throws before it has credited anyone. -/
def throwingPoints : Orders.PointsLib where
  calculatePoints q := .ok (q.floor / 10)
  distributePoints users _ := ⟨users, true⟩

/-- A scheduled collection of Alice whose date (10) lies before the clock value 100 used
with it. -/
def overdueCollection : Collection := collectionAt "c1" 10

def futureCollection : Collection := collectionAt "c2" 500

/-- A store in which Alice (`u1`) has six collections (dates 10 to 60) and has placed six
orders (created at 15 to 65). -/
def store3 : Store :=
  ⟨[alice, bob], [listingA],
    [⟨"o1", "u1", "aaaaaaaaaaaaaaaaaaaaaaaa", 1, some 100, "PENDING", some 15⟩,
      ⟨"o2", "u1", "aaaaaaaaaaaaaaaaaaaaaaaa", 1, some 100, "PENDING", some 25⟩,
      ⟨"o3", "u1", "aaaaaaaaaaaaaaaaaaaaaaaa", 1, some 100, "PAID", some 35⟩,
      ⟨"o4", "u1", "aaaaaaaaaaaaaaaaaaaaaaaa", 1, some 100, "PAID", some 45⟩,
      ⟨"o5", "u1", "aaaaaaaaaaaaaaaaaaaaaaaa", 1, some 100, "PAID", some 55⟩,
      ⟨"o6", "u1", "aaaaaaaaaaaaaaaaaaaaaaaa", 1, some 100, "PAID", some 65⟩],
    [collectionAt "c1" 10, collectionAt "c2" 20, collectionAt "c3" 30, collectionAt "c4" 40,
      collectionAt "c5" 50, collectionAt "c6" 60],
    []⟩

def stoolProduct : Marketplace.Product :=
  ⟨"p5", "Bottle stool", "A stool of bottles", 1200, "stool.png", "furniture", true, none, 5,
    some 100⟩

def lampProduct : Marketplace.Product :=
  ⟨"p6", "Bottle lamp", "A lamp of bottles", 2500, "lamp.png", "lighting", true, none, 3,
    some 500⟩

/-- A sample rounding for the evaluations below: it cuts a number down to a multiple of
1/1024, so it leaves every whole number as it is and changes other numbers. -/
def sampleRound (q : ℚ) : ℚ :=
  (⌊q * 1024⌋ : ℚ) / 1024

/-- The six statuses of the data model as a column type. -/
def sixStatuses (st : String) : Bool :=
  decide (st ∈ validStatuses)

/-- A body whose `listingId` is the array `['aaaaaaaaaaaaaaaaaaaaaaaa']`. -/
def arrayIdBody : Orders.Raw.Body :=
  ⟨.stringArray ["aaaaaaaaaaaaaaaaaaaaaaaa"], .absent, some 2, some 240⟩

/-! ## Lemmas on the database client -/

theorem find_split {α : Type} (p : α → Bool) :
    ∀ (xs : List α) (x : α), xs.find? p = some x →
      ∃ pre post, xs = pre ++ x :: post ∧ (∀ y ∈ pre, p y = false) ∧ p x = true := by
  intro xs
  induction xs with
  | nil => intro x h; simp at h
  | cons a as ih =>
    intro x h
    by_cases ha : p a = true
    · rw [List.find?_cons_of_pos _ ha] at h
      cases h
      exact ⟨[], as, rfl, by simp, ha⟩
    · rw [List.find?_cons_of_neg _ ha] at h
      obtain ⟨pre, post, hxs, hpre, hx⟩ := ih x h
      refine ⟨a :: pre, post, by simp [hxs], ?_, hx⟩
      intro y hy
      rcases List.mem_cons.mp hy with rfl | hy
      · simpa using ha
      · exact hpre y hy

theorem updateFirst_append (id : String) (f : Order → Order) (pre post : List Order)
    (o : Order) (hpre : ∀ y ∈ pre, (y.id == id) = false) (ho : (o.id == id) = true) :
    updateFirst id f (pre ++ o :: post) = pre ++ f o :: post := by
  induction pre with
  | nil => simp [updateFirst, ho]
  | cons a as ih =>
    have ha : (a.id == id) = false := hpre a (List.mem_cons_self _ _)
    have has : ∀ y ∈ as, (y.id == id) = false := fun y hy => hpre y (List.mem_cons_of_mem _ hy)
    simp [updateFirst, ha, ih has]

theorem find_append_hit {α : Type} (p : α → Bool) (pre post : List α) (x : α)
    (hpre : ∀ y ∈ pre, p y = false) (hx : p x = true) :
    (pre ++ x :: post).find? p = some x := by
  induction pre with
  | nil => simp [hx]
  | cons a as ih =>
    have ha : p a = false := hpre a (List.mem_cons_self _ _)
    have has : ∀ y ∈ as, p y = false := fun y hy => hpre y (List.mem_cons_of_mem _ hy)
    simp [List.find?_cons, ha, ih has]

theorem setStatus_id (status : Option String) (o : Order) : (setStatus status o).id = o.id := by
  cases status <;> rfl

/-! ## `PATCH /api/orders/{id}` -/

/-- C1: a requester whose session carries no `userType`, or the `userType` `collector` in
lower case, and who is neither the owner of the order's listing nor the order's buyer is not
answered 403 by `PATCH`: the handler answers 200 and the stored status of the order is
rewritten. -/
theorem patch_without_role_is_not_forbidden :
    findOrder store1 "o1" = some order1 ∧
    order1.buyerId ≠ "u3" ∧
    (findListing store1 order1.listingId).map (fun l => l.userId) = some "u2" ∧
    (OrderById.PATCH store1 (some ⟨"u3", none⟩) "o1" ⟨some "CANCELLED"⟩).1.status = 200 ∧
    (findOrder (OrderById.PATCH store1 (some ⟨"u3", none⟩) "o1" ⟨some "CANCELLED"⟩).2 "o1").map
      (fun o => o.status) = some "CANCELLED" ∧
    (findOrder store1 "o1").map (fun o => o.status) = some "PENDING" ∧
    (OrderById.PATCH store1 (some ⟨"u3", some "collector"⟩) "o1" ⟨some "CANCELLED"⟩).1.status
      = 200 ∧
    (findOrder (OrderById.PATCH store1 (some ⟨"u3", some "collector"⟩) "o1"
      ⟨some "CANCELLED"⟩).2 "o1").map (fun o => o.status) = some "CANCELLED" := by
  decide

/-- C2: when the requester's `userType` is `COLLECTOR` and the requester's id differs from
the `userId` of the order's listing, `PATCH` answers 403 and leaves the store as it was,
whether or not the requester is the order's buyer. -/
theorem patch_collector_not_owner_forbidden (s : Store) (user : SessionUser) (id : String)
    (data : OrderById.PatchBody) (order : Order) (listing : Listing)
    (horder : findOrder s id = some order)
    (hlisting : findListing s order.listingId = some listing)
    (hrole : user.userType = some "COLLECTOR")
    (hne : listing.userId ≠ user.id) :
    (OrderById.PATCH s (some user) id data).1.status = 403 ∧
    (OrderById.PATCH s (some user) id data).1 = OrderById.forbidden ∧
    (OrderById.PATCH s (some user) id data).2 = s := by
  simp [OrderById.PATCH, horder, hlisting, hrole, hne, OrderById.forbidden]

theorem patch_collector_not_owner_forbidden_witness :
    order1.buyerId = "u1" ∧
    (OrderById.PATCH store1 (some ⟨"u1", some "COLLECTOR"⟩) "o1" ⟨some "ACCEPTED"⟩).1.status = 403 ∧
    (OrderById.PATCH store1 (some ⟨"u1", some "COLLECTOR"⟩) "o1" ⟨some "ACCEPTED"⟩).1
      = OrderById.forbidden ∧
    (OrderById.PATCH store1 (some ⟨"u1", some "COLLECTOR"⟩) "o1" ⟨some "ACCEPTED"⟩).2 = store1 :=
  ⟨rfl, patch_collector_not_owner_forbidden store1 ⟨"u1", some "COLLECTOR"⟩ "o1"
    ⟨some "ACCEPTED"⟩ order1 listingA (by decide) (by decide) rfl (by decide)⟩

/-- C3: when the requester is a `COLLECTOR` whose id is the `userId` of the order's listing,
or is `INDIVIDUAL`, `BUSINESS` or `COMMUNITY` with the id of the order's buyer, `PATCH` with
a status in its body answers 200 with the updated order; in the store the order has exactly
that status, its other fields and every other order stay as they were, and so do the other
tables. -/
theorem patch_authorized_sets_status (s : Store) (user : SessionUser) (id : String)
    (data : OrderById.PatchBody) (order : Order) (st : String)
    (horder : findOrder s id = some order)
    (hstatus : data.status = some st)
    (hauth : (user.userType = some "COLLECTOR" ∧
        ∃ l, findListing s order.listingId = some l ∧ l.userId = user.id) ∨
      ((user.userType = some "INDIVIDUAL" ∨ user.userType = some "BUSINESS" ∨
        user.userType = some "COMMUNITY") ∧ order.buyerId = user.id)) :
    (OrderById.PATCH s (some user) id data).1.status = 200 ∧
    (∃ view, (OrderById.PATCH s (some user) id data).1.body
        = .order (some "Order status updated successfully") view ∧
      view.order = { order with status := st }) ∧
    findOrder (OrderById.PATCH s (some user) id data).2 id = some { order with status := st } ∧
    (∃ pre post, s.orders = pre ++ order :: post ∧ (∀ o ∈ pre, o.id ≠ id) ∧
      (OrderById.PATCH s (some user) id data).2.orders
        = pre ++ { order with status := st } :: post) ∧
    (OrderById.PATCH s (some user) id data).2.users = s.users ∧
    (OrderById.PATCH s (some user) id data).2.listings = s.listings ∧
    (OrderById.PATCH s (some user) id data).2.collections = s.collections ∧
    (OrderById.PATCH s (some user) id data).2.products = s.products := by
  obtain ⟨pre, post, hsplit, hpre, hid⟩ := find_split _ _ _ horder
  have hupd : updateFirst id (setStatus (some st)) s.orders
      = pre ++ { order with status := st } :: post := by
    rw [hsplit]
    exact updateFirst_append id _ pre post order hpre hid
  have hfind : findOrder (updateOrder s id (some st)) id = some { order with status := st } := by
    unfold findOrder updateOrder
    simp only [hupd]
    exact find_append_hit _ pre post _ hpre hid
  have hpre2 : ∀ o ∈ pre, o.id ≠ id := by
    intro o ho h
    have := hpre o ho
    simp [h] at this
  have key : OrderById.PATCH s (some user) id data
      = (⟨200, .order (some "Order status updated successfully")
            { order := { order with status := st }
              listing := findListing (updateOrder s id (some st)) order.listingId
              listingUser := none
              buyer := findUser (updateOrder s id (some st)) order.buyerId }⟩,
          updateOrder s id (some st)) := by
    rcases hauth with ⟨hrole, l, hl, hown⟩ | ⟨hrole, hbuyer⟩
    · simp [OrderById.PATCH, horder, hl, hrole, hown, hstatus, setStatus]
    · have hnc : user.userType ≠ some "COLLECTOR" := by
        rcases hrole with h | h | h <;> simp [h]
      simp [OrderById.PATCH, horder, hnc, hbuyer, hstatus, setStatus]
  rw [key]
  refine ⟨rfl, ⟨_, rfl, rfl⟩, hfind, ⟨pre, post, hsplit, hpre2, ?_⟩, rfl, rfl, rfl, rfl⟩
  simpa [updateOrder] using hupd

theorem patch_authorized_sets_status_witness :
    (OrderById.PATCH store1 (some ⟨"u2", some "COLLECTOR"⟩) "o1" ⟨some "ACCEPTED"⟩).1.status = 200 ∧
    findOrder (OrderById.PATCH store1 (some ⟨"u2", some "COLLECTOR"⟩) "o1" ⟨some "ACCEPTED"⟩).2 "o1"
      = some { order1 with status := "ACCEPTED" } :=
  have h := patch_authorized_sets_status store1 ⟨"u2", some "COLLECTOR"⟩ "o1" ⟨some "ACCEPTED"⟩
    order1 "ACCEPTED" (by decide) rfl (Or.inl ⟨rfl, listingA, by decide, rfl⟩)
  ⟨h.1, h.2.2.1⟩

/-- C4: for a requester with a session, whatever its `userType`, and an id that names no
stored order, `PATCH` answers 404 and leaves the store as it was. -/
theorem patch_missing_order_not_found (s : Store) (user : SessionUser) (id : String)
    (data : OrderById.PatchBody) (hmissing : findOrder s id = none) :
    (OrderById.PATCH s (some user) id data).1.status = 404 ∧
    (OrderById.PATCH s (some user) id data).1.status ≠ 403 ∧
    (OrderById.PATCH s (some user) id data).1 = ⟨404, .error "Order not found"⟩ ∧
    (OrderById.PATCH s (some user) id data).2 = s := by
  simp [OrderById.PATCH, hmissing]

theorem patch_missing_order_not_found_witness :
    (OrderById.PATCH store1 (some ⟨"u9", some "COLLECTOR"⟩) "o7" ⟨some "PAID"⟩).1.status = 404 ∧
    (OrderById.PATCH store1 (some ⟨"u9", some "COLLECTOR"⟩) "o7" ⟨some "PAID"⟩).1.status ≠ 403 ∧
    (OrderById.PATCH store1 (some ⟨"u9", some "COLLECTOR"⟩) "o7" ⟨some "PAID"⟩).1
      = ⟨404, .error "Order not found"⟩ ∧
    (OrderById.PATCH store1 (some ⟨"u9", some "COLLECTOR"⟩) "o7" ⟨some "PAID"⟩).2 = store1 :=
  patch_missing_order_not_found store1 ⟨"u9", some "COLLECTOR"⟩ "o7" ⟨some "PAID"⟩ (by decide)

/-! ## `POST /api/orders` -/

theorem char_of_toNat (c : Char) (n : Nat) (h : c.toNat = n) : c = Char.ofNat n := by
  subst h; simp

theorem char_le_iff (a b : Char) : a ≤ b ↔ a.toNat ≤ b.toNat := by
  simp only [Char.le_def, UInt32.le_def, BitVec.le_def]
  rfl

theorem isHexDigit_mem (c : Char) (h : Orders.isHexDigit c = true) :
    c ∈ "0123456789abcdefABCDEF".toList := by
  simp only [Orders.isHexDigit, Bool.or_eq_true, Bool.and_eq_true, decide_eq_true_eq,
    char_le_iff] at h
  have h0 : '0'.toNat = 48 := rfl
  have h9 : '9'.toNat = 57 := rfl
  have ha : 'a'.toNat = 97 := rfl
  have hf : 'f'.toNat = 102 := rfl
  have hA : 'A'.toNat = 65 := rfl
  have hF : 'F'.toNat = 70 := rfl
  rw [h0, h9, ha, hf, hA, hF] at h
  generalize hn : c.toNat = n at h
  have hc := char_of_toNat c n hn
  subst hc
  rcases h with (⟨h1, h2⟩ | ⟨h1, h2⟩) | ⟨h1, h2⟩ <;> interval_cases n <;> decide

theorem mem_isHexDigit (c : Char) (h : c ∈ "0123456789abcdefABCDEF".toList) :
    Orders.isHexDigit c = true := by
  simp only [String.toList, List.mem_cons, List.mem_nil_iff, or_false] at h
  rcases h with h | h | h | h | h | h | h | h | h | h | h | h | h | h | h | h | h | h | h | h |
    h | h <;> subst h <;> decide

theorem isValidObjectId_iff (t : String) :
    Orders.isValidObjectId (some t) = true ↔ IsObjectIdString t := by
  simp only [Orders.isValidObjectId, IsObjectIdString, Bool.and_eq_true, beq_iff_eq,
    List.all_eq_true, String.length, String.toList]
  constructor
  · rintro ⟨h1, h2⟩
    exact ⟨h1, fun c hc => isHexDigit_mem c (h2 c hc)⟩
  · rintro ⟨h1, h2⟩
    exact ⟨h1, fun c hc => mem_isHexDigit c (h2 c hc)⟩

theorem find_some_pred {α : Type} (p : α → Bool) (xs : List α) (x : α)
    (h : xs.find? p = some x) : p x = true := by
  obtain ⟨_, _, _, _, hx⟩ := find_split p xs x h
  exact hx

theorem post_created (lib : Orders.PointsLib) (env : Orders.Env) (s : Store)
    (user : SessionUser) (data : Orders.PostBody) (lid : String) (listing : Listing)
    (hid : orElseStr data.listingId data.productId = some lid)
    (hwf : IsObjectIdString lid)
    (hfound : findListing s lid = some listing) :
    Orders.POST lib env s (some user) data =
      ⟨match findUser s user.id with
        | some buyer => ⟨200, .order (some "Order placed successfully")
            { order := Orders.newOrder env user listing data
              listing := some listing
              listingUser := none
              buyer := some buyer }⟩
        | none => ⟨500, .error "Failed to create order"⟩,
       { s with
         orders := s.orders ++ [Orders.newOrder env user listing data]
         users := (Orders.pointsStep lib user.userType (orZero data.quantity) s.users).1 },
       (Orders.pointsStep lib user.userType (orZero data.quantity) s.users).2⟩ := by
  have hvalid : Orders.isValidObjectId (some lid) = true := (isValidObjectId_iff lid).mpr hwf
  have hlid : listing.id = lid := by
    have := find_some_pred _ _ _ hfound
    simpa using this
  have hfound2 : findListing s listing.id = some listing := by rw [hlid]; exact hfound
  have e1 : ∀ os : List Order,
      findUser { s with orders := os } (Orders.newOrder env user listing data).buyerId
        = findUser s user.id := fun _ => rfl
  have e2 : ∀ os : List Order,
      findListing { s with orders := os } (Orders.newOrder env user listing data).listingId
        = some listing := fun _ => hfound2
  unfold Orders.POST
  simp only [hid, hvalid, Option.bind, hfound, e1, e2]
  cases findUser s user.id <;> rfl

/-- C5 (amended): a request with a session whose listing identifier is well formed and names
a stored listing adds exactly one order to the store, with status `PENDING`, the session
user as buyer and the listing's id; the other tables of listings, collections and products
stay as they were. When the session user has a user record, the response is the 200
success response carrying that order. -/
theorem post_valid_listing_creates_pending_order (lib : Orders.PointsLib) (env : Orders.Env)
    (s : Store) (user : SessionUser) (data : Orders.PostBody) (lid : String)
    (listing : Listing)
    (hid : orElseStr data.listingId data.productId = some lid)
    (hwf : IsObjectIdString lid)
    (hfound : findListing s lid = some listing) :
    ∃ order : Order,
      (Orders.POST lib env s (some user) data).store.orders = s.orders ++ [order] ∧
      order.status = "PENDING" ∧ order.buyerId = user.id ∧ order.listingId = listing.id ∧
      listing.id = lid ∧
      (Orders.POST lib env s (some user) data).store.listings = s.listings ∧
      (Orders.POST lib env s (some user) data).store.collections = s.collections ∧
      (Orders.POST lib env s (some user) data).store.products = s.products ∧
      (∀ buyer, findUser s user.id = some buyer →
        (Orders.POST lib env s (some user) data).response.status = 200 ∧
        ∃ view, (Orders.POST lib env s (some user) data).response.body
            = .order (some "Order placed successfully") view ∧
          view.order = order ∧ view.buyer = some buyer ∧ view.listing = some listing) := by
  have hlid : listing.id = lid := by
    have := find_some_pred _ _ _ hfound
    simpa using this
  rw [post_created lib env s user data lid listing hid hwf hfound]
  refine ⟨Orders.newOrder env user listing data, rfl, rfl, rfl, rfl, hlid, rfl, rfl, rfl, ?_⟩
  intro buyer hbuyer
  rw [hbuyer]
  exact ⟨rfl, _, rfl, rfl, rfl, rfl⟩

theorem post_valid_listing_creates_pending_order_witness :
    ∃ order : Order,
      (Orders.POST samplePoints ⟨"o3", 3000⟩ store1 (some ⟨"u1", some "INDIVIDUAL"⟩)
        ⟨some "aaaaaaaaaaaaaaaaaaaaaaaa", none, some 2, some 240⟩).store.orders
        = store1.orders ++ [order] ∧
      order.status = "PENDING" ∧ order.buyerId = "u1" ∧
      order.listingId = "aaaaaaaaaaaaaaaaaaaaaaaa" ∧
      (Orders.POST samplePoints ⟨"o3", 3000⟩ store1 (some ⟨"u1", some "INDIVIDUAL"⟩)
        ⟨some "aaaaaaaaaaaaaaaaaaaaaaaa", none, some 2, some 240⟩).response.status = 200 := by
  obtain ⟨order, h1, h2, h3, h4, _, _, _, _, h5⟩ :=
    post_valid_listing_creates_pending_order samplePoints ⟨"o3", 3000⟩ store1
      ⟨"u1", some "INDIVIDUAL"⟩ ⟨some "aaaaaaaaaaaaaaaaaaaaaaaa", none, some 2, some 240⟩
      "aaaaaaaaaaaaaaaaaaaaaaaa" listingA (by decide) (by decide) (by decide)
  exact ⟨order, h1, h2, h3, h4, (h5 alice (by decide)).1⟩

/-- On a body whose identifiers are strings or absent: when the effective listing identifier
(`listingId`, or `productId` when `listingId` is missing or empty) is missing or is not a
string of exactly 24 hexadecimal digits, the request is answered 400; the store is left as
it was, `distributePoints` is not called, and the answer is the same whatever the store
holds. Identifiers that hold other JSON values are treated with `Orders.Raw.POST`. -/
theorem post_malformed_id_rejected (lib : Orders.PointsLib) (env : Orders.Env) (s : Store)
    (user : SessionUser) (data : Orders.PostBody)
    (hbad : ∀ t, orElseStr data.listingId data.productId = some t → ¬ IsObjectIdString t) :
    (Orders.POST lib env s (some user) data).response.status = 400 ∧
    (Orders.POST lib env s (some user) data).response
      = ⟨400, .error "Invalid listing ID format"⟩ ∧
    (Orders.POST lib env s (some user) data).store = s ∧
    (Orders.POST lib env s (some user) data).distributed = [] ∧
    ∀ s2 : Store, (Orders.POST lib env s2 (some user) data).response
      = ⟨400, .error "Invalid listing ID format"⟩ := by
  have hinvalid : Orders.isValidObjectId (orElseStr data.listingId data.productId) = false := by
    cases h : orElseStr data.listingId data.productId with
    | none => rfl
    | some t =>
      have := hbad t h
      rw [← isValidObjectId_iff] at this
      simpa using this
  have key : ∀ s2 : Store, Orders.POST lib env s2 (some user) data
      = ⟨⟨400, .error "Invalid listing ID format"⟩, s2, []⟩ := by
    intro s2
    simp [Orders.POST, hinvalid]
  refine ⟨?_, ?_, ?_, ?_, ?_⟩
  · rw [key]
  · rw [key]
  · rw [key]
  · rw [key]
  · intro s2; rw [key]

theorem post_malformed_id_rejected_witness :
    (Orders.POST samplePoints ⟨"o3", 3000⟩ store1 (some ⟨"u3", some "BUSINESS"⟩)
      ⟨some "", some "aaaaaaaaaaaaaaaaaaaaaaag", some 50, some 100⟩).response.status = 400 ∧
    (Orders.POST samplePoints ⟨"o3", 3000⟩ store1 (some ⟨"u3", some "BUSINESS"⟩)
      ⟨some "", some "aaaaaaaaaaaaaaaaaaaaaaag", some 50, some 100⟩).store = store1 :=
  have h := post_malformed_id_rejected samplePoints ⟨"o3", 3000⟩ store1
    ⟨"u3", some "BUSINESS"⟩ ⟨some "", some "aaaaaaaaaaaaaaaaaaaaaaag", some 50, some 100⟩
    (by
      intro t ht hwf
      have hv := (isValidObjectId_iff t).mpr hwf
      have ht2 : t = "aaaaaaaaaaaaaaaaaaaaaaag" := by
        have : some "aaaaaaaaaaaaaaaaaaaaaaag" = some t := ht
        exact (Option.some.inj this).symm
      subst ht2
      exact absurd hv (by decide))
  ⟨h.1, h.2.2.1⟩

/-- C7: a request with a session whose listing identifier is well formed but names no stored
listing is answered 404; no order is created, the store is left as it was and
`distributePoints` is not called. -/
theorem post_unknown_listing_not_found (lib : Orders.PointsLib) (env : Orders.Env) (s : Store)
    (user : SessionUser) (data : Orders.PostBody) (lid : String)
    (hid : orElseStr data.listingId data.productId = some lid)
    (hwf : IsObjectIdString lid)
    (hmissing : findListing s lid = none) :
    (Orders.POST lib env s (some user) data).response.status = 404 ∧
    (Orders.POST lib env s (some user) data).response = ⟨404, .error "Listing not found"⟩ ∧
    (Orders.POST lib env s (some user) data).store = s ∧
    (Orders.POST lib env s (some user) data).distributed = [] := by
  have hvalid : Orders.isValidObjectId (some lid) = true := (isValidObjectId_iff lid).mpr hwf
  have key : Orders.POST lib env s (some user) data
      = ⟨⟨404, .error "Listing not found"⟩, s, []⟩ := by
    simp [Orders.POST, hid, hvalid, hmissing]
  rw [key]
  exact ⟨rfl, rfl, rfl, rfl⟩

theorem post_unknown_listing_not_found_witness :
    (Orders.POST samplePoints ⟨"o3", 3000⟩ store1 (some ⟨"u3", some "BUSINESS"⟩)
      ⟨none, some "bbbbbbbbbbbbbbbbbbbbbbbb", some 50, some 100⟩).response.status = 404 ∧
    (Orders.POST samplePoints ⟨"o3", 3000⟩ store1 (some ⟨"u3", some "BUSINESS"⟩)
      ⟨none, some "bbbbbbbbbbbbbbbbbbbbbbbb", some 50, some 100⟩).store = store1 ∧
    (Orders.POST samplePoints ⟨"o3", 3000⟩ store1 (some ⟨"u3", some "BUSINESS"⟩)
      ⟨none, some "bbbbbbbbbbbbbbbbbbbbbbbb", some 50, some 100⟩).distributed = [] :=
  have h := post_unknown_listing_not_found samplePoints ⟨"o3", 3000⟩ store1
    ⟨"u3", some "BUSINESS"⟩ ⟨none, some "bbbbbbbbbbbbbbbbbbbbbbbb", some 50, some 100⟩
    "bbbbbbbbbbbbbbbbbbbbbbbb" (by decide) (by decide) (by decide)
  ⟨h.1, h.2.2.1, h.2.2.2⟩

theorem createsOrder_unique {s : Store} {session : Option SessionUser} {data : Orders.PostBody}
    {u1 u2 : SessionUser} {l1 l2 : Listing}
    (h1 : CreatesOrder s session data u1 l1) (h2 : CreatesOrder s session data u2 l2) :
    u1 = u2 ∧ l1 = l2 := by
  obtain ⟨hs1, lid1, hid1, _, hf1⟩ := h1
  obtain ⟨hs2, lid2, hid2, _, hf2⟩ := h2
  have hu : u1 = u2 := Option.some.inj (hs1.symm.trans hs2)
  have hl : lid1 = lid2 := Option.some.inj (hid1.symm.trans hid2)
  subst hl
  exact ⟨hu, Option.some.inj (hf1.symm.trans hf2)⟩

theorem post_outcome (lib : Orders.PointsLib) (env : Orders.Env) (s : Store)
    (session : Option SessionUser) (data : Orders.PostBody) :
    ((Orders.POST lib env s session data).store = s ∧
      (Orders.POST lib env s session data).distributed = [] ∧
      ∀ user listing, ¬ CreatesOrder s session data user listing) ∨
    ∃ user listing, CreatesOrder s session data user listing ∧
      (Orders.POST lib env s session data).store.users
        = (Orders.pointsStep lib user.userType
            (Orders.newOrder env user listing data).quantity s.users).1 ∧
      (Orders.POST lib env s session data).distributed
        = (Orders.pointsStep lib user.userType
            (Orders.newOrder env user listing data).quantity s.users).2 := by
  cases session with
  | none =>
    left
    refine ⟨rfl, rfl, ?_⟩
    rintro user listing ⟨h, _⟩
    cases h
  | some user =>
    by_cases hbad : ∀ t, orElseStr data.listingId data.productId = some t → ¬ IsObjectIdString t
    · left
      have hinvalid :
          Orders.isValidObjectId (orElseStr data.listingId data.productId) = false := by
        cases h : orElseStr data.listingId data.productId with
        | none => rfl
        | some t =>
          have := hbad t h
          rw [← isValidObjectId_iff] at this
          simpa using this
      have key : Orders.POST lib env s (some user) data
          = ⟨⟨400, .error "Invalid listing ID format"⟩, s, []⟩ := by
        simp [Orders.POST, hinvalid]
      rw [key]
      refine ⟨rfl, rfl, ?_⟩
      rintro u l ⟨_, lid, hid, hwf, _⟩
      exact hbad lid hid hwf
    · push_neg at hbad
      obtain ⟨lid, hid, hwf⟩ := hbad
      cases hfound : findListing s lid with
      | none =>
        left
        have hvalid : Orders.isValidObjectId (some lid) = true :=
          (isValidObjectId_iff lid).mpr hwf
        have key : Orders.POST lib env s (some user) data
            = ⟨⟨404, .error "Listing not found"⟩, s, []⟩ := by
          simp [Orders.POST, hid, hvalid, hfound]
        rw [key]
        refine ⟨rfl, rfl, ?_⟩
        rintro u l ⟨_, lid2, hid2, _, hf2⟩
        have hl : lid = lid2 := Option.some.inj (hid.symm.trans hid2)
        subst hl
        rw [hfound] at hf2
        cases hf2
      | some listing =>
        right
        refine ⟨user, listing, ⟨rfl, lid, hid, hwf, hfound⟩, ?_, ?_⟩
        · rw [post_created lib env s user data lid listing hid hwf hfound]
          rfl
        · rw [post_created lib env s user data lid listing hid hwf hfound]
          rfl

theorem pointsStep_calls (lib : Orders.PointsLib) (userType : Option String) (q : ℚ)
    (users : List User) (p : Int) :
    (Orders.pointsStep lib userType q users).2 = [p] ↔
      userType = some "BUSINESS" ∧ lib.calculatePoints q = .ok p ∧ 0 < p := by
  unfold Orders.pointsStep
  by_cases hrole : userType = some "BUSINESS"
  · cases hcalc : lib.calculatePoints q with
    | error e => simp [hrole]
    | ok x =>
      by_cases hpos : x > 0
      · simp only [hrole, if_true, hpos, true_and, List.cons.injEq, and_true, Except.ok.injEq]
        constructor
        · intro h; subst h; exact ⟨rfl, hpos⟩
        · intro h; exact h.1
      · simp only [hrole, if_true, hpos, if_false, true_and, Except.ok.injEq]
        constructor
        · intro h; cases h
        · rintro ⟨h, hp⟩; subst h; exact absurd hp hpos
  · simp [hrole]

theorem pointsStep_shape (lib : Orders.PointsLib) (userType : Option String) (q : ℚ)
    (users : List User) :
    ((Orders.pointsStep lib userType q users).2 = [] ∧
      (Orders.pointsStep lib userType q users).1 = users) ∨
    ∃ p, (Orders.pointsStep lib userType q users).2 = [p] ∧
      (Orders.pointsStep lib userType q users).1 = (lib.distributePoints users p).users := by
  unfold Orders.pointsStep
  by_cases hrole : userType = some "BUSINESS"
  · cases hcalc : lib.calculatePoints q with
    | error e => left; simp [hrole]
    | ok x =>
      by_cases hpos : x > 0
      · right; exact ⟨x, by simp [hrole, hpos], by simp [hrole, hpos]⟩
      · left; simp [hrole, hpos]
  · left; simp [hrole]

theorem patch_users (s : Store) (session : Option SessionUser) (id : String)
    (data : OrderById.PatchBody) : (OrderById.PATCH s session id data).2.users = s.users := by
  unfold OrderById.PATCH
  cases session with
  | none => rfl
  | some user =>
    simp only
    cases findOrder s id with
    | none => rfl
    | some order =>
      simp only
      split
      · cases findListing s order.listingId with
        | none => rfl
        | some l =>
          simp only
          split <;> rfl
      · split <;> rfl

theorem orders_get_store (s : Store) (session : Option SessionUser) :
    (Orders.GET s session).2 = s := by
  unfold Orders.GET
  cases session with
  | none => rfl
  | some user =>
    simp only
    split <;> rfl

theorem order_get_store (s : Store) (session : Option SessionUser) (id : String) :
    (OrderById.GET s session id).2 = s := by
  unfold OrderById.GET
  cases session with
  | none => rfl
  | some user =>
    simp only
    cases findOrder s id <;> rfl

theorem dashboard_get_store (fmt : ℚ → String) (now : Int) (s : Store)
    (session : Option SessionUser) : (Dashboard.GET fmt now s session).2 = s := by
  unfold Dashboard.GET
  cases session <;> rfl

/-- The calls of `distributePoints`, on the `userType` exactly as the handler compares it:
`POST /api/orders` calls `distributePoints` with the amount p if and only if the request
creates an order, the session's `userType` is the string `BUSINESS` and `calculatePoints` of
the order's quantity returns p with p positive; it then calls it exactly once, and the user
table changes only through that call. For every other `userType`, other spellings of
business included, no call is made and the user table is left as it was;
`GET /api/orders`, `GET /api/orders/{id}` and `GET /api/dashboard` leave the whole store as
it was and `PATCH /api/orders/{id}` leaves the user table as it was. -/
theorem points_only_on_business_order_creation (lib : Orders.PointsLib) (env : Orders.Env)
    (s : Store) (session : Option SessionUser) (data : Orders.PostBody) (id : String)
    (patch : OrderById.PatchBody) (fmt : ℚ → String) (now : Int) :
    (∀ p, (Orders.POST lib env s session data).distributed = [p] ↔
      ∃ user listing, CreatesOrder s session data user listing ∧
        user.userType = some "BUSINESS" ∧
        lib.calculatePoints (Orders.newOrder env user listing data).quantity = .ok p ∧
        0 < p) ∧
    ((Orders.POST lib env s session data).distributed = [] ∨
      ∃ p, (Orders.POST lib env s session data).distributed = [p]) ∧
    ((Orders.POST lib env s session data).distributed = [] →
      (Orders.POST lib env s session data).store.users = s.users) ∧
    (∀ p, (Orders.POST lib env s session data).distributed = [p] →
      (Orders.POST lib env s session data).store.users = (lib.distributePoints s.users p).users) ∧
    (∀ user, session = some user → user.userType ≠ some "BUSINESS" →
      (Orders.POST lib env s session data).distributed = [] ∧
      (Orders.POST lib env s session data).store.users = s.users) ∧
    (Orders.GET s session).2 = s ∧
    (OrderById.GET s session id).2 = s ∧
    (OrderById.PATCH s session id patch).2.users = s.users ∧
    (Dashboard.GET fmt now s session).2 = s := by
  refine ⟨?_, ?_, ?_, ?_, ?_, orders_get_store s session, order_get_store s session id,
    patch_users s session id patch, dashboard_get_store fmt now s session⟩
  · intro p
    rcases post_outcome lib env s session data with ⟨_, hd, hno⟩ | ⟨user, listing, hc, _, hd⟩
    · rw [hd]
      constructor
      · intro h; cases h
      · rintro ⟨user, listing, hc, _⟩
        exact absurd hc (hno user listing)
    · rw [hd, pointsStep_calls]
      constructor
      · rintro ⟨hrole, hcalc, hpos⟩
        exact ⟨user, listing, hc, hrole, hcalc, hpos⟩
      · rintro ⟨u2, l2, hc2, hrole, hcalc, hpos⟩
        obtain ⟨hu, hl⟩ := createsOrder_unique hc hc2
        subst hu hl
        exact ⟨hrole, hcalc, hpos⟩
  · rcases post_outcome lib env s session data with ⟨_, hd, _⟩ | ⟨user, listing, _, _, hd⟩
    · exact Or.inl hd
    · rw [hd]
      rcases pointsStep_shape lib user.userType
          (Orders.newOrder env user listing data).quantity s.users with ⟨h, _⟩ | ⟨p, h, _⟩
      · exact Or.inl h
      · exact Or.inr ⟨p, h⟩
  · intro hnil
    rcases post_outcome lib env s session data with ⟨hs, _, _⟩ | ⟨user, listing, _, hu, hd⟩
    · rw [hs]
    · rw [hu]
      rw [hd] at hnil
      rcases pointsStep_shape lib user.userType
          (Orders.newOrder env user listing data).quantity s.users with ⟨_, h⟩ | ⟨p, h, _⟩
      · exact h
      · rw [h] at hnil; cases hnil
  · intro p hp
    rcases post_outcome lib env s session data with ⟨_, hd, _⟩ | ⟨user, listing, _, hu, hd⟩
    · rw [hd] at hp; cases hp
    · rw [hu]
      rw [hd] at hp
      rcases pointsStep_shape lib user.userType
          (Orders.newOrder env user listing data).quantity s.users with ⟨h, _⟩ | ⟨p2, h, h2⟩
      · rw [h] at hp; cases hp
      · rw [h] at hp
        cases hp
        exact h2
  · intro user hsession hrole
    rcases post_outcome lib env s session data with ⟨hs, hd, _⟩ | ⟨u2, listing, hc, hu, hd⟩
    · exact ⟨hd, by rw [hs]⟩
    · have hu2 : u2 = user := Option.some.inj (hc.1.symm.trans hsession)
      subst hu2
      have hstep : Orders.pointsStep lib u2.userType
          (Orders.newOrder env u2 listing data).quantity s.users = (s.users, []) := by
        simp [Orders.pointsStep, hrole]
      rw [hd, hu, hstep]
      exact ⟨rfl, rfl⟩

theorem points_only_on_business_order_creation_witness :
    (Orders.POST samplePoints ⟨"o3", 3000⟩ store1 (some ⟨"u3", some "BUSINESS"⟩)
      ⟨some "aaaaaaaaaaaaaaaaaaaaaaaa", none, some 50, some 6000⟩).distributed = [5] :=
  ((points_only_on_business_order_creation samplePoints ⟨"o3", 3000⟩ store1
      (some ⟨"u3", some "BUSINESS"⟩) ⟨some "aaaaaaaaaaaaaaaaaaaaaaaa", none, some 50, some 6000⟩
      "o1" ⟨none⟩ (fun _ => "") 0).1 5).mpr
    ⟨⟨"u3", some "BUSINESS"⟩, listingA,
      by decide, rfl, rfl, by decide⟩

/-- C9: when the request creates an order for a session whose `userType` is `BUSINESS` (the
session user having a user record) and `calculatePoints` throws, or `distributePoints` is
called and throws, `POST` still answers with the 200 success response carrying the created
order, and the created order is in the store. -/
theorem post_points_failure_is_swallowed (lib : Orders.PointsLib) (env : Orders.Env)
    (s : Store) (user : SessionUser) (data : Orders.PostBody) (listing : Listing)
    (buyer : User)
    (hcreates : CreatesOrder s (some user) data user listing)
    (hbuyer : findUser s user.id = some buyer)
    (hrole : user.userType = some "BUSINESS")
    (_hfail : (∃ e, lib.calculatePoints (Orders.newOrder env user listing data).quantity
          = .error e) ∨
      ∃ p, lib.calculatePoints (Orders.newOrder env user listing data).quantity = .ok p ∧
        0 < p ∧ (lib.distributePoints s.users p).threw = true) :
    (Orders.POST lib env s (some user) data).response.status = 200 ∧
    (Orders.POST lib env s (some user) data).response.body
      = .order (some "Order placed successfully")
          { order := Orders.newOrder env user listing data
            listing := some listing
            listingUser := none
            buyer := some buyer } ∧
    (Orders.POST lib env s (some user) data).store.orders
      = s.orders ++ [Orders.newOrder env user listing data] ∧
    Orders.newOrder env user listing data ∈ (Orders.POST lib env s (some user) data).store.orders ∧
    ((∃ e, lib.calculatePoints (Orders.newOrder env user listing data).quantity = .error e) →
      (Orders.POST lib env s (some user) data).store.users = s.users) := by
  obtain ⟨_, lid, hid, hwf, hfound⟩ := hcreates
  rw [post_created lib env s user data lid listing hid hwf hfound, hbuyer]
  refine ⟨rfl, rfl, rfl, by simp, ?_⟩
  rintro ⟨e, he⟩
  have hq : (Orders.newOrder env user listing data).quantity = orZero data.quantity := rfl
  rw [hq] at he
  simp [Orders.pointsStep, hrole, he]

theorem post_points_failure_is_swallowed_witness :
    (Orders.POST throwingPoints ⟨"o3", 3000⟩ store1 (some ⟨"u3", some "BUSINESS"⟩)
      ⟨some "aaaaaaaaaaaaaaaaaaaaaaaa", none, some 50, some 6000⟩).response.status = 200 ∧
    (Orders.POST throwingPoints ⟨"o3", 3000⟩ store1 (some ⟨"u3", some "BUSINESS"⟩)
      ⟨some "aaaaaaaaaaaaaaaaaaaaaaaa", none, some 50, some 6000⟩).store.orders
      = store1.orders ++ [⟨"o3", "u3", "aaaaaaaaaaaaaaaaaaaaaaaa", 50, some 6000, "PENDING",
          some 3000⟩] :=
  have h := post_points_failure_is_swallowed throwingPoints ⟨"o3", 3000⟩ store1
    ⟨"u3", some "BUSINESS"⟩ ⟨some "aaaaaaaaaaaaaaaaaaaaaaaa", none, some 50, some 6000⟩
    listingA carol
    (by decide) (by decide) rfl (Or.inr ⟨5, rfl, by decide, rfl⟩)
  ⟨h.1, h.2.2.1⟩

/-! ## `GET /api/orders` -/

theorem toUpper_toLower (c : Char) : Char.toUpper (Char.toLower c) = Char.toUpper c := by
  by_cases h : c.toNat ≥ 65 ∧ c.toNat ≤ 90
  · generalize hn : c.toNat = n at h
    have hc := char_of_toNat c n hn
    subst hc
    obtain ⟨h1, h2⟩ := h
    interval_cases n <;> decide
  · have : Char.toLower c = c := by
      unfold Char.toLower
      simp only [h, if_false]
    rw [this]

theorem toUpperCase_toLowerCase (t : String) : toUpperCase (toLowerCase t) = toUpperCase t := by
  simp only [toUpperCase, toLowerCase, List.map_map]
  congr 1
  apply List.map_congr_left
  intro c _
  exact toUpper_toLower c

theorem toLower_toUpper (c : Char) : Char.toLower (Char.toUpper c) = Char.toLower c := by
  by_cases h : c.toNat ≥ 97 ∧ c.toNat ≤ 122
  · generalize hn : c.toNat = n at h
    have hc := char_of_toNat c n hn
    subst hc
    obtain ⟨h1, h2⟩ := h
    interval_cases n <;> decide
  · have : Char.toUpper c = c := by
      unfold Char.toUpper
      simp only [h, if_false]
    rw [this]

theorem toLowerCase_toUpperCase (t : String) : toLowerCase (toUpperCase t) = toLowerCase t := by
  simp only [toUpperCase, toLowerCase, List.map_map]
  congr 1
  apply List.map_congr_left
  intro c _
  exact toLower_toUpper c

theorem normalized_collector_iff (userType : Option String) :
    normalizedUserType userType = "COLLECTOR" ↔ IsCollector userType := by
  unfold normalizedUserType IsCollector
  cases userType with
  | none => simp
  | some t =>
    simp only [Option.some.injEq, exists_eq_left']
    by_cases he : toUpperCase t = ""
    · simp only [he, if_true]
      constructor
      · intro h; exact absurd h (by decide)
      · intro h
        have := toUpperCase_toLowerCase t
        rw [h, he] at this
        exact absurd this (by decide)
    · simp only [he, if_false]
      constructor
      · intro h
        have := toLowerCase_toUpperCase t
        rw [h] at this
        rw [← this]
        decide
      · intro h
        have := toUpperCase_toLowerCase t
        rw [h] at this
        rw [← this]
        decide

theorem sortDescBy_sorted {α : Type} (key : α → Option Int) (xs : List α) :
    (sortDescBy key xs).Pairwise (DescBy key) :=
  List.sorted_insertionSort (DescBy key) xs

theorem sortDescBy_perm {α : Type} (key : α → Option Int) (xs : List α) :
    (sortDescBy key xs).Perm xs :=
  List.perm_insertionSort (DescBy key) xs

theorem owned_listing_iff (s : Store) (userId : String) (o : Order) :
    (((s.listings.filter (fun l => l.userId == userId)).map (fun listing => listing.id)).contains
        o.listingId) = decide (∃ l ∈ s.listings, l.userId = userId ∧ l.id = o.listingId) := by
  rw [Bool.eq_iff_iff]
  simp only [List.contains, List.elem_iff, List.mem_map, List.mem_filter, beq_iff_eq,
    decide_eq_true_eq]
  constructor
  · rintro ⟨l, ⟨hl, hu⟩, hid⟩
    exact ⟨l, hl, hu, hid⟩
  · rintro ⟨l, hl, hu, hid⟩
    exact ⟨l, ⟨hl, hu⟩, hid⟩

theorem map_order_views (f : Order → OrderView) (hf : ∀ o, (f o).order = o) (l : List Order) :
    (l.map f).map (fun v => v.order) = l := by
  induction l with
  | nil => rfl
  | cons a as ih => simp [hf a] at ih ⊢; exact ih

/-- C10: `GET /api/orders` with a session answers 200 with a list of orders and a count
equal to the length of the list, and leaves the store as it was. The list is in descending
order of `createdAt` (orders without `createdAt` last). For a session whose role is
collector in any letter case the listed orders are, up to order, the stored orders whose
`listingId` is the id of a listing with the requester as `userId`; for every other session,
also one without `userType`, they are the stored orders whose `buyerId` is the requester's
id. When no stored order qualifies the list is empty. -/
theorem orders_get_lists_by_role (s : Store) (user : SessionUser) :
    ∃ (views : List OrderView) (totalCount : Nat),
      Orders.GET s (some user) = (⟨200, .orders views totalCount⟩, s) ∧
      totalCount = views.length ∧
      (views.map (fun v => v.order)).Pairwise
        (fun a b => dateGe a.createdAt b.createdAt = true) ∧
      (IsCollector user.userType →
        (views.map (fun v => v.order)).Perm
          (s.orders.filter (fun o =>
            decide (∃ l ∈ s.listings, l.userId = user.id ∧ l.id = o.listingId))) ∧
        ((∀ o ∈ s.orders, ¬ ∃ l ∈ s.listings, l.userId = user.id ∧ l.id = o.listingId) →
          views = [])) ∧
      (¬ IsCollector user.userType →
        (views.map (fun v => v.order)).Perm
          (s.orders.filter (fun o => decide (o.buyerId = user.id))) ∧
        ((∀ o ∈ s.orders, o.buyerId ≠ user.id) → views = [])) := by
  by_cases hrole : IsCollector user.userType
  · have hn : normalizedUserType user.userType = "COLLECTOR" :=
      (normalized_collector_iff _).mpr hrole
    have hfilter : s.orders.filter (fun o =>
        ((s.listings.filter (fun l => l.userId == user.id)).map
          (fun listing => listing.id)).contains o.listingId)
        = s.orders.filter (fun o =>
            decide (∃ l ∈ s.listings, l.userId = user.id ∧ l.id = o.listingId)) :=
      List.filter_congr (fun o _ => owned_listing_iff s user.id o)
    simp only [Orders.GET, hn, if_true]
    refine ⟨_, _, rfl, ?_, ?_, ?_, ?_⟩
    · simp [(sortDescBy_perm _ _).length_eq]
    · rw [map_order_views _ (fun _ => rfl)]
      exact sortDescBy_sorted (fun o : Order => o.createdAt) _
    · intro _
      rw [map_order_views _ (fun _ => rfl), hfilter]
      refine ⟨sortDescBy_perm (fun o : Order => o.createdAt) _, ?_⟩
      intro hnone
      have hempty : s.orders.filter (fun o =>
          decide (∃ l ∈ s.listings, l.userId = user.id ∧ l.id = o.listingId)) = [] := by
        rw [List.filter_eq_nil_iff]
        intro o ho
        simpa using hnone o ho
      rw [hempty]
      rfl
    · intro h; exact absurd hrole h
  · have hn : normalizedUserType user.userType ≠ "COLLECTOR" :=
      fun h => hrole ((normalized_collector_iff _).mp h)
    have hfilter : s.orders.filter (fun o => o.buyerId == user.id)
        = s.orders.filter (fun o => decide (o.buyerId = user.id)) :=
      List.filter_congr (fun o _ => by rw [Bool.eq_iff_iff]; simp)
    simp only [Orders.GET, hn, if_false]
    refine ⟨_, _, rfl, ?_, ?_, ?_, ?_⟩
    · simp [(sortDescBy_perm _ _).length_eq]
    · rw [map_order_views _ (fun _ => rfl)]
      exact sortDescBy_sorted (fun o : Order => o.createdAt) _
    · intro h; exact absurd h hrole
    · intro _
      rw [map_order_views _ (fun _ => rfl), hfilter]
      refine ⟨sortDescBy_perm (fun o : Order => o.createdAt) _, ?_⟩
      intro hnone
      have hempty : s.orders.filter (fun o => decide (o.buyerId = user.id)) = [] := by
        rw [List.filter_eq_nil_iff]
        intro o ho
        simpa using hnone o ho
      rw [hempty]
      rfl

theorem orders_get_lists_by_role_witness :
    ∃ (views : List OrderView) (totalCount : Nat),
      Orders.GET store1 (some ⟨"u2", some "Collector"⟩) = (⟨200, .orders views totalCount⟩, store1) ∧
      totalCount = views.length ∧
      (views.map (fun v => v.order)).Perm [order1, order2] := by
  obtain ⟨views, totalCount, h1, h2, _, h4, _⟩ :=
    orders_get_lists_by_role store1 ⟨"u2", some "Collector"⟩
  exact ⟨views, totalCount, h1, h2, (h4 (by decide)).1⟩

/-! ## `GET /api/dashboard` -/

theorem normalized_of_lower (t K : String) (h : toLowerCase t = toLowerCase K)
    (hK : toUpperCase (toLowerCase K) = K) (hne : K ≠ "") :
    normalizedUserType (some t) = K := by
  have hu : toUpperCase t = K := by
    rw [← toUpperCase_toLowerCase t, h, hK]
  simp only [normalizedUserType, hu, hne, if_false]

theorem normalized_business {userType : Option String} (h : IsBusiness userType) :
    normalizedUserType userType = "BUSINESS" := by
  obtain ⟨t, rfl, ht⟩ := h
  exact normalized_of_lower t "BUSINESS" (by rw [ht]; decide) (by decide) (by decide)

theorem normalized_individual {userType : Option String} (h : IsIndividualOrAbsent userType) :
    normalizedUserType userType = "INDIVIDUAL" := by
  rcases h with rfl | ⟨t, rfl, ht⟩
  · rfl
  · exact normalized_of_lower t "INDIVIDUAL" (by rw [ht]; decide) (by decide) (by decide)

theorem dashboard_shape (fmt : ℚ → String) (now : Int) (s : Store) (user : SessionUser) :
    ∃ d : DashboardData,
      Dashboard.GET fmt now s (some user) = (⟨200, .dashboard d⟩, s) ∧
      d.collections = (sortDescBy (fun c => c.date)
        (s.collections.filter (fun c => c.userId == user.id))).take 5 ∧
      d.totalCollections = d.collections.length ∧
      d.recentActivity = (sortDescBy (fun a => some a.date)
        (d.collections.map (Dashboard.collectionActivity fmt now) ++
          ((sortDescBy (fun o => o.createdAt)
            (s.orders.filter (fun o => o.buyerId == user.id))).take 5).map
              (Dashboard.orderActivity now))).take 5 ∧
      (normalizedUserType user.userType = "INDIVIDUAL" →
        d.points = ((findUser s user.id).bind (fun u => u.points)).getD 0 ∧
        d.totalOrders = (s.orders.filter (fun o => o.buyerId == user.id)).length) ∧
      (normalizedUserType user.userType = "BUSINESS" →
        d.totalOrders = (s.orders.filter (fun o => o.buyerId == user.id)).length ∧
        d.totalSpent = some (Dashboard.sumTotalPrice
          (s.orders.filter (fun o => o.buyerId == user.id)))) ∧
      (normalizedUserType user.userType = "COLLECTOR" →
        d.products = s.products.filter (fun p => p.sellerId == user.id) ∧
        d.totalProducts = (s.products.filter (fun p => p.sellerId == user.id)).length ∧
        d.orders = some ((sortDescBy (fun o => o.createdAt)
          (s.orders.filter (fun o =>
            ((s.listings.filter (fun l => l.userId == user.id)).map
              (fun listing => listing.id)).contains o.listingId))).map (fun o =>
            { order := o
              listing := findListing s o.listingId
              listingUser := none
              buyer := findUser s o.buyerId })) ∧
        d.totalOrders = (sortDescBy (fun o => o.createdAt)
          (s.orders.filter (fun o =>
            ((s.listings.filter (fun l => l.userId == user.id)).map
              (fun listing => listing.id)).contains o.listingId))).length ∧
        d.totalRevenue = some (Dashboard.sumTotalPrice (sortDescBy (fun o => o.createdAt)
          (s.orders.filter (fun o =>
            ((s.listings.filter (fun l => l.userId == user.id)).map
              (fun listing => listing.id)).contains o.listingId))))) := by
  unfold Dashboard.GET
  simp only
  split_ifs with h1 h2 h3
  · refine ⟨_, rfl, rfl, rfl, rfl, fun _ => ⟨rfl, rfl⟩, fun h => ?_, fun h => ?_⟩
    · exact absurd (h1.symm.trans h) (by decide)
    · exact absurd (h1.symm.trans h) (by decide)
  · refine ⟨_, rfl, rfl, rfl, rfl, fun h => absurd h h1, fun _ => ⟨rfl, rfl⟩, fun h => ?_⟩
    exact absurd (h2.symm.trans h) (by decide)
  · exact ⟨_, rfl, rfl, rfl, rfl, fun h => absurd h h1, fun h => absurd h h2,
      fun _ => ⟨rfl, rfl, rfl, rfl, rfl⟩⟩
  · exact ⟨_, rfl, rfl, rfl, rfl, fun h => absurd h h1, fun h => absurd h h2,
      fun h => absurd h h3⟩

theorem orZero_eq (x : Option ℚ) : orZero x = x.getD 0 := by
  cases x with
  | none => rfl
  | some v =>
    by_cases h : v = 0
    · simp [orZero, h]
    · simp [orZero, h]

theorem foldl_add_eq_sum {α : Type} (f : α → ℚ) (xs : List α) (acc : ℚ) :
    xs.foldl (fun sum x => sum + f x) acc = acc + (xs.map f).sum := by
  induction xs generalizing acc with
  | nil => simp
  | cons a as ih => simp [ih, add_assoc]

theorem sumTotalPrice_eq (os : List Order) :
    Dashboard.sumTotalPrice os = (os.map (fun o => o.totalPrice.getD 0)).sum := by
  unfold Dashboard.sumTotalPrice
  rw [foldl_add_eq_sum (fun o : Order => orZero o.totalPrice) os 0]
  simp [orZero_eq]

theorem filter_beq_eq_decide (s : Store) (userId : String) :
    s.orders.filter (fun o => o.buyerId == userId)
      = s.orders.filter (fun o => decide (o.buyerId = userId)) :=
  List.filter_congr (fun o _ => by rw [Bool.eq_iff_iff]; simp)

/-- C11: for every request with a session, `GET /api/dashboard` answers 200 with a dashboard
whose `recentActivity` has at most 5 entries, each entry dated no earlier than the entries
after it. -/
theorem dashboard_recentActivity_bounded_sorted (fmt : ℚ → String) (now : Int) (s : Store)
    (user : SessionUser) :
    ∃ d : DashboardData,
      Dashboard.GET fmt now s (some user) = (⟨200, .dashboard d⟩, s) ∧
      d.recentActivity.length ≤ 5 ∧
      d.recentActivity.Pairwise (fun a b => b.date ≤ a.date) := by
  obtain ⟨d, hget, _, _, hfeed, _⟩ := dashboard_shape fmt now s user
  refine ⟨d, hget, ?_, ?_⟩
  · rw [hfeed]
    exact List.length_take_le _ _
  · rw [hfeed]
    have hsorted := sortDescBy_sorted (fun a : Activity => some a.date)
      (d.collections.map (Dashboard.collectionActivity fmt now) ++
        ((sortDescBy (fun o => o.createdAt)
          (s.orders.filter (fun o => o.buyerId == user.id))).take 5).map
            (Dashboard.orderActivity now))
    have htake := hsorted.sublist (List.take_sublist 5 _)
    refine htake.imp ?_
    intro a b hab
    simpa [DescBy, dateGe] using hab

/-- C12: for a session whose role is business (in any letter case), the dashboard's
`totalOrders` is the number of all stored orders whose `buyerId` is the user, and
`totalSpent` is the sum of `totalPrice` over those orders, a missing or non-numeric
`totalPrice` counting 0; when the user has placed no order both are 0. -/
theorem dashboard_business_totals (fmt : ℚ → String) (now : Int) (s : Store)
    (user : SessionUser) (hrole : IsBusiness user.userType) :
    ∃ d : DashboardData,
      Dashboard.GET fmt now s (some user) = (⟨200, .dashboard d⟩, s) ∧
      d.totalOrders = (s.orders.filter (fun o => decide (o.buyerId = user.id))).length ∧
      d.totalSpent = some (((s.orders.filter (fun o => decide (o.buyerId = user.id))).map
        (fun o => o.totalPrice.getD 0)).sum) ∧
      ((∀ o ∈ s.orders, o.buyerId ≠ user.id) → d.totalOrders = 0 ∧ d.totalSpent = some 0) := by
  obtain ⟨d, hget, _, _, _, _, hbus, _⟩ := dashboard_shape fmt now s user
  obtain ⟨htotal, hspent⟩ := hbus (normalized_business hrole)
  rw [filter_beq_eq_decide] at htotal hspent
  rw [sumTotalPrice_eq] at hspent
  refine ⟨d, hget, htotal, hspent, ?_⟩
  intro hnone
  have hempty : s.orders.filter (fun o => decide (o.buyerId = user.id)) = [] := by
    rw [List.filter_eq_nil_iff]
    intro o ho
    simpa using hnone o ho
  rw [htotal, hspent, hempty]
  exact ⟨rfl, rfl⟩

theorem dashboard_business_totals_witness :
    ∃ d : DashboardData,
      Dashboard.GET (fun _ => "") 0 store2 (some ⟨"u3", some "Business"⟩)
        = (⟨200, .dashboard d⟩, store2) ∧
      d.totalOrders = 6 ∧ d.totalSpent = some 18000 := by
  obtain ⟨d, h1, h2, h3, _⟩ :=
    dashboard_business_totals (fun _ => "") 0 store2 ⟨"u3", some "Business"⟩ (by decide)
  refine ⟨d, h1, h2, ?_⟩
  rw [h3]
  norm_num [store2, orderAt]

/-- C13: for a session whose role is collector (in any letter case), the dashboard's `orders`
are, up to order, the stored orders whose `listingId` is the id of a listing with the
collector as `userId` (listed in descending `createdAt`), `totalOrders` is their number and
`totalRevenue` the sum of their `totalPrice`, a missing or non-numeric one counting 0;
`products` are the stored products whose `sellerId` is the collector and `totalProducts` is
their number. A collector without listings gets no orders and `totalRevenue` 0. -/
theorem dashboard_collector_orders_and_products (fmt : ℚ → String) (now : Int) (s : Store)
    (user : SessionUser) (hrole : IsCollector user.userType) :
    ∃ (d : DashboardData) (views : List OrderView),
      Dashboard.GET fmt now s (some user) = (⟨200, .dashboard d⟩, s) ∧
      d.orders = some views ∧
      (views.map (fun v => v.order)).Perm (s.orders.filter (fun o =>
        decide (∃ l ∈ s.listings, l.userId = user.id ∧ l.id = o.listingId))) ∧
      (views.map (fun v => v.order)).Pairwise
        (fun a b => dateGe a.createdAt b.createdAt = true) ∧
      d.totalOrders = (s.orders.filter (fun o =>
        decide (∃ l ∈ s.listings, l.userId = user.id ∧ l.id = o.listingId))).length ∧
      d.totalRevenue = some (((s.orders.filter (fun o =>
        decide (∃ l ∈ s.listings, l.userId = user.id ∧ l.id = o.listingId))).map
          (fun o => o.totalPrice.getD 0)).sum) ∧
      d.products = s.products.filter (fun p => decide (p.sellerId = user.id)) ∧
      d.totalProducts = (s.products.filter (fun p => decide (p.sellerId = user.id))).length ∧
      ((∀ l ∈ s.listings, l.userId ≠ user.id) →
        views = [] ∧ d.totalOrders = 0 ∧ d.totalRevenue = some 0) := by
  obtain ⟨d, hget, _, _, _, _, _, hcol⟩ := dashboard_shape fmt now s user
  obtain ⟨hprod, hnprod, hord, htotal, hrev⟩ := hcol ((normalized_collector_iff _).mpr hrole)
  have hfilter : s.orders.filter (fun o =>
      ((s.listings.filter (fun l => l.userId == user.id)).map
        (fun listing => listing.id)).contains o.listingId)
      = s.orders.filter (fun o =>
          decide (∃ l ∈ s.listings, l.userId = user.id ∧ l.id = o.listingId)) :=
    List.filter_congr (fun o _ => owned_listing_iff s user.id o)
  have hpf : s.products.filter (fun p => p.sellerId == user.id)
      = s.products.filter (fun p => decide (p.sellerId = user.id)) :=
    List.filter_congr (fun o _ => by rw [Bool.eq_iff_iff]; simp)
  rw [hfilter] at hord htotal hrev
  rw [hpf] at hprod hnprod
  have hperm := sortDescBy_perm (fun o : Order => o.createdAt) (s.orders.filter (fun o =>
    decide (∃ l ∈ s.listings, l.userId = user.id ∧ l.id = o.listingId)))
  refine ⟨d, _, hget, hord, ?_, ?_, ?_, ?_, hprod, hnprod, ?_⟩
  · rw [map_order_views _ (fun _ => rfl)]
    exact hperm
  · rw [map_order_views _ (fun _ => rfl)]
    exact sortDescBy_sorted (fun o : Order => o.createdAt) _
  · rw [htotal]
    exact hperm.length_eq
  · rw [hrev, sumTotalPrice_eq]
    exact congrArg some ((hperm.map _).sum_eq)
  · intro hnone
    have hempty : s.orders.filter (fun o =>
        decide (∃ l ∈ s.listings, l.userId = user.id ∧ l.id = o.listingId)) = [] := by
      rw [List.filter_eq_nil_iff]
      intro o _
      simp only [decide_eq_true_eq, not_exists, not_and]
      intro l hl hu
      exact absurd hu (hnone l hl)
    rw [htotal, hrev, hempty]
    exact ⟨rfl, rfl, rfl⟩

theorem dashboard_collector_orders_and_products_witness :
    ∃ (d : DashboardData) (views : List OrderView),
      Dashboard.GET (fun _ => "") 0 store2 (some ⟨"u2", some "collector"⟩)
        = (⟨200, .dashboard d⟩, store2) ∧
      d.orders = some views ∧
      (views.map (fun v => v.order)).Perm store2.orders ∧
      d.totalOrders = 6 ∧ d.totalRevenue = some 18000 ∧ d.products = [productP] := by
  obtain ⟨d, views, h1, h2, h3, _, h5, h6, h7, _⟩ :=
    dashboard_collector_orders_and_products (fun _ => "") 0 store2 ⟨"u2", some "collector"⟩
      (by decide)
  refine ⟨d, views, h1, h2, h3, h5, ?_, h7⟩
  rw [h6]
  norm_num [store2, orderAt, listingA]

/-- C14: for a session whose role is individual in any letter case, or without `userType`,
the dashboard's `points` is the stored `points` of the user with the session's id (0 when
there is no such user or the user has no points) and `totalOrders` is the number of all
stored orders whose `buyerId` is the user. -/
theorem dashboard_individual_points_and_orders (fmt : ℚ → String) (now : Int) (s : Store)
    (user : SessionUser) (hrole : IsIndividualOrAbsent user.userType) :
    ∃ d : DashboardData,
      Dashboard.GET fmt now s (some user) = (⟨200, .dashboard d⟩, s) ∧
      d.points = (match findUser s user.id with
        | some u => u.points.getD 0
        | none => 0) ∧
      d.totalOrders = (s.orders.filter (fun o => decide (o.buyerId = user.id))).length := by
  obtain ⟨d, hget, _, _, _, hind, _⟩ := dashboard_shape fmt now s user
  obtain ⟨hpoints, htotal⟩ := hind (normalized_individual hrole)
  rw [filter_beq_eq_decide] at htotal
  refine ⟨d, hget, ?_, htotal⟩
  rw [hpoints]
  cases findUser s user.id <;> rfl

theorem dashboard_individual_points_and_orders_witness :
    ∃ d : DashboardData,
      Dashboard.GET (fun _ => "") 0 store2 (some ⟨"u3", none⟩) = (⟨200, .dashboard d⟩, store2) ∧
      d.points = 0 ∧ d.totalOrders = 6 :=
  dashboard_individual_points_and_orders (fun _ => "") 0 store2 ⟨"u3", none⟩ (by decide)

/-- C15: a user with six stored collections gets `totalCollections` 5 from the dashboard:
the field is the length of the list cut by `take: 5`, not the number of the user's
collections. -/
theorem dashboard_totalCollections_is_capped :
    (store2.collections.filter (fun c => decide (c.userId = "u1"))).length = 6 ∧
    (Dashboard.dataOf (Dashboard.GET (fun _ => "") 0 store2
      (some ⟨"u1", some "individual"⟩)).1).map (fun d => d.totalCollections) = some 5 ∧
    (Dashboard.dataOf (Dashboard.GET (fun _ => "") 0 store2
      (some ⟨"u1", some "collector"⟩)).1).map (fun d => d.totalCollections) = some 5 := by
  decide

/-- C16: without a session each of the five handlers answers 401 with the body
`{ error: "Unauthorized" }` and leaves the store as it was, whatever the body or the path
parameter; the answer is the same for every store (nothing is read) and `POST` makes no call
of `distributePoints`. -/
theorem no_session_is_unauthorized (lib : Orders.PointsLib) (env : Orders.Env)
    (fmt : ℚ → String) (now : Int) (s s2 : Store) (id : String) (data : Orders.PostBody)
    (patch : OrderById.PatchBody) :
    unauthorized = ⟨401, .error "Unauthorized"⟩ ∧
    Dashboard.GET fmt now s none = (unauthorized, s) ∧
    Orders.GET s none = (unauthorized, s) ∧
    (Orders.POST lib env s none data).response = unauthorized ∧
    (Orders.POST lib env s none data).store = s ∧
    (Orders.POST lib env s none data).distributed = [] ∧
    OrderById.GET s none id = (unauthorized, s) ∧
    OrderById.PATCH s none id patch = (unauthorized, s) ∧
    (Dashboard.GET fmt now s2 none).1 = (Dashboard.GET fmt now s none).1 ∧
    (Orders.GET s2 none).1 = (Orders.GET s none).1 ∧
    (Orders.POST lib env s2 none data).response = (Orders.POST lib env s none data).response ∧
    (OrderById.GET s2 none id).1 = (OrderById.GET s none id).1 ∧
    (OrderById.PATCH s2 none id patch).1 = (OrderById.PATCH s none id patch).1 :=
  ⟨rfl, rfl, rfl, rfl, rfl, rfl, rfl, rfl, rfl, rfl, rfl, rfl, rfl⟩

/-! ## `GET /api/products/{id}` -/

/-- C17: `GET /api/products/{id}` answers 400 without any `findOne` when the id is empty,
is `create`, or is rejected by the `ObjectId` constructor; it answers 404 when the id is
accepted and no stored product has the identifier built from it; and it returns a product
only if that product is stored under the identifier built from the id. The store is never
changed. -/
theorem product_get_by_id (objectId : String → Option String) (now : Int) (s : Store)
    (id : String) :
    ((id = "" ∨ id = "create" ∨ objectId id = none) →
      (∃ msg, (ProductById.GET objectId now s id).reply = .error 400 msg) ∧
      (ProductById.GET objectId now s id).queries = []) ∧
    (∀ productId, id ≠ "" → id ≠ "create" → objectId id = some productId →
      (∀ p ∈ s.products, p.id ≠ productId) →
      (ProductById.GET objectId now s id).reply = .error 404 "Product not found") ∧
    (∀ fp, (ProductById.GET objectId now s id).reply = .product fp →
      ∃ productId, objectId id = some productId ∧ fp.product ∈ s.products ∧
        fp.product.id = productId) ∧
    (ProductById.GET objectId now s id).store = s := by
  by_cases hc : id = "create"
  · have key : ProductById.GET objectId now s id = ⟨.error 400 "Invalid product ID", s, []⟩ := by
      simp [ProductById.GET, hc]
    rw [key]
    refine ⟨fun _ => ⟨⟨_, rfl⟩, rfl⟩, fun _ _ h => absurd hc h, fun fp h => ?_, rfl⟩
    cases h
  by_cases he : id = ""
  · have key : ProductById.GET objectId now s id
        = ⟨.error 400 "Product ID is required", s, []⟩ := by
      simp [ProductById.GET, he]
    rw [key]
    refine ⟨fun _ => ⟨⟨_, rfl⟩, rfl⟩, fun _ h => absurd he h, fun fp h => ?_, rfl⟩
    cases h
  cases ho : objectId id with
  | none =>
    have key : ProductById.GET objectId now s id
        = ⟨.error 400 "Invalid product ID format", s, []⟩ := by
      simp [ProductById.GET, hc, he, ho]
    rw [key]
    refine ⟨fun _ => ⟨⟨_, rfl⟩, rfl⟩, fun _ _ _ h => ?_, fun fp h => ?_, rfl⟩
    · cases h
    · cases h
  | some productId =>
    cases hp : s.products.find? (fun p => p.id == productId) with
    | none =>
      have key : ProductById.GET objectId now s id
          = ⟨.error 404 "Product not found", s, [("Product", productId)]⟩ := by
        simp [ProductById.GET, hc, he, ho, hp]
      rw [key]
      refine ⟨fun h => ?_, fun _ _ _ _ _ => rfl, fun fp h => ?_, rfl⟩
      · rcases h with h | h | h
        · exact absurd h he
        · exact absurd h hc
        · cases h
      · cases h
    | some product =>
      have hmem : product ∈ s.products := List.mem_of_find?_eq_some hp
      have hid : product.id = productId := by
        have := find_some_pred _ _ _ hp
        simpa using this
      have key : (ProductById.GET objectId now s id).store = s ∧
          ∀ fp, (ProductById.GET objectId now s id).reply = .product fp →
            fp.product = product := by
        unfold ProductById.GET
        simp only [hc, he, if_false, ho, hp]
        split_ifs with h1
        · exact ⟨rfl, fun fp h => by cases h; rfl⟩
        · cases h2 : objectId product.sellerId with
          | none => exact ⟨rfl, fun fp h => by cases h⟩
          | some sellerId =>
            simp only
            cases h3 : s.users.find? (fun u => u.id == sellerId) with
            | none => exact ⟨rfl, fun fp h => by cases h; rfl⟩
            | some seller => exact ⟨rfl, fun fp h => by cases h; rfl⟩
      obtain ⟨hstore, hfp⟩ := key
      refine ⟨fun h => ?_, fun pid _ _ h hall => ?_, fun fp h => ?_, hstore⟩
      · rcases h with h | h | h
        · exact absurd h he
        · exact absurd h hc
        · cases h
      · cases h
        exact absurd hid (hall product hmem)
      · have := hfp fp h
        exact ⟨productId, rfl, by rw [this]; exact hmem, by rw [this]; exact hid⟩

theorem product_get_by_id_witness :
    (ProductById.GET sampleObjectId 0 store2 "dddddddddddddddddddddddd").reply
      = .error 404 "Product not found" :=
  (product_get_by_id sampleObjectId 0 store2 "dddddddddddddddddddddddd").2.1
    "dddddddddddddddddddddddd" (by decide) (by decide) (by decide) (by decide)

/-! ## Cart -/

theorem findIndex_append_hit {α : Type} (p : α → Bool) (f : α → α) (pre post : List α) (x : α)
    (hpre : ∀ y ∈ pre, p y = false) (hx : p x = true) :
    Marketplace.findIndex p (pre ++ x :: post) = some pre.length ∧
    Marketplace.modifyAt f pre.length (pre ++ x :: post) = pre ++ f x :: post := by
  induction pre with
  | nil => simp [Marketplace.findIndex, Marketplace.modifyAt, hx]
  | cons a as ih =>
    have ha : p a = false := hpre a (List.mem_cons_self _ _)
    obtain ⟨h1, h2⟩ := ih (fun y hy => hpre y (List.mem_cons_of_mem _ hy))
    simp [Marketplace.findIndex, Marketplace.modifyAt, ha, h1, h2]

theorem findIndex_none {α : Type} (p : α → Bool) (xs : List α) (h : ∀ y ∈ xs, p y = false) :
    Marketplace.findIndex p xs = none := by
  induction xs with
  | nil => rfl
  | cons a as ih =>
    have ha : p a = false := h a (List.mem_cons_self _ _)
    simp [Marketplace.findIndex, ha, ih (fun y hy => h y (List.mem_cons_of_mem _ hy))]

/-- The cart totals in exact arithmetic: `Cart.subtotal` is the sum over the items of
price × quantity, `Cart.shipping` is 0 when the subtotal is at least 5000 and 350 when it is
below, and `Cart.total` is their sum. The totals as the page computes them, in doubles, are
`Cart.Double.subtotal`, `Cart.Double.shipping` and `Cart.Double.total`. -/
theorem cart_totals (cartItems : List Marketplace.CartItem) :
    Cart.subtotal cartItems
      = (cartItems.map (fun item => item.price * (item.quantity : ℚ))).sum ∧
    (5000 ≤ Cart.subtotal cartItems → Cart.shipping cartItems = 0) ∧
    (Cart.subtotal cartItems < 5000 → Cart.shipping cartItems = 350) ∧
    Cart.total cartItems = Cart.subtotal cartItems + Cart.shipping cartItems ∧
    (∀ a b : Marketplace.CartItem, a.price = 2000 → a.quantity = 1 → b.price = 4000 →
      b.quantity = 1 →
      Cart.subtotal [a, b] = 6000 ∧ Cart.shipping [a, b] = 0 ∧ Cart.total [a, b] = 6000) := by
  refine ⟨?_, ?_, ?_, rfl, ?_⟩
  · unfold Cart.subtotal
    rw [foldl_add_eq_sum (fun item : Marketplace.CartItem => item.price * (item.quantity : ℚ))]
    simp
  · intro h
    simp [Cart.shipping, h]
  · intro h
    simp [Cart.shipping, not_le.mpr h]
  · intro a b ha1 ha2 hb1 hb2
    have hsub : Cart.subtotal [a, b] = 6000 := by
      simp [Cart.subtotal, ha1, ha2, hb1, hb2]
      norm_num
    have hship : Cart.shipping [a, b] = 0 := by
      rw [Cart.shipping, hsub]
      norm_num
    refine ⟨hsub, hship, ?_⟩
    rw [Cart.total, hsub, hship]
    norm_num

theorem cart_totals_witness :
    Cart.subtotal [bagItem, bagItem, penItem] = 5000 ∧
    Cart.shipping [bagItem, bagItem, penItem] = 0 := by
  have hsub : Cart.subtotal [bagItem, bagItem, penItem] = 5000 := by
    rw [(cart_totals [bagItem, bagItem, penItem]).1]
    norm_num [bagItem, penItem]
  exact ⟨hsub, (cart_totals [bagItem, bagItem, penItem]).2.1 (le_of_eq hsub.symm)⟩

/-- C19: for a product that is not in stock `addToCart` leaves the cart as it is. For a
product in stock, when the cart holds an item with the product's id, the first such item
gets its quantity increased by 1 and nothing else changes (same length, same other items,
same price); when the cart holds no such item, one item is appended with the product's id,
name, price and image, quantity 1 and the product's discount, 0 when it has none. -/
theorem addToCart_keyed_by_id (cart : List Marketplace.CartItem)
    (product : Marketplace.Product) :
    (product.inStock = false → Marketplace.addToCart cart product = cart) ∧
    (product.inStock = true → ∀ item,
      cart.find? (fun i => i._id == product._id) = some item →
      ∃ pre post, cart = pre ++ item :: post ∧ (∀ x ∈ pre, x._id ≠ product._id) ∧
        Marketplace.addToCart cart product
          = pre ++ { item with quantity := item.quantity + 1 } :: post ∧
        (Marketplace.addToCart cart product).length = cart.length) ∧
    (product.inStock = true → (∀ x ∈ cart, x._id ≠ product._id) →
      Marketplace.addToCart cart product
        = cart ++ [⟨product._id, product.name, product.price, product.image, 1,
            product.discount.getD 0⟩]) := by
  refine ⟨?_, ?_, ?_⟩
  · intro h
    simp [Marketplace.addToCart, h]
  · intro h item hfind
    obtain ⟨pre, post, hsplit, hpre, hx⟩ := find_split _ _ _ hfind
    obtain ⟨h1, h2⟩ := findIndex_append_hit (fun i : Marketplace.CartItem => i._id == product._id)
      (fun item => { item with quantity := item.quantity + 1 }) pre post item hpre hx
    have hres : Marketplace.addToCart cart product
        = pre ++ { item with quantity := item.quantity + 1 } :: post := by
      simp only [Marketplace.addToCart, h, Bool.not_true, Bool.false_eq_true, if_false, hsplit,
        h1, h2]
    refine ⟨pre, post, hsplit, ?_, hres, ?_⟩
    · intro x hxm hid
      have := hpre x hxm
      simp [hid] at this
    · rw [hres, hsplit]
      simp
  · intro h hnone
    have hidx : Marketplace.findIndex (fun i : Marketplace.CartItem => i._id == product._id) cart
        = none :=
      findIndex_none _ _ (fun y hy => by simpa using hnone y hy)
    simp only [Marketplace.addToCart, h, Bool.not_true, Bool.false_eq_true, if_false, hidx,
      orZero_eq]

theorem addToCart_keyed_by_id_witness :
    Marketplace.addToCart [bagItem] chairProduct
      = [bagItem] ++ [⟨"p2", "Bottle-cap chair", 4000, "chair.png", 1, 10⟩] :=
  (addToCart_keyed_by_id [bagItem] chairProduct).2.2 rfl (by decide)

/-! ## `GET /api/orders/{id}` -/

/-- C20: `GET /api/orders/{id}` leaves the store as it was, and a second request with the
same session and id, made on the store the first one left, gets the same response: 404 both
times when no order has the id, the same order both times otherwise. -/
theorem order_get_is_a_read (s : Store) (session : Option SessionUser) (id : String) :
    (OrderById.GET s session id).2 = s ∧
    OrderById.GET (OrderById.GET s session id).2 session id = OrderById.GET s session id ∧
    (∀ user, session = some user → findOrder s id = none →
      (OrderById.GET s session id).1 = ⟨404, .error "Order not found"⟩ ∧
      (OrderById.GET (OrderById.GET s session id).2 session id).1
        = ⟨404, .error "Order not found"⟩) ∧
    (∀ user order, session = some user → findOrder s id = some order →
      ∃ view, view.order = order ∧
        (OrderById.GET s session id).1 = ⟨200, .order none view⟩ ∧
        (OrderById.GET (OrderById.GET s session id).2 session id).1
          = ⟨200, .order none view⟩) := by
  have hstore := order_get_store s session id
  refine ⟨hstore, by rw [hstore], ?_, ?_⟩
  · intro user hs hnone
    rw [hstore]
    subst hs
    simp [OrderById.GET, hnone]
  · intro user order hs hsome
    rw [hstore]
    subst hs
    have key : (OrderById.GET s (some user) id).1 = ⟨200, .order none
        { order := order
          listing := findListing s order.listingId
          listingUser := (findListing s order.listingId).bind (fun l => findUser s l.userId)
          buyer := findUser s order.buyerId }⟩ := by
      simp [OrderById.GET, hsome]
    exact ⟨{ order := order
             listing := findListing s order.listingId
             listingUser := (findListing s order.listingId).bind (fun l => findUser s l.userId)
             buyer := findUser s order.buyerId }, rfl, key, key⟩

theorem order_get_is_a_read_witness :
    ∃ view, view.order = order1 ∧
      (OrderById.GET store1 (some ⟨"u9", none⟩) "o1").1 = ⟨200, .order none view⟩ ∧
      (OrderById.GET (OrderById.GET store1 (some ⟨"u9", none⟩) "o1").2 (some ⟨"u9", none⟩) "o1").1
        = ⟨200, .order none view⟩ :=
  (order_get_is_a_read store1 (some ⟨"u9", none⟩) "o1").2.2.2 ⟨"u9", none⟩ order1 rfl
    (by decide)

/-! ## Order status -/

theorem patch_store_cases (s : Store) (session : Option SessionUser) (id : String)
    (data : OrderById.PatchBody) :
    (OrderById.PATCH s session id data).2 = s ∨
      (OrderById.PATCH s session id data).2 = updateOrder s id data.status := by
  unfold OrderById.PATCH
  cases session with
  | none => exact Or.inl rfl
  | some user =>
    simp only
    cases findOrder s id with
    | none => exact Or.inl rfl
    | some order =>
      simp only
      split
      · cases findListing s order.listingId with
        | none => exact Or.inl rfl
        | some l =>
          simp only
          split
          · exact Or.inl rfl
          · exact Or.inr rfl
      · split
        · exact Or.inl rfl
        · exact Or.inr rfl

theorem post_orders_cases (lib : Orders.PointsLib) (env : Orders.Env) (s : Store)
    (session : Option SessionUser) (data : Orders.PostBody) :
    (Orders.POST lib env s session data).store.orders = s.orders ∨
      ∃ user listing, CreatesOrder s session data user listing ∧
        (Orders.POST lib env s session data).store.orders
          = s.orders ++ [Orders.newOrder env user listing data] := by
  rcases post_outcome lib env s session data with ⟨hs, _, _⟩ | ⟨user, listing, hc, _, _⟩
  · left
    rw [hs]
  · right
    refine ⟨user, listing, hc, ?_⟩
    obtain ⟨hsession, lid, hid, hwf, hfound⟩ := hc
    subst hsession
    rw [post_created lib env s user data lid listing hid hwf hfound]

theorem updateFirst_status (id : String) (f : Order → Order) (os : List Order)
    (hos : ∀ o ∈ os, o.status ∈ validStatuses)
    (hf : ∀ o, o.status ∈ validStatuses → (f o).status ∈ validStatuses) :
    ∀ o ∈ updateFirst id f os, o.status ∈ validStatuses := by
  induction os with
  | nil => intro o ho; cases ho
  | cons a as ih =>
    have ha : a.status ∈ validStatuses := hos a (List.mem_cons_self _ _)
    have has : ∀ o ∈ as, o.status ∈ validStatuses :=
      fun o ho => hos o (List.mem_cons_of_mem _ ho)
    intro o ho
    unfold updateFirst at ho
    split at ho
    · rcases List.mem_cons.mp ho with rfl | ho
      · exact hf a ha
      · exact has o ho
    · rcases List.mem_cons.mp ho with rfl | ho
      · exact ha
      · exact ih has o ho

/-- The handler itself tests no status: over a `status` column that admits every string,
the owner of the listing sends the status `FOO`, the handler answers 200 and the order is
stored with status `FOO`. -/
theorem patch_stores_any_status :
    ¬ ∀ (s : Store) (session : Option SessionUser) (id : String) (data : OrderById.PatchBody),
      StatusInvariant s → (OrderById.PATCH s session id data).1.status = 200 →
      StatusInvariant (OrderById.PATCH s session id data).2 := by
  intro h
  have := h store1 (some ⟨"u2", some "COLLECTOR"⟩) "o1" ⟨some "FOO"⟩ (by decide) (by decide)
  exact absurd this (by decide)

/-- Over a `status` column that admits every string: when every stored order has one of the
six statuses, the same holds after `POST /api/orders`, whatever the body, and after
`PATCH /api/orders/{id}` with a body whose status is absent or one of the six. -/
theorem status_invariant_preserved (lib : Orders.PointsLib) (env : Orders.Env) (s : Store)
    (session : Option SessionUser) (data : Orders.PostBody) (id : String)
    (patch : OrderById.PatchBody) (hinv : StatusInvariant s) :
    StatusInvariant (Orders.POST lib env s session data).store ∧
    ((patch.status = none ∨ ∃ st, patch.status = some st ∧ st ∈ validStatuses) →
      StatusInvariant (OrderById.PATCH s session id patch).2) := by
  constructor
  · unfold StatusInvariant
    rcases post_orders_cases lib env s session data with h | ⟨user, listing, _, h⟩
    · rw [h]
      exact hinv
    · rw [h]
      intro o ho
      rcases List.mem_append.mp ho with ho | ho
      · exact hinv o ho
      · rw [List.mem_singleton] at ho
        rw [ho]
        show "PENDING" ∈ validStatuses
        decide
  · intro hstatus
    rcases patch_store_cases s session id patch with h | h
    · rw [h]
      exact hinv
    · rw [h]
      unfold StatusInvariant updateOrder
      apply updateFirst_status id _ s.orders hinv
      intro o ho
      rcases hstatus with hnone | ⟨st, hsome, hst⟩
      · rw [hnone]
        exact ho
      · rw [hsome]
        exact hst

theorem status_invariant_preserved_witness :
    StatusInvariant (Orders.POST samplePoints ⟨"o3", 3000⟩ store1
      (some ⟨"u2", some "COLLECTOR"⟩)
      ⟨some "aaaaaaaaaaaaaaaaaaaaaaaa", none, some 50, some 6000⟩).store ∧
    StatusInvariant (OrderById.PATCH store1 (some ⟨"u2", some "COLLECTOR"⟩) "o1"
      ⟨some "ACCEPTED"⟩).2 :=
  have h := status_invariant_preserved samplePoints ⟨"o3", 3000⟩ store1
    (some ⟨"u2", some "COLLECTOR"⟩) ⟨some "aaaaaaaaaaaaaaaaaaaaaaaa", none, some 50, some 6000⟩
    "o1" ⟨some "ACCEPTED"⟩ (by decide)
  ⟨h.1, h.2 (Or.inr ⟨"ACCEPTED", rfl, by decide⟩)⟩

/-! ## Collection page -/

/-- C22 (as stated): the cancel control is not offered for every listed collection whose
status is `SCHEDULED`. A scheduled collection whose date has passed is listed in the past
section, whose cards offer no cancel control. -/
theorem scheduled_past_collection_not_cancellable :
    ¬ ∀ (now : Int) (fetched : List Collection) (card : CollectionPage.Card),
      card ∈ CollectionPage.cards now fetched →
      (CollectionPage.cancelOffered card = true ↔ card.collection.status = some "SCHEDULED") := by
  intro h
  have := (h 100 [overdueCollection] ⟨overdueCollection, true⟩ (by decide)).mpr (by decide)
  exact absurd this (by decide)

/-- C22 (amended): a card of the collection page offers the cancel control exactly when its
collection has status `SCHEDULED` and a date later than the current time, that is for the
scheduled collections of the upcoming section; no card of a collection with another status
and no card of the past section offers it. -/
theorem cancel_offered_iff_scheduled_upcoming (now : Int) (fetched : List Collection)
    (card : CollectionPage.Card) (hcard : card ∈ CollectionPage.cards now fetched) :
    (CollectionPage.cancelOffered card = true ↔
      card.collection.status = some "SCHEDULED" ∧ now < CollectionPage.time card.collection) ∧
    (card.isPast = true → CollectionPage.cancelOffered card = false) ∧
    (card.collection.status ≠ some "SCHEDULED" → CollectionPage.cancelOffered card = false) := by
  unfold CollectionPage.cards at hcard
  rcases List.mem_append.mp hcard with h | h
  · obtain ⟨c, hc, rfl⟩ := List.mem_map.mp h
    unfold CollectionPage.upcomingCollections at hc
    have hcond := (List.mem_filter.mp hc).2
    simp only [Bool.and_eq_true, decide_eq_true_eq, gt_iff_lt] at hcond
    refine ⟨?_, ?_, ?_⟩
    · simp [CollectionPage.cancelOffered, hcond.1]
    · intro hp; cases hp
    · intro hns
      simp [CollectionPage.cancelOffered, hns]
  · obtain ⟨c, hc, rfl⟩ := List.mem_map.mp h
    unfold CollectionPage.pastCollections at hc
    have hcond := (List.mem_filter.mp hc).2
    simp only [Bool.or_eq_true, decide_eq_true_eq, beq_iff_eq] at hcond
    refine ⟨?_, ?_, ?_⟩
    · simp only [CollectionPage.cancelOffered, Bool.not_true, Bool.false_and,
        Bool.false_eq_true, false_iff, not_and, not_lt]
      intro hs
      rcases hcond with hle | hcan
      · exact hle
      · rw [hs] at hcan
        exact absurd hcan (by decide)
    · intro _
      rfl
    · intro _
      rfl

theorem cancel_offered_iff_scheduled_upcoming_witness :
    CollectionPage.cancelOffered ⟨futureCollection, false⟩ = true ↔
      futureCollection.status = some "SCHEDULED" ∧ 100 < CollectionPage.time futureCollection :=
  (cancel_offered_iff_scheduled_upcoming 100 [overdueCollection, futureCollection]
    ⟨futureCollection, false⟩ (by decide)).1

theorem post_malformed_id_rejected_aux (lib : Orders.PointsLib) (env : Orders.Env) (s : Store)
    (user : SessionUser) (data : Orders.PostBody)
    (hbad : ∀ t, orElseStr data.listingId data.productId = some t → ¬ IsObjectIdString t) :
    Orders.POST lib env s (some user) data
      = ⟨⟨400, .error "Invalid listing ID format"⟩, s, []⟩ := by
  have hinvalid : Orders.isValidObjectId (orElseStr data.listingId data.productId) = false := by
    cases h : orElseStr data.listingId data.productId with
    | none => rfl
    | some t =>
      have := hbad t h
      rw [← isValidObjectId_iff] at this
      simpa using this
  simp [Orders.POST, hinvalid]

/-! ## Marketplace sorting -/

/-- C23: for every lower-casing function, product list, category, search query and sort
option, the displayed list is a permutation of the filtered products, in ascending `price`
for `price-low`, descending `price` for `price-high`, descending `rating` for `rating`, and
descending `createdAt` for `newest` and every other option value (a product without
`createdAt` counting as created at the epoch). -/
theorem marketplace_sorted_by_option (lower : String → String)
    (products : List Marketplace.Product) (categoryFilter searchQuery sortBy : String) :
    (Marketplace.sortedProducts lower products categoryFilter searchQuery sortBy).Perm
      (Marketplace.filteredProducts lower products categoryFilter searchQuery) ∧
    (sortBy = "price-low" →
      (Marketplace.sortedProducts lower products categoryFilter searchQuery sortBy).Pairwise
        (fun a b => a.price ≤ b.price)) ∧
    (sortBy = "price-high" →
      (Marketplace.sortedProducts lower products categoryFilter searchQuery sortBy).Pairwise
        (fun a b => b.price ≤ a.price)) ∧
    (sortBy = "rating" →
      (Marketplace.sortedProducts lower products categoryFilter searchQuery sortBy).Pairwise
        (fun a b => b.rating ≤ a.rating)) ∧
    (sortBy ≠ "price-low" → sortBy ≠ "price-high" → sortBy ≠ "rating" →
      (Marketplace.sortedProducts lower products categoryFilter searchQuery sortBy).Pairwise
        (fun a b => b.createdAt.getD 0 ≤ a.createdAt.getD 0) ∧
      (Marketplace.sortedProducts lower products categoryFilter searchQuery sortBy).Pairwise
        (fun a b => ∀ x y : Int, a.createdAt = some x → b.createdAt = some y → y ≤ x)) := by
  have hsorted :
      (Marketplace.sortedProducts lower products categoryFilter searchQuery sortBy).Pairwise
        (Marketplace.NotAfter sortBy) :=
    List.sorted_insertionSort (Marketplace.NotAfter sortBy) _
  refine ⟨List.perm_insertionSort _ _, ?_, ?_, ?_, ?_⟩
  · intro h
    refine hsorted.imp ?_
    intro a b hab
    simpa [Marketplace.NotAfter, Marketplace.compareProducts, h] using hab
  · intro h
    refine hsorted.imp ?_
    intro a b hab
    simpa [Marketplace.NotAfter, Marketplace.compareProducts, h] using hab
  · intro h
    refine hsorted.imp ?_
    intro a b hab
    simpa [Marketplace.NotAfter, Marketplace.compareProducts, h] using hab
  · intro h1 h2 h3
    have hdate :
        (Marketplace.sortedProducts lower products categoryFilter searchQuery sortBy).Pairwise
          (fun a b => b.createdAt.getD 0 ≤ a.createdAt.getD 0) := by
      refine hsorted.imp ?_
      intro a b hab
      simpa [Marketplace.NotAfter, Marketplace.compareProducts, Marketplace.createdTime,
        h1, h2, h3] using hab
    refine ⟨hdate, hdate.imp ?_⟩
    intro a b hab x y hx hy
    rw [hx, hy] at hab
    exact hab

theorem marketplace_sorted_by_option_witness :
    (Marketplace.sortedProducts toLowerCase [stoolProduct, chairProduct, lampProduct]
      "all" "BOTTLE" "newest").Pairwise
        (fun a b => b.createdAt.getD 0 ≤ a.createdAt.getD 0) ∧
    (Marketplace.sortedProducts toLowerCase [stoolProduct, chairProduct, lampProduct]
      "all" "BOTTLE" "newest").Perm
        (Marketplace.filteredProducts toLowerCase [stoolProduct, chairProduct, lampProduct]
          "all" "BOTTLE") ∧
    (Marketplace.sortedProducts toLowerCase [stoolProduct, chairProduct, lampProduct]
      "all" "BOTTLE" "price-low").Pairwise (fun a b => a.price ≤ b.price) :=
  ⟨((marketplace_sorted_by_option toLowerCase [stoolProduct, chairProduct, lampProduct]
      "all" "BOTTLE" "newest").2.2.2.2 (by decide) (by decide) (by decide)).1,
    (marketplace_sorted_by_option toLowerCase [stoolProduct, chairProduct, lampProduct]
      "all" "BOTTLE" "newest").1,
    (marketplace_sorted_by_option toLowerCase [stoolProduct, chairProduct, lampProduct]
      "all" "BOTTLE" "price-low").2.1 rfl⟩

/-- The three sample products, fetched in the order stool (created at 100), chair (900),
lamp (500) and searched for `BOTTLE`, are displayed newest first, and cheapest first under
`price-low`. -/
theorem marketplace_sample_orders :
    (Marketplace.sortedProducts toLowerCase [stoolProduct, chairProduct, lampProduct]
      "all" "BOTTLE" "newest").map (fun product => product._id) = ["p2", "p6", "p5"] ∧
    (Marketplace.sortedProducts toLowerCase [stoolProduct, chairProduct, lampProduct]
      "all" "BOTTLE" "price-low").map (fun product => product._id) = ["p5", "p6", "p2"] := by
  have hfilter : Marketplace.filteredProducts toLowerCase
      [stoolProduct, chairProduct, lampProduct] "all" "BOTTLE"
      = [stoolProduct, chairProduct, lampProduct] := by decide
  have hnewest : ∀ a b : Marketplace.Product, Marketplace.compareProducts "newest" a b
      = (Marketplace.createdTime b : ℚ) - (Marketplace.createdTime a : ℚ) := by
    intro a b
    unfold Marketplace.compareProducts
    rw [if_neg (by decide), if_neg (by decide), if_neg (by decide)]
  have hlow : ∀ a b : Marketplace.Product, Marketplace.compareProducts "price-low" a b
      = a.price - b.price := by
    intro a b
    unfold Marketplace.compareProducts
    rw [if_pos rfl]
  constructor
  · unfold Marketplace.sortedProducts
    rw [hfilter]
    norm_num [List.insertionSort, List.orderedInsert, Marketplace.NotAfter, hnewest,
      Marketplace.createdTime, chairProduct, lampProduct, stoolProduct]
  · unfold Marketplace.sortedProducts
    rw [hfilter]
    norm_num [List.insertionSort, List.orderedInsert, Marketplace.NotAfter, hlow,
      chairProduct, lampProduct, stoolProduct]

/-! ## Identifier, quantity and price of `POST /api/orders` -/

theorem post_congr (lib : Orders.PointsLib) (env : Orders.Env) (s : Store)
    (session : Option SessionUser) (d1 d2 : Orders.PostBody)
    (hid : orElseStr d1.listingId d1.productId = orElseStr d2.listingId d2.productId)
    (hq : d1.quantity = d2.quantity) (ht : d1.totalPrice = d2.totalPrice) :
    Orders.POST lib env s session d1 = Orders.POST lib env s session d2 := by
  unfold Orders.POST
  simp only [hid, Orders.newOrder, hq, ht]

/-- C24: the identifier `POST /api/orders` validates and looks up is the body's `listingId`
when it is present and not empty, and the body's `productId` otherwise. With such a
`listingId` the result does not depend on `productId`, and a malformed one is answered 400
whatever `productId` is; an absent and an empty `listingId` give the same result, which is
the result of sending `productId` as `listingId`; a body with only a `productId` that names a
stored listing adds an order for that listing. -/
theorem post_effective_identifier (lib : Orders.PointsLib) (env : Orders.Env) (s : Store)
    (session : Option SessionUser) (l pid : String) (p p2 : Option String)
    (q t : Option ℚ) :
    (l ≠ "" → Orders.POST lib env s session ⟨some l, p, q, t⟩
      = Orders.POST lib env s session ⟨some l, p2, q, t⟩) ∧
    (l ≠ "" → ¬ IsObjectIdString l → ∀ user, session = some user →
      (Orders.POST lib env s session ⟨some l, p, q, t⟩).response
        = ⟨400, .error "Invalid listing ID format"⟩ ∧
      (Orders.POST lib env s session ⟨some l, p, q, t⟩).store = s) ∧
    Orders.POST lib env s session ⟨none, p, q, t⟩
      = Orders.POST lib env s session ⟨some "", p, q, t⟩ ∧
    (pid ≠ "" → Orders.POST lib env s session ⟨none, some pid, q, t⟩
      = Orders.POST lib env s session ⟨some pid, none, q, t⟩) ∧
    (IsObjectIdString pid → ∀ user listing, session = some user →
      findListing s pid = some listing →
      (Orders.POST lib env s session ⟨none, some pid, q, t⟩).store.orders
        = s.orders ++ [Orders.newOrder env user listing ⟨none, some pid, q, t⟩] ∧
      (Orders.newOrder env user listing ⟨none, some pid, q, t⟩).listingId = pid) := by
  refine ⟨?_, ?_, ?_, ?_, ?_⟩
  · intro hl
    exact post_congr lib env s session _ _ (by simp [orElseStr, hl]) rfl rfl
  · intro hl hbad user hsession
    subst hsession
    have h := post_malformed_id_rejected_aux lib env s user ⟨some l, p, q, t⟩
      (by
        intro x hx
        have : x = l := by
          simp [orElseStr, hl] at hx
          exact hx.symm
        rw [this]
        exact hbad)
    exact ⟨by rw [h], by rw [h]⟩
  · exact post_congr lib env s session _ _ (by simp [orElseStr]) rfl rfl
  · intro hp
    exact post_congr lib env s session _ _ (by simp [orElseStr, hp]) rfl rfl
  · intro hwf user listing hsession hfound
    subst hsession
    have hlid : listing.id = pid := by
      have := find_some_pred _ _ _ hfound
      simpa using this
    rw [post_created lib env s user ⟨none, some pid, q, t⟩ pid listing rfl hwf hfound]
    exact ⟨rfl, hlid⟩

theorem post_effective_identifier_witness :
    (Orders.POST samplePoints ⟨"o3", 3000⟩ store1 (some ⟨"u1", some "INDIVIDUAL"⟩)
      ⟨some "xyz", some "aaaaaaaaaaaaaaaaaaaaaaaa", some 2, some 240⟩).response
      = ⟨400, .error "Invalid listing ID format"⟩ ∧
    (Orders.POST samplePoints ⟨"o3", 3000⟩ store1 (some ⟨"u1", some "INDIVIDUAL"⟩)
      ⟨some "xyz", some "aaaaaaaaaaaaaaaaaaaaaaaa", some 2, some 240⟩).store = store1 :=
  (post_effective_identifier samplePoints ⟨"o3", 3000⟩ store1 (some ⟨"u1", some "INDIVIDUAL"⟩)
    "xyz" "" (some "aaaaaaaaaaaaaaaaaaaaaaaa") none (some 2) (some 240)).2.1
    (by decide) (by decide) ⟨"u1", some "INDIVIDUAL"⟩ rfl

/-- C28: when `POST /api/orders` creates an order, the stored `quantity` and `totalPrice` are
the numbers parsed from the body, 0 for a field that is absent or not numeric; the stored
`totalPrice` is a function of the body's `totalPrice` alone (not of the listing, its price
or the quantity), and the response is the 200 success response whatever the sign of the two
numbers, the session user having a user record. -/
theorem post_stores_parsed_numbers (lib : Orders.PointsLib) (env : Orders.Env) (s : Store)
    (user : SessionUser) (data : Orders.PostBody) (listing : Listing)
    (hcreates : CreatesOrder s (some user) data user listing) :
    ∃ order : Order,
      (Orders.POST lib env s (some user) data).store.orders = s.orders ++ [order] ∧
      order.quantity = data.quantity.getD 0 ∧
      order.totalPrice = some (data.totalPrice.getD 0) ∧
      (∀ (env2 : Orders.Env) (user2 : SessionUser) (listing2 : Listing)
        (data2 : Orders.PostBody), data2.totalPrice = data.totalPrice →
        (Orders.newOrder env2 user2 listing2 data2).totalPrice = order.totalPrice) ∧
      (∀ buyer, findUser s user.id = some buyer →
        (Orders.POST lib env s (some user) data).response.status = 200 ∧
        ∃ view, (Orders.POST lib env s (some user) data).response.body
            = .order (some "Order placed successfully") view ∧ view.order = order) := by
  obtain ⟨_, lid, hid, hwf, hfound⟩ := hcreates
  rw [post_created lib env s user data lid listing hid hwf hfound]
  refine ⟨Orders.newOrder env user listing data, rfl, ?_, ?_, ?_, ?_⟩
  · exact orZero_eq _
  · exact congrArg some (orZero_eq _)
  · intro env2 user2 listing2 data2 h
    simp only [Orders.newOrder, h]
  · intro buyer hbuyer
    rw [hbuyer]
    exact ⟨rfl, _, rfl, rfl⟩

theorem post_stores_parsed_numbers_witness :
    ∃ order : Order,
      (Orders.POST samplePoints ⟨"o3", 3000⟩ store1 (some ⟨"u1", some "INDIVIDUAL"⟩)
        ⟨some "aaaaaaaaaaaaaaaaaaaaaaaa", none, some (-2), none⟩).store.orders
        = store1.orders ++ [order] ∧
      order.quantity = -2 ∧ order.totalPrice = some 0 ∧
      (Orders.POST samplePoints ⟨"o3", 3000⟩ store1 (some ⟨"u1", some "INDIVIDUAL"⟩)
        ⟨some "aaaaaaaaaaaaaaaaaaaaaaaa", none, some (-2), none⟩).response.status = 200 := by
  obtain ⟨order, h1, h2, h3, _, h5⟩ :=
    post_stores_parsed_numbers samplePoints ⟨"o3", 3000⟩ store1 ⟨"u1", some "INDIVIDUAL"⟩
      ⟨some "aaaaaaaaaaaaaaaaaaaaaaaa", none, some (-2), none⟩ listingA (by decide)
  exact ⟨order, h1, h2, h3, (h5 alice (by decide)).1⟩

/-! ## Role independence of the dashboard feed -/

/-- C26: two dashboard requests with the same user id against the same store that differ only
in `userType` get the same `collections`, `totalCollections` and `recentActivity`; every
entry of type `order` in the feed is the entry of a stored order whose `buyerId` is the
user, whatever the role. -/
theorem dashboard_feed_role_independent (fmt : ℚ → String) (now : Int) (s : Store)
    (id : String) (userType1 userType2 : Option String) :
    ∃ d1 d2 : DashboardData,
      Dashboard.GET fmt now s (some ⟨id, userType1⟩) = (⟨200, .dashboard d1⟩, s) ∧
      Dashboard.GET fmt now s (some ⟨id, userType2⟩) = (⟨200, .dashboard d2⟩, s) ∧
      d1.collections = d2.collections ∧
      d1.totalCollections = d2.totalCollections ∧
      d1.recentActivity = d2.recentActivity ∧
      (∀ a ∈ d1.recentActivity, a.type = "order" →
        ∃ o ∈ s.orders, o.buyerId = id ∧ a = Dashboard.orderActivity now o) := by
  obtain ⟨d1, hget1, hc1, ht1, hf1, _⟩ := dashboard_shape fmt now s ⟨id, userType1⟩
  obtain ⟨d2, hget2, hc2, ht2, hf2, _⟩ := dashboard_shape fmt now s ⟨id, userType2⟩
  have hcol : d1.collections = d2.collections := by rw [hc1, hc2]
  refine ⟨d1, d2, hget1, hget2, hcol, ?_, ?_, ?_⟩
  · rw [ht1, ht2, hcol]
  · rw [hf1, hf2, hcol]
  · intro a ha htype
    rw [hf1] at ha
    have ha2 := (sortDescBy_perm _ _).subset (List.mem_of_mem_take ha)
    rcases List.mem_append.mp ha2 with h | h
    · obtain ⟨c, _, rfl⟩ := List.mem_map.mp h
      exact absurd htype (by simp [Dashboard.collectionActivity])
    · obtain ⟨o, ho, rfl⟩ := List.mem_map.mp h
      have ho2 := (sortDescBy_perm _ _).subset (List.mem_of_mem_take ho)
      have ho3 := List.mem_filter.mp ho2
      exact ⟨o, ho3.1, by simpa using ho3.2, rfl⟩

theorem dashboard_feed_role_independent_witness :
    ∃ d1 d2 : DashboardData,
      Dashboard.GET (fun _ => "") 0 store2 (some ⟨"u2", some "COLLECTOR"⟩)
        = (⟨200, .dashboard d1⟩, store2) ∧
      Dashboard.GET (fun _ => "") 0 store2 (some ⟨"u2", some "INDIVIDUAL"⟩)
        = (⟨200, .dashboard d2⟩, store2) ∧
      d1.recentActivity = d2.recentActivity ∧
      (∀ a ∈ d1.recentActivity, a.type = "order" →
        ∃ o ∈ store2.orders, o.buyerId = "u2" ∧ a = Dashboard.orderActivity 0 o) := by
  obtain ⟨d1, d2, h1, h2, _, _, h5, h6⟩ :=
    dashboard_feed_role_independent (fun _ => "") 0 store2 "u2" (some "COLLECTOR")
      (some "INDIVIDUAL")
  exact ⟨d1, d2, h1, h2, h5, h6⟩

/-! ## No ownership check in `GET /api/orders/{id}` -/

/-- C27: for every session and every id under which an order is stored, `GET
/api/orders/{id}` answers 200 with that order, its listing, the listing owner's user record
and the buyer's user record; the response is the same for any two sessions, whether or not
the requester is the buyer or the listing owner. -/
theorem order_get_has_no_ownership_check (s : Store) (user1 user2 : SessionUser) (id : String)
    (order : Order) (horder : findOrder s id = some order) :
    (OrderById.GET s (some user1) id).1 = ⟨200, .order none
      { order := order
        listing := findListing s order.listingId
        listingUser := (findListing s order.listingId).bind (fun l => findUser s l.userId)
        buyer := findUser s order.buyerId }⟩ ∧
    OrderById.GET s (some user1) id = OrderById.GET s (some user2) id := by
  constructor
  · simp [OrderById.GET, horder]
  · simp [OrderById.GET, horder]

theorem order_get_has_no_ownership_check_witness :
    (OrderById.GET store1 (some ⟨"u9", some "INDIVIDUAL"⟩) "o1").1 = ⟨200, .order none
      { order := order1, listing := some listingA, listingUser := some bob,
        buyer := some alice }⟩ ∧
    OrderById.GET store1 (some ⟨"u9", some "INDIVIDUAL"⟩) "o1"
      = OrderById.GET store1 (some ⟨"u1", some "INDIVIDUAL"⟩) "o1" :=
  order_get_has_no_ownership_check store1 ⟨"u9", some "INDIVIDUAL"⟩ ⟨"u1", some "INDIVIDUAL"⟩
    "o1" order1 (by decide)

/-! ## Cart: discount and invariant -/

theorem subtotal_eq_sum (cartItems : List Marketplace.CartItem) :
    Cart.subtotal cartItems
      = (cartItems.map (fun item => item.price * (item.quantity : ℚ))).sum := by
  unfold Cart.subtotal
  rw [foldl_add_eq_sum (fun item : Marketplace.CartItem => item.price * (item.quantity : ℚ))]
  simp

/-- C29: two carts that are equal once every item's `discount` is set to 0 have the same
subtotal, shipping and total; an in-stock product not yet in the cart is added at its
undiscounted price, so the subtotal grows by `price`; the marketplace card of a product with
a non-zero discount shows `price * (1 - discount / 100)`. -/
theorem cart_totals_ignore_discount (cart1 cart2 : List Marketplace.CartItem)
    (product : Marketplace.Product) :
    (cart1.map (fun item => { item with discount := 0 })
        = cart2.map (fun item => { item with discount := 0 }) →
      Cart.subtotal cart1 = Cart.subtotal cart2 ∧ Cart.shipping cart1 = Cart.shipping cart2 ∧
        Cart.total cart1 = Cart.total cart2) ∧
    (product.inStock = true → (∀ x ∈ cart1, x._id ≠ product._id) →
      Cart.subtotal (Marketplace.addToCart cart1 product)
        = Cart.subtotal cart1 + product.price) ∧
    (∀ discount, product.discount = some discount → discount ≠ 0 →
      Marketplace.displayedPrice product = product.price * (1 - discount / 100)) := by
  refine ⟨?_, ?_, ?_⟩
  · intro h
    have hsub : Cart.subtotal cart1 = Cart.subtotal cart2 := by
      rw [subtotal_eq_sum, subtotal_eq_sum]
      have h2 := congrArg (List.map (fun item : Marketplace.CartItem =>
        item.price * (item.quantity : ℚ))) h
      simp only [List.map_map] at h2
      exact congrArg List.sum h2
    exact ⟨hsub, by simp only [Cart.shipping, hsub],
      by simp only [Cart.total, Cart.shipping, hsub]⟩
  · intro hstock hnew
    have hidx : Marketplace.findIndex
        (fun i : Marketplace.CartItem => i._id == product._id) cart1 = none :=
      findIndex_none _ _ (fun y hy => by simpa using hnew y hy)
    rw [subtotal_eq_sum, subtotal_eq_sum]
    simp [Marketplace.addToCart, hstock, hidx]
  · intro discount hd hne
    simp [Marketplace.displayedPrice, hd, hne]

theorem cart_totals_ignore_discount_witness :
    Cart.subtotal [bagItem, chairItem] = Cart.subtotal [bagItem, { chairItem with discount := 50 }] ∧
    Cart.total [bagItem, chairItem] = Cart.total [bagItem, { chairItem with discount := 50 }] ∧
    Marketplace.displayedPrice chairProduct = chairProduct.price * (1 - 10 / 100) :=
  have h := cart_totals_ignore_discount [bagItem, chairItem]
    [bagItem, { chairItem with discount := 50 }] chairProduct
  ⟨(h.1 (by decide)).1, (h.1 (by decide)).2.2, h.2.2 10 rfl (by decide)⟩

theorem addToCart_cases (cart : List Marketplace.CartItem) (product : Marketplace.Product) :
    Marketplace.addToCart cart product = cart ∨
    (∃ pre item post, cart = pre ++ item :: post ∧
      Marketplace.addToCart cart product
        = pre ++ { item with quantity := item.quantity + 1 } :: post) ∨
    ((∀ x ∈ cart, x._id ≠ product._id) ∧
      Marketplace.addToCart cart product
        = cart ++ [⟨product._id, product.name, product.price, product.image, 1,
            orZero product.discount⟩]) := by
  by_cases hstock : product.inStock = true
  · cases hfind : cart.find? (fun i => i._id == product._id) with
    | some item =>
      right; left
      obtain ⟨pre, post, hsplit, hpre, hx⟩ := find_split _ _ _ hfind
      obtain ⟨h1, h2⟩ := findIndex_append_hit
        (fun i : Marketplace.CartItem => i._id == product._id)
        (fun item => { item with quantity := item.quantity + 1 }) pre post item hpre hx
      refine ⟨pre, item, post, hsplit, ?_⟩
      simp only [Marketplace.addToCart, hstock, Bool.not_true, Bool.false_eq_true, if_false,
        hsplit, h1, h2]
    | none =>
      right; right
      have hnone : ∀ x ∈ cart, x._id ≠ product._id := by
        intro x hx
        have := List.find?_eq_none.mp hfind x hx
        simpa using this
      have hidx : Marketplace.findIndex
          (fun i : Marketplace.CartItem => i._id == product._id) cart = none :=
        findIndex_none _ _ (fun y hy => by simpa using hnone y hy)
      refine ⟨hnone, ?_⟩
      simp only [Marketplace.addToCart, hstock, Bool.not_true, Bool.false_eq_true, if_false,
        hidx]
  · left
    have hfalse : product.inStock = false := by simpa using hstock
    simp [Marketplace.addToCart, hfalse]

/-- C30: if the items of a cart have pairwise distinct ids and every quantity is at least 1,
the same holds after `addToCart` of any product, after `updateItemQuantity` with any id and
any integer quantity, and after `removeItem` with any id. `updateItemQuantity` keeps the
length and every position, setting the quantity of the items with the id to
`max 1 newQuantity`; `removeItem` keeps, in order, exactly the items with another id. -/
theorem cart_invariant_preserved (cart : List Marketplace.CartItem)
    (product : Marketplace.Product) (productId : String) (newQuantity : Int)
    (hinv : CartInvariant cart) :
    CartInvariant (Marketplace.addToCart cart product) ∧
    CartInvariant (Cart.updateItemQuantity cart productId newQuantity) ∧
    CartInvariant (Cart.removeItem cart productId) ∧
    (Cart.updateItemQuantity cart productId newQuantity).length = cart.length ∧
    (∀ n : Nat, (Cart.updateItemQuantity cart productId newQuantity)[n]?
      = (cart[n]?).map (fun item =>
          if item._id = productId then { item with quantity := max 1 newQuantity }
          else item)) ∧
    (Cart.removeItem cart productId).Sublist cart ∧
    (∀ item, item ∈ Cart.removeItem cart productId ↔ item ∈ cart ∧ item._id ≠ productId) := by
  obtain ⟨hnodup, hqty⟩ := hinv
  refine ⟨?_, ?_, ?_, ?_, ?_, ?_, ?_⟩
  · rcases addToCart_cases cart product with h | ⟨pre, item, post, hsplit, h⟩ | ⟨hnew, h⟩
    · rw [h]
      exact ⟨hnodup, hqty⟩
    · rw [h]
      constructor
      · have : (pre ++ { item with quantity := item.quantity + 1 } :: post).map
            (fun i => i._id) = cart.map (fun i => i._id) := by
          rw [hsplit]
          simp
        rw [this]
        exact hnodup
      · intro x hx
        rcases List.mem_append.mp hx with hx | hx
        · exact hqty x (by rw [hsplit]; exact List.mem_append_left _ hx)
        · rcases List.mem_cons.mp hx with rfl | hx
          · have := hqty item (by rw [hsplit]; simp)
            show 1 ≤ item.quantity + 1
            omega
          · exact hqty x (by rw [hsplit]; simp [hx])
    · rw [h]
      constructor
      · rw [List.map_append, List.nodup_append]
        refine ⟨hnodup, by simp, ?_⟩
        intro a ha hb
        simp only [List.map_cons, List.map_nil, List.mem_singleton] at hb
        obtain ⟨x, hx, rfl⟩ := List.mem_map.mp ha
        exact hnew x hx hb
      · intro x hx
        rcases List.mem_append.mp hx with hx | hx
        · exact hqty x hx
        · rw [List.mem_singleton] at hx
          rw [hx]
  · constructor
    · have : (Cart.updateItemQuantity cart productId newQuantity).map (fun i => i._id)
          = cart.map (fun i => i._id) := by
        unfold Cart.updateItemQuantity
        rw [List.map_map]
        apply List.map_congr_left
        intro x _
        simp only [Function.comp]
        split <;> rfl
      rw [this]
      exact hnodup
    · intro x hx
      unfold Cart.updateItemQuantity at hx
      obtain ⟨y, hy, rfl⟩ := List.mem_map.mp hx
      split
      · exact le_max_left 1 newQuantity
      · exact hqty y hy
  · constructor
    · exact hnodup.sublist ((List.filter_sublist cart).map _)
    · intro x hx
      exact hqty x (List.mem_filter.mp hx).1
  · simp [Cart.updateItemQuantity]
  · intro n
    simp [Cart.updateItemQuantity]
  · exact List.filter_sublist cart
  · intro item
    simp [Cart.removeItem]

theorem cart_invariant_preserved_witness :
    CartInvariant (Marketplace.addToCart [bagItem, chairItem] chairProduct) ∧
    CartInvariant (Cart.updateItemQuantity [bagItem, chairItem] "p2" (-3)) ∧
    CartInvariant (Cart.removeItem [bagItem, chairItem] "p1") :=
  have h := cart_invariant_preserved [bagItem, chairItem] chairProduct "p2" (-3) (by decide)
  have h2 := cart_invariant_preserved [bagItem, chairItem] chairProduct "p1" (-3) (by decide)
  ⟨h.1, h.2.1, h2.2.2.1⟩

/-! ## Completeness of the dashboard feed -/

theorem take_merge {α : Type} (le : α → α → Bool) :
    ∀ (k : Nat) (xs ys : List α) (i j : Nat), k ≤ i → k ≤ j →
      (List.merge xs ys le).take k = (List.merge (xs.take i) (ys.take j) le).take k := by
  intro k
  induction k with
  | zero => intros; simp
  | succ k ih =>
    intro xs ys i j hi hj
    obtain ⟨i, rfl⟩ : ∃ i2, i = i2 + 1 := ⟨i - 1, by omega⟩
    obtain ⟨j, rfl⟩ : ∃ j2, j = j2 + 1 := ⟨j - 1, by omega⟩
    cases xs with
    | nil =>
      simp only [List.take_nil, List.nil_merge, List.take_take]
      congr 1
      omega
    | cons x xs =>
      cases ys with
      | nil =>
        simp only [List.take_nil, List.merge_right, List.take_take]
        congr 1
        omega
      | cons y ys =>
        simp only [List.take_succ_cons, List.merge]
        split
        · simp only [List.take_succ_cons, List.cons.injEq, true_and]
          have := ih xs (y :: ys) i (j + 1) (by omega) (by omega)
          simpa using this
        · simp only [List.take_succ_cons, List.cons.injEq, true_and]
          have := ih (x :: xs) ys (i + 1) j (by omega) (by omega)
          simpa using this

theorem sorted_unique {α : Type} (key : α → Option Int) (l1 l2 : List α) (hp : l1.Perm l2)
    (h1 : l1.Pairwise (DescBy key)) (h2 : l2.Pairwise (DescBy key))
    (hnodup : (l1.map key).Nodup) : l1 = l2 := by
  let r : α → α → Prop := fun a b => DescBy key a b ∧ key a ≠ key b
  haveI : IsAntisymm α r := ⟨by
    rintro a b ⟨hab, hne⟩ ⟨hba, _⟩
    exfalso
    apply hne
    unfold DescBy at hab hba
    cases ha : key a <;> cases hb : key b <;> simp [dateGe, ha, hb] at hab hba ⊢
    omega⟩
  have hn1 : l1.Pairwise (fun a b => key a ≠ key b) := List.pairwise_map.mp hnodup
  have hn2 : l2.Pairwise (fun a b => key a ≠ key b) :=
    List.pairwise_map.mp ((hp.map key).nodup_iff.mp hnodup)
  exact List.eq_of_perm_of_sorted (r := r) hp (h1.and hn1) (h2.and hn2)

theorem sort_append_eq_merge {α : Type} (key : α → Option Int) (xs ys : List α)
    (hnodup : ((xs ++ ys).map key).Nodup) :
    sortDescBy key (xs ++ ys)
      = List.merge (sortDescBy key xs) (sortDescBy key ys) (fun a b => decide (DescBy key a b)) := by
  apply sorted_unique key
  · exact (sortDescBy_perm key _).trans
      (((sortDescBy_perm key xs).append (sortDescBy_perm key ys)).symm.trans
        (List.merge_perm_append _).symm)
  · exact sortDescBy_sorted key _
  · exact List.Sorted.merge (sortDescBy_sorted key xs) (sortDescBy_sorted key ys)
  · exact ((sortDescBy_perm key _).map key).nodup_iff.mpr hnodup

theorem top_of_tops {α : Type} (key : α → Option Int) (k : Nat) (xs ys : List α)
    (hnodup : ((xs ++ ys).map key).Nodup) :
    (sortDescBy key ((sortDescBy key xs).take k ++ (sortDescBy key ys).take k)).take k
      = (sortDescBy key (xs ++ ys)).take k := by
  have hsub : ((sortDescBy key xs).take k ++ (sortDescBy key ys).take k).Sublist
      (sortDescBy key xs ++ sortDescBy key ys) :=
    (List.take_sublist _ _).append (List.take_sublist _ _)
  have hperm : (sortDescBy key xs ++ sortDescBy key ys).Perm (xs ++ ys) :=
    (sortDescBy_perm key xs).append (sortDescBy_perm key ys)
  have hnodup2 : (((sortDescBy key xs).take k ++ (sortDescBy key ys).take k).map key).Nodup :=
    ((hperm.map key).nodup_iff.mpr hnodup).sublist (hsub.map key)
  have hs1 : sortDescBy key ((sortDescBy key xs).take k) = (sortDescBy key xs).take k :=
    List.Sorted.insertionSort_eq ((sortDescBy_sorted key xs).sublist (List.take_sublist _ _))
  have hs2 : sortDescBy key ((sortDescBy key ys).take k) = (sortDescBy key ys).take k :=
    List.Sorted.insertionSort_eq ((sortDescBy_sorted key ys).sublist (List.take_sublist _ _))
  rw [sort_append_eq_merge key _ _ hnodup2, hs1, hs2, sort_append_eq_merge key xs ys hnodup]
  exact (take_merge _ k _ _ k k (le_refl _) (le_refl _)).symm

theorem map_sortDescBy {α β : Type} (keyA : α → Option Int) (keyB : β → Option Int)
    (f : α → β) (xs : List α) (hkey : ∀ a ∈ xs, keyB (f a) = keyA a) :
    (sortDescBy keyA xs).map f = sortDescBy keyB (xs.map f) := by
  unfold sortDescBy
  apply List.map_insertionSort
  intro a ha b hb
  unfold DescBy
  rw [hkey a ha, hkey b hb]

/-- C25: when every collection of the user has a date, every order the user placed has a
`createdAt`, and all these dates are pairwise distinct, the dashboard's `recentActivity`,
built from the five latest collections and the five latest orders, is the list of the five
latest among all the user's events: it has min(5, n) entries for n events, and no event left
out is later than an entry. -/
theorem dashboard_feed_is_top_of_all (fmt : ℚ → String) (now : Int) (s : Store)
    (user : SessionUser)
    (hpresent : ∀ d ∈ eventDates s user.id, d ≠ none)
    (hdistinct : (eventDates s user.id).Nodup) :
    ∃ d : DashboardData,
      Dashboard.GET fmt now s (some user) = (⟨200, .dashboard d⟩, s) ∧
      d.recentActivity = fullFeed fmt now s user.id ∧
      d.recentActivity.length = min 5 (eventDates s user.id).length ∧
      (∀ a ∈ d.recentActivity, ∀ b ∈ allEvents fmt now s user.id,
        b ∉ d.recentActivity → b.date ≤ a.date) := by
  obtain ⟨d, hget, hcol, _, hfeed, _⟩ := dashboard_shape fmt now s user
  have hcf : s.collections.filter (fun c => c.userId == user.id)
      = s.collections.filter (fun c => decide (c.userId = user.id)) :=
    List.filter_congr (fun o _ => by rw [Bool.eq_iff_iff]; simp)
  rw [hcf] at hcol
  rw [hcol, filter_beq_eq_decide] at hfeed
  have hckey : ∀ c ∈ s.collections.filter (fun c => decide (c.userId = user.id)),
      some (Dashboard.collectionActivity fmt now c).date = c.date := by
    intro c hc
    have hne := hpresent c.date (by
      unfold eventDates
      exact List.mem_append_left _ (List.mem_map_of_mem _ hc))
    cases hd : c.date with
    | none => exact absurd hd hne
    | some x => simp [Dashboard.collectionActivity, hd]
  have hokey : ∀ o ∈ s.orders.filter (fun o => decide (o.buyerId = user.id)),
      some (Dashboard.orderActivity now o).date = o.createdAt := by
    intro o ho
    have hne := hpresent o.createdAt (by
      unfold eventDates
      exact List.mem_append_right _ (List.mem_map_of_mem _ ho))
    cases hd : o.createdAt with
    | none => exact absurd hd hne
    | some x => simp [Dashboard.orderActivity, hd]
  have hkeys : (allEvents fmt now s user.id).map (fun a => some a.date)
      = eventDates s user.id := by
    unfold allEvents eventDates
    rw [List.map_append, List.map_map, List.map_map]
    congr 1
    · exact List.map_congr_left (fun c hc => hckey c hc)
    · exact List.map_congr_left (fun o ho => hokey o ho)
  have hnodup : ((allEvents fmt now s user.id).map (fun a => some a.date)).Nodup := by
    rw [hkeys]
    exact hdistinct
  have hfull : d.recentActivity = fullFeed fmt now s user.id := by
    rw [hfeed, List.map_take, List.map_take,
      map_sortDescBy (fun c : Collection => c.date) (fun a : Activity => some a.date)
        (Dashboard.collectionActivity fmt now) _ hckey,
      map_sortDescBy (fun o : Order => o.createdAt) (fun a : Activity => some a.date)
        (Dashboard.orderActivity now) _ hokey]
    exact top_of_tops (fun a : Activity => some a.date) 5 _ _ hnodup
  refine ⟨d, hget, hfull, ?_, ?_⟩
  · rw [hfull]
    unfold fullFeed
    rw [List.length_take, (sortDescBy_perm _ _).length_eq, ← hkeys, List.length_map]
  · intro a ha b hb hnot
    rw [hfull] at ha hnot
    unfold fullFeed at ha hnot
    have hsorted := sortDescBy_sorted (fun a : Activity => some a.date)
      (allEvents fmt now s user.id)
    rw [← List.take_append_drop 5 (sortDescBy (fun a : Activity => some a.date)
      (allEvents fmt now s user.id))] at hsorted
    have hb2 : b ∈ sortDescBy (fun a : Activity => some a.date)
        (allEvents fmt now s user.id) := (sortDescBy_perm _ _).mem_iff.mpr hb
    rw [← List.take_append_drop 5 (sortDescBy (fun a : Activity => some a.date)
      (allEvents fmt now s user.id))] at hb2
    have hb3 : b ∈ (sortDescBy (fun a : Activity => some a.date)
        (allEvents fmt now s user.id)).drop 5 := by
      rcases List.mem_append.mp hb2 with h | h
      · exact absurd h hnot
      · exact h
    have := (List.pairwise_append.mp hsorted).2.2 a ha b hb3
    simpa [DescBy, dateGe] using this

theorem dashboard_feed_is_top_of_all_witness :
    ∃ d : DashboardData,
      Dashboard.GET (fun _ => "") 0 store3 (some ⟨"u1", some "individual"⟩)
        = (⟨200, .dashboard d⟩, store3) ∧
      d.recentActivity.map (fun a => a.date) = [65, 60, 55, 50, 45] ∧
      d.recentActivity.length = 5 := by
  obtain ⟨d, h1, h2, h3, _⟩ :=
    dashboard_feed_is_top_of_all (fun _ => "") 0 store3 ⟨"u1", some "individual"⟩
      (by decide) (by decide)
  refine ⟨d, h1, ?_, h3⟩
  rw [h2]
  decide

/-! ## `POST /api/orders` for a session user without a user record -/

/-- C5 (as stated): the response does not report success for every request that creates an
order. The session user `u9` has no user record; the listing identifier is well formed and
names the stored listing. The order is added to the store, with status `PENDING`, buyer
`u9` and the listing's id, and the handler answers 500. -/
theorem post_without_buyer_record_fails :
    CreatesOrder store1 (some ⟨"u9", some "INDIVIDUAL"⟩)
      ⟨some "aaaaaaaaaaaaaaaaaaaaaaaa", none, some 2, some 240⟩
      ⟨"u9", some "INDIVIDUAL"⟩ listingA ∧
    findUser store1 "u9" = none ∧
    (Orders.POST samplePoints ⟨"o3", 3000⟩ store1 (some ⟨"u9", some "INDIVIDUAL"⟩)
      ⟨some "aaaaaaaaaaaaaaaaaaaaaaaa", none, some 2, some 240⟩).store.orders
      = store1.orders ++
        [⟨"o3", "u9", "aaaaaaaaaaaaaaaaaaaaaaaa", 2, some 240, "PENDING", some 3000⟩] ∧
    (Orders.POST samplePoints ⟨"o3", 3000⟩ store1 (some ⟨"u9", some "INDIVIDUAL"⟩)
      ⟨some "aaaaaaaaaaaaaaaaaaaaaaaa", none, some 2, some 240⟩).response
      = ⟨500, .error "Failed to create order"⟩ := by
  refine ⟨by decide, by decide, ?_, ?_⟩
  · rw [post_created samplePoints ⟨"o3", 3000⟩ store1 ⟨"u9", some "INDIVIDUAL"⟩
      ⟨some "aaaaaaaaaaaaaaaaaaaaaaaa", none, some 2, some 240⟩ "aaaaaaaaaaaaaaaaaaaaaaaa"
      listingA (by decide) (by decide) (by decide)]
    norm_num [Orders.newOrder, orZero, listingA, store1]
  · rw [post_created samplePoints ⟨"o3", 3000⟩ store1 ⟨"u9", some "INDIVIDUAL"⟩
      ⟨some "aaaaaaaaaaaaaaaaaaaaaaaa", none, some 2, some 240⟩ "aaaaaaaaaaaaaaaaaaaaaaaa"
      listingA (by decide) (by decide) (by decide)]
    rfl

/-! ## Points for a business buyer whose role is spelled in lower case -/

/-- C8: a buyer whose role is business, spelled `business` in the session, orders the
quantity 50, for which `calculatePoints` gives 5. The order is created and the response
reports success, but `distributePoints` is not called and the user table is left as it
was; the same request with the spelling `BUSINESS` has `distributePoints` called with 5. -/
theorem post_lowercase_business_gets_no_points :
    IsBusiness (some "business") ∧
    CreatesOrder store1 (some ⟨"u3", some "business"⟩)
      ⟨some "aaaaaaaaaaaaaaaaaaaaaaaa", none, some 50, some 6000⟩
      ⟨"u3", some "business"⟩ listingA ∧
    samplePoints.calculatePoints 50 = .ok 5 ∧
    (Orders.POST samplePoints ⟨"o3", 3000⟩ store1 (some ⟨"u3", some "business"⟩)
      ⟨some "aaaaaaaaaaaaaaaaaaaaaaaa", none, some 50, some 6000⟩).response.status = 200 ∧
    (Orders.POST samplePoints ⟨"o3", 3000⟩ store1 (some ⟨"u3", some "business"⟩)
      ⟨some "aaaaaaaaaaaaaaaaaaaaaaaa", none, some 50, some 6000⟩).store.orders
      = store1.orders ++
        [⟨"o3", "u3", "aaaaaaaaaaaaaaaaaaaaaaaa", 50, some 6000, "PENDING", some 3000⟩] ∧
    (Orders.POST samplePoints ⟨"o3", 3000⟩ store1 (some ⟨"u3", some "business"⟩)
      ⟨some "aaaaaaaaaaaaaaaaaaaaaaaa", none, some 50, some 6000⟩).distributed = [] ∧
    (Orders.POST samplePoints ⟨"o3", 3000⟩ store1 (some ⟨"u3", some "business"⟩)
      ⟨some "aaaaaaaaaaaaaaaaaaaaaaaa", none, some 50, some 6000⟩).store.users
      = store1.users ∧
    (Orders.POST samplePoints ⟨"o3", 3000⟩ store1 (some ⟨"u3", some "BUSINESS"⟩)
      ⟨some "aaaaaaaaaaaaaaaaaaaaaaaa", none, some 50, some 6000⟩).distributed = [5] := by
  have hq : orZero (some (50 : ℚ)) = 50 := by norm_num [orZero]
  have hcalc : samplePoints.calculatePoints 50 = .ok 5 := rfl
  have hlow := post_created samplePoints ⟨"o3", 3000⟩ store1 ⟨"u3", some "business"⟩
    ⟨some "aaaaaaaaaaaaaaaaaaaaaaaa", none, some 50, some 6000⟩ "aaaaaaaaaaaaaaaaaaaaaaaa"
    listingA (by decide) (by decide) (by decide)
  have hup := post_created samplePoints ⟨"o3", 3000⟩ store1 ⟨"u3", some "BUSINESS"⟩
    ⟨some "aaaaaaaaaaaaaaaaaaaaaaaa", none, some 50, some 6000⟩ "aaaaaaaaaaaaaaaaaaaaaaaa"
    listingA (by decide) (by decide) (by decide)
  have hstepLow : Orders.pointsStep samplePoints (some "business") 50 store1.users
      = (store1.users, []) := by
    simp [Orders.pointsStep]
  have hstepUp : (Orders.pointsStep samplePoints (some "BUSINESS") 50 store1.users).2
      = [5] := by
    simp only [Orders.pointsStep, if_true, hcalc]
    rfl
  refine ⟨by decide, by decide, hcalc, ?_, ?_, ?_, ?_, ?_⟩
  · rw [hlow]
    rfl
  · rw [hlow]
    norm_num [Orders.newOrder, orZero, listingA, store1]
  · rw [hlow]
    simp only [hq, hstepLow]
  · rw [hlow]
    simp only [hq, hstepLow]
  · rw [hup]
    simp only [hq, hstepUp]

/-! ## The format test of `POST /api/orders` on arbitrary JSON identifiers -/

theorem orElseId_ofString (a b : Option String) :
    Orders.Raw.orElseId (Orders.Raw.ofString a) (Orders.Raw.ofString b)
      = Orders.Raw.ofString (orElseStr a b) := by
  cases a with
  | none => rfl
  | some x =>
    by_cases hx : x = ""
    · simp [Orders.Raw.orElseId, Orders.Raw.ofString, Orders.Raw.JsonId.truthy, orElseStr, hx]
    · simp [Orders.Raw.orElseId, Orders.Raw.ofString, Orders.Raw.JsonId.truthy, orElseStr, hx]

theorem isValidObjectId_ofString (x : Option String) :
    Orders.isValidObjectId (some (Orders.Raw.ofString x).text) = Orders.isValidObjectId x := by
  cases x with
  | none => decide
  | some v => rfl

/-- On a body whose identifiers are strings or absent, the handler on JSON identifiers is
`Orders.POST`. -/
theorem raw_post_ofPostBody (lib : Orders.PointsLib) (env : Orders.Env) (s : Store)
    (session : Option SessionUser) (data : Orders.PostBody) :
    Orders.Raw.POST lib env s session (Orders.Raw.ofPostBody data)
      = Orders.POST lib env s session data := by
  cases session with
  | none => rfl
  | some user =>
    unfold Orders.Raw.POST Orders.POST
    simp only [Orders.Raw.ofPostBody, orElseId_ofString, isValidObjectId_ofString]
    cases h : orElseStr data.listingId data.productId with
    | none => rfl
    | some lid =>
      simp only [Orders.Raw.ofString, Option.bind]
      split
      · rfl
      · cases hl : findListing s lid with
        | none => rfl
        | some listing => rfl

theorem raw_post_rejected (lib : Orders.PointsLib) (env : Orders.Env) (s : Store)
    (user : SessionUser) (data : Orders.Raw.Body)
    (hbad : ¬ IsObjectIdString (Orders.Raw.orElseId data.listingId data.productId).text) :
    Orders.Raw.POST lib env s (some user) data
      = ⟨⟨400, .error "Invalid listing ID format"⟩, s, []⟩ := by
  have hinvalid : Orders.isValidObjectId
      (some (Orders.Raw.orElseId data.listingId data.productId).text) = false := by
    rw [← isValidObjectId_iff] at hbad
    simpa using hbad
  simp [Orders.Raw.POST, hinvalid]

theorem raw_post_passed (lib : Orders.PointsLib) (env : Orders.Env) (s : Store)
    (user : SessionUser) (data : Orders.Raw.Body)
    (hgood : IsObjectIdString (Orders.Raw.orElseId data.listingId data.productId).text) :
    (Orders.Raw.POST lib env s (some user) data).response.status ≠ 400 := by
  have hvalid : Orders.isValidObjectId
      (some (Orders.Raw.orElseId data.listingId data.productId).text) = true :=
    (isValidObjectId_iff _).mpr hgood
  unfold Orders.Raw.POST
  simp only [hvalid, Bool.not_true, Bool.false_eq_true, if_false]
  cases Orders.Raw.orElseId data.listingId data.productId with
  | absent => simp
  | null => simp
  | stringArray items => simp
  | other text truthy => simp
  | string lid =>
    simp only
    cases findListing s lid with
    | none => simp
    | some listing =>
      simp only
      split <;> simp

/-- C6 (as stated): a request whose effective listing identifier is not a string of 24
hexadecimal digits is not always answered 400. The body's `listingId` is the array
`['aaaaaaaaaaaaaaaaaaaaaaaa']`: it is no string, `test` converts it to the 24 digits it
holds, the format test passes, and the handler goes on to `findUnique` instead of
answering 400. -/
theorem post_array_id_passes_format_test :
    (∀ t, Orders.Raw.orElseId arrayIdBody.listingId arrayIdBody.productId ≠ .string t) ∧
    arrayIdBody.listingId = .stringArray ["aaaaaaaaaaaaaaaaaaaaaaaa"] ∧
    Orders.isValidObjectId
      (some (Orders.Raw.orElseId arrayIdBody.listingId arrayIdBody.productId).text) = true ∧
    (Orders.Raw.POST samplePoints ⟨"o3", 3000⟩ store1 (some ⟨"u1", some "INDIVIDUAL"⟩)
      arrayIdBody).response.status ≠ 400 ∧
    (Orders.Raw.POST samplePoints ⟨"o3", 3000⟩ store1 (some ⟨"u1", some "INDIVIDUAL"⟩)
      arrayIdBody).response = ⟨500, .error "Failed to create order"⟩ := by
  refine ⟨?_, rfl, by decide, by decide, by decide⟩
  intro t h
  cases h

/-- C6 (amended): a request with a session is answered 400 exactly when its effective
listing identifier (`listingId`, or `productId` when `listingId` is falsy), converted to a
string as `test` converts it, is not a string of exactly 24 hexadecimal digits. That is so
for a missing identifier, for `null` and for every string that is not 24 hexadecimal
digits. On such a request the store is left as it was, `distributePoints` is not called,
and the answer is the same whatever the store holds (no listing is read). -/
theorem post_json_malformed_id_rejected (lib : Orders.PointsLib) (env : Orders.Env)
    (s : Store) (user : SessionUser) (data : Orders.Raw.Body) :
    (¬ IsObjectIdString (Orders.Raw.orElseId data.listingId data.productId).text →
      (Orders.Raw.POST lib env s (some user) data).response.status = 400 ∧
      (Orders.Raw.POST lib env s (some user) data).response
        = ⟨400, .error "Invalid listing ID format"⟩ ∧
      (Orders.Raw.POST lib env s (some user) data).store = s ∧
      (Orders.Raw.POST lib env s (some user) data).distributed = [] ∧
      ∀ s2 : Store, (Orders.Raw.POST lib env s2 (some user) data).response
        = ⟨400, .error "Invalid listing ID format"⟩) ∧
    (Orders.Raw.orElseId data.listingId data.productId = .absent ∨
      Orders.Raw.orElseId data.listingId data.productId = .null ∨
      (∃ t, Orders.Raw.orElseId data.listingId data.productId = .string t ∧
        ¬ IsObjectIdString t) →
      ¬ IsObjectIdString (Orders.Raw.orElseId data.listingId data.productId).text) ∧
    (IsObjectIdString (Orders.Raw.orElseId data.listingId data.productId).text →
      (Orders.Raw.POST lib env s (some user) data).response.status ≠ 400) := by
  refine ⟨?_, ?_, raw_post_passed lib env s user data⟩
  · intro hbad
    have key := fun s2 => raw_post_rejected lib env s2 user data hbad
    refine ⟨?_, ?_, ?_, ?_, ?_⟩
    · rw [key]
    · rw [key]
    · rw [key]
    · rw [key]
    · intro s2; rw [key]
  · rintro (h | h | ⟨t, h, ht⟩)
    · rw [h]
      decide
    · rw [h]
      decide
    · rw [h]
      exact ht

theorem post_json_malformed_id_rejected_witness :
    (Orders.Raw.POST samplePoints ⟨"o3", 3000⟩ store1 (some ⟨"u3", some "BUSINESS"⟩)
      ⟨.string "", .string "aaaaaaaaaaaaaaaaaaaaaaag", some 50, some 100⟩).response.status
      = 400 ∧
    (Orders.Raw.POST samplePoints ⟨"o3", 3000⟩ store1 (some ⟨"u3", some "BUSINESS"⟩)
      ⟨.string "", .string "aaaaaaaaaaaaaaaaaaaaaaag", some 50, some 100⟩).store = store1 ∧
    (Orders.Raw.POST samplePoints ⟨"o3", 3000⟩ store1 (some ⟨"u3", some "BUSINESS"⟩)
      ⟨.stringArray ["aaaaaaaaaaaaaaaaaaaaaaaa", "aaaaaaaaaaaaaaaaaaaaaaaa"], .absent,
        some 50, some 100⟩).response.status = 400 :=
  have h := (post_json_malformed_id_rejected samplePoints ⟨"o3", 3000⟩ store1
    ⟨"u3", some "BUSINESS"⟩
    ⟨.string "", .string "aaaaaaaaaaaaaaaaaaaaaaag", some 50, some 100⟩).1 (by decide)
  have h2 := (post_json_malformed_id_rejected samplePoints ⟨"o3", 3000⟩ store1
    ⟨"u3", some "BUSINESS"⟩
    ⟨.stringArray ["aaaaaaaaaaaaaaaaaaaaaaaa", "aaaaaaaaaaaaaaaaaaaaaaaa"], .absent,
      some 50, some 100⟩).1 (by decide)
  ⟨h.1, h.2.2.1, h2.1⟩

/-! ## Order status over a typed `status` column -/

theorem schema_update_admitted (acceptsStatus : String → Bool) (s : Store) (id : String)
    (status : Option String)
    (h : status = none ∨ ∃ st, status = some st ∧ acceptsStatus st = true) :
    OrderById.Schema.update acceptsStatus s id status = some (updateOrder s id status) := by
  rcases h with h | ⟨st, h, hst⟩
  · rw [h]
    rfl
  · rw [h]
    simp [OrderById.Schema.update, hst]

theorem schema_update_rejected (acceptsStatus : String → Bool) (s : Store) (id : String)
    (st : String) (h : acceptsStatus st = false) :
    OrderById.Schema.update acceptsStatus s id (some st) = none := by
  simp [OrderById.Schema.update, h]

/-- On a body whose status the column admits, the handler over the typed column is
`OrderById.PATCH`; in particular the two are the same over a column that admits every
string. -/
theorem schema_patch_admitted (acceptsStatus : String → Bool) (s : Store)
    (session : Option SessionUser) (id : String) (data : OrderById.PatchBody)
    (h : data.status = none ∨ ∃ st, data.status = some st ∧ acceptsStatus st = true) :
    OrderById.Schema.PATCH acceptsStatus s session id data
      = OrderById.PATCH s session id data := by
  unfold OrderById.Schema.PATCH OrderById.PATCH
  simp only [schema_update_admitted acceptsStatus s id data.status h]

theorem schema_patch_rejected (acceptsStatus : String → Bool) (s : Store)
    (session : Option SessionUser) (id : String) (st : String)
    (h : acceptsStatus st = false) :
    (OrderById.Schema.PATCH acceptsStatus s session id ⟨some st⟩).2 = s ∧
    (OrderById.Schema.PATCH acceptsStatus s session id ⟨some st⟩).1.status ≠ 200 := by
  have key : ∃ r : Response,
      OrderById.Schema.PATCH acceptsStatus s session id ⟨some st⟩ = (r, s) ∧
        r.status ≠ 200 := by
    unfold OrderById.Schema.PATCH
    simp only [schema_update_rejected acceptsStatus s id st h]
    cases session with
    | none => exact ⟨unauthorized, rfl, by decide⟩
    | some user =>
      simp only
      cases findOrder s id with
      | none => exact ⟨⟨404, .error "Order not found"⟩, rfl, by decide⟩
      | some order =>
        simp only
        split
        · cases findListing s order.listingId with
          | none => exact ⟨⟨500, .error "Failed to update order"⟩, rfl, by decide⟩
          | some l =>
            simp only
            split
            · exact ⟨OrderById.forbidden, rfl, by decide⟩
            · exact ⟨⟨500, .error "Failed to update order"⟩, rfl, by decide⟩
        · split
          · exact ⟨OrderById.forbidden, rfl, by decide⟩
          · exact ⟨⟨500, .error "Failed to update order"⟩, rfl, by decide⟩
  obtain ⟨r, hr, hstatus⟩ := key
  rw [hr]
  exact ⟨rfl, hstatus⟩

/-- C21: over a `status` column that admits only the six statuses of the data model, when
every stored order has one of the six statuses the same holds after `POST /api/orders`
and after `PATCH /api/orders/{id}`, for every session, id and body. A `PATCH` whose body
carries a status the column does not admit is not successful and leaves the store as it
was; on every other body the handler is `OrderById.PATCH`. The three `GET` handlers leave
the store as it was. -/
theorem status_invariant_under_schema (acceptsStatus : String → Bool)
    (lib : Orders.PointsLib) (env : Orders.Env) (s : Store) (session : Option SessionUser)
    (data : Orders.PostBody) (id : String) (patch : OrderById.PatchBody) (fmt : ℚ → String)
    (now : Int)
    (hschema : ∀ st, acceptsStatus st = true → st ∈ validStatuses)
    (hinv : StatusInvariant s) :
    StatusInvariant (Orders.POST lib env s session data).store ∧
    StatusInvariant (OrderById.Schema.PATCH acceptsStatus s session id patch).2 ∧
    ((OrderById.Schema.PATCH acceptsStatus s session id patch).1.status = 200 →
      ∀ st, patch.status = some st → st ∈ validStatuses) ∧
    (∀ st, patch.status = some st → acceptsStatus st = false →
      (OrderById.Schema.PATCH acceptsStatus s session id patch).2 = s ∧
      (OrderById.Schema.PATCH acceptsStatus s session id patch).1.status ≠ 200) ∧
    ((patch.status = none ∨ ∃ st, patch.status = some st ∧ acceptsStatus st = true) →
      OrderById.Schema.PATCH acceptsStatus s session id patch
        = OrderById.PATCH s session id patch) ∧
    StatusInvariant (Orders.GET s session).2 ∧
    StatusInvariant (OrderById.GET s session id).2 ∧
    StatusInvariant (Dashboard.GET fmt now s session).2 := by
  have hrej : ∀ st, patch.status = some st → acceptsStatus st = false →
      (OrderById.Schema.PATCH acceptsStatus s session id patch).2 = s ∧
      (OrderById.Schema.PATCH acceptsStatus s session id patch).1.status ≠ 200 := by
    intro st hst hno
    have hp : patch = ⟨some st⟩ := by
      cases patch
      simp only at hst
      rw [hst]
    rw [hp]
    exact schema_patch_rejected acceptsStatus s session id st hno
  refine ⟨?_, ?_, ?_, hrej, schema_patch_admitted acceptsStatus s session id patch, ?_, ?_, ?_⟩
  · unfold StatusInvariant
    rcases post_orders_cases lib env s session data with h | ⟨user, listing, _, h⟩
    · rw [h]
      exact hinv
    · rw [h]
      intro o ho
      rcases List.mem_append.mp ho with ho | ho
      · exact hinv o ho
      · rw [List.mem_singleton] at ho
        rw [ho]
        show "PENDING" ∈ validStatuses
        decide
  · cases hst : patch.status with
    | none =>
      rw [schema_patch_admitted acceptsStatus s session id patch (Or.inl hst)]
      rcases patch_store_cases s session id patch with h | h
      · rw [h]
        exact hinv
      · rw [h, hst]
        unfold StatusInvariant updateOrder
        exact updateFirst_status id _ s.orders hinv (fun o ho => ho)
    | some st =>
      cases hacc : acceptsStatus st with
      | false =>
        rw [(hrej st hst hacc).1]
        exact hinv
      | true =>
        rw [schema_patch_admitted acceptsStatus s session id patch (Or.inr ⟨st, hst, hacc⟩)]
        rcases patch_store_cases s session id patch with h | h
        · rw [h]
          exact hinv
        · rw [h, hst]
          unfold StatusInvariant updateOrder
          exact updateFirst_status id _ s.orders hinv (fun o _ => hschema st hacc)
  · intro hok st hst
    cases hacc : acceptsStatus st with
    | false => exact absurd hok (hrej st hst hacc).2
    | true => exact hschema st hacc
  · rw [orders_get_store]
    exact hinv
  · rw [order_get_store]
    exact hinv
  · rw [dashboard_get_store]
    exact hinv

theorem status_invariant_under_schema_witness :
    StatusInvariant (Orders.POST samplePoints ⟨"o3", 3000⟩ store1
      (some ⟨"u2", some "COLLECTOR"⟩)
      ⟨some "aaaaaaaaaaaaaaaaaaaaaaaa", none, some 50, some 6000⟩).store ∧
    StatusInvariant (OrderById.Schema.PATCH sixStatuses store1
      (some ⟨"u2", some "COLLECTOR"⟩) "o1" ⟨some "FOO"⟩).2 ∧
    (OrderById.Schema.PATCH sixStatuses store1
      (some ⟨"u2", some "COLLECTOR"⟩) "o1" ⟨some "FOO"⟩).1.status = 500 ∧
    (OrderById.Schema.PATCH sixStatuses store1
      (some ⟨"u2", some "COLLECTOR"⟩) "o1" ⟨some "ACCEPTED"⟩).1.status = 200 :=
  have h := status_invariant_under_schema sixStatuses samplePoints ⟨"o3", 3000⟩ store1
    (some ⟨"u2", some "COLLECTOR"⟩) ⟨some "aaaaaaaaaaaaaaaaaaaaaaaa", none, some 50, some 6000⟩
    "o1" ⟨some "FOO"⟩ (fun _ => "") 0
    (by
      intro st hst
      simpa [sixStatuses] using hst)
    (by decide)
  ⟨h.1, h.2.1, by decide, by decide⟩

/-! ## Cart totals in the arithmetic of JS numbers -/

theorem double_subtotal_snoc (round : ℚ → ℚ) (cartItems : List Marketplace.CartItem)
    (item : Marketplace.CartItem) :
    Cart.Double.subtotal round (cartItems ++ [item])
      = round (Cart.Double.subtotal round cartItems
          + round (item.price * (item.quantity : ℚ))) := by
  simp [Cart.Double.subtotal, List.foldl_append]

/-- Without rounding the constants in double arithmetic are the exact ones. -/
theorem double_subtotal_id (cartItems : List Marketplace.CartItem) :
    Cart.Double.subtotal id cartItems = Cart.subtotal cartItems ∧
    Cart.Double.shipping id cartItems = Cart.shipping cartItems ∧
    Cart.Double.total id cartItems = Cart.total cartItems :=
  ⟨rfl, rfl, rfl⟩

theorem double_fold_exact (round : ℚ → ℚ)
    (hexact : ∀ n : Int, |n| ≤ 2 ^ 53 → round (n : ℚ) = (n : ℚ)) :
    ∀ (items : List Marketplace.CartItem) (acc : Int), 0 ≤ acc →
      (∀ item ∈ items, ∃ p : Int, item.price = (p : ℚ) ∧ 0 ≤ p ∧ 0 ≤ item.quantity) →
      (acc : ℚ) + (items.map (fun item => item.price * (item.quantity : ℚ))).sum ≤ 2 ^ 53 →
      items.foldl (fun total item => round (total + round (item.price * (item.quantity : ℚ))))
          (acc : ℚ)
        = (acc : ℚ) + (items.map (fun item => item.price * (item.quantity : ℚ))).sum := by
  intro items
  induction items with
  | nil =>
    intro acc _ _ _
    simp
  | cons a rest ih =>
    intro acc hacc hwhole hbound
    obtain ⟨p, hp, hp0, hq0⟩ := hwhole a (List.mem_cons_self _ _)
    have hrest : ∀ item ∈ rest, ∃ p : Int, item.price = (p : ℚ) ∧ 0 ≤ p ∧ 0 ≤ item.quantity :=
      fun item hi => hwhole item (List.mem_cons_of_mem _ hi)
    have hsum0 : 0 ≤ (rest.map (fun item => item.price * (item.quantity : ℚ))).sum := by
      apply List.sum_nonneg
      intro x hx
      obtain ⟨item, hi, rfl⟩ := List.mem_map.mp hx
      obtain ⟨p2, hp2, hp20, hq20⟩ := hrest item hi
      rw [hp2]
      exact mul_nonneg (by exact_mod_cast hp20) (by exact_mod_cast hq20)
    have hprod : a.price * (a.quantity : ℚ) = ((p * a.quantity : Int) : ℚ) := by
      rw [hp]
      push_cast
      ring
    have hprod0 : 0 ≤ p * a.quantity := mul_nonneg hp0 hq0
    simp only [List.map_cons, List.sum_cons] at hbound
    rw [hprod] at hbound
    have hacc0 : (0 : ℚ) ≤ (acc : ℚ) := by exact_mod_cast hacc
    have hprodq : (0 : ℚ) ≤ ((p * a.quantity : Int) : ℚ) := by exact_mod_cast hprod0
    have hb1 : ((p * a.quantity : Int) : ℚ) ≤ 2 ^ 53 := by linarith
    have hb2 : ((acc + p * a.quantity : Int) : ℚ) ≤ 2 ^ 53 := by
      push_cast
      push_cast at hbound
      linarith
    have hr1 : round ((p * a.quantity : Int) : ℚ) = ((p * a.quantity : Int) : ℚ) := by
      apply hexact
      rw [abs_of_nonneg hprod0]
      exact_mod_cast hb1
    have hr2 : round ((acc + p * a.quantity : Int) : ℚ) = ((acc + p * a.quantity : Int) : ℚ) := by
      apply hexact
      rw [abs_of_nonneg (add_nonneg hacc hprod0)]
      exact_mod_cast hb2
    have hstep : round ((acc : ℚ) + round (a.price * (a.quantity : ℚ)))
        = ((acc + p * a.quantity : Int) : ℚ) := by
      rw [hprod, hr1]
      have : (acc : ℚ) + ((p * a.quantity : Int) : ℚ) = ((acc + p * a.quantity : Int) : ℚ) := by
        push_cast
        ring
      rw [this, hr2]
    simp only [List.foldl_cons, List.map_cons, List.sum_cons]
    rw [hstep, ih (acc + p * a.quantity) (add_nonneg hacc hprod0) hrest
      (by
        have e : ((acc + p * a.quantity : Int) : ℚ) = (acc : ℚ) + ((p * a.quantity : Int) : ℚ) := by
          push_cast
          ring
        rw [e]
        linarith)]
    rw [hprod]
    push_cast
    ring

/-- C18: in the arithmetic of JS numbers, with `round` the rounding of an exact result to a
double: `subtotal` is the sum taken item by item from 0, each step adding the product
price × quantity; `shipping` is 0 when that subtotal is at least 5000 (5000 included) and
350 when it is below; `total` is the sum of the two. Whole numbers up to 2^53 being
doubles, two items priced 2000 and 4000 with quantity 1 give subtotal 6000, shipping 0 and
total 6000, and for a cart of whole-number prices whose sum stays in that range the
subtotal is the exact sum over the items of price × quantity and the total the exact
subtotal + shipping. -/
theorem cart_totals_in_double_arithmetic (round : ℚ → ℚ)
    (cartItems : List Marketplace.CartItem) :
    Cart.Double.subtotal round [] = 0 ∧
    (∀ item : Marketplace.CartItem,
      Cart.Double.subtotal round (cartItems ++ [item])
        = round (Cart.Double.subtotal round cartItems
            + round (item.price * (item.quantity : ℚ)))) ∧
    (5000 ≤ Cart.Double.subtotal round cartItems → Cart.Double.shipping round cartItems = 0) ∧
    (Cart.Double.subtotal round cartItems < 5000 →
      Cart.Double.shipping round cartItems = 350) ∧
    Cart.Double.total round cartItems
      = round (Cart.Double.subtotal round cartItems + Cart.Double.shipping round cartItems) ∧
    ((∀ n : Int, |n| ≤ 2 ^ 53 → round (n : ℚ) = (n : ℚ)) →
      (∀ a b : Marketplace.CartItem, a.price = 2000 → a.quantity = 1 → b.price = 4000 →
        b.quantity = 1 →
        Cart.Double.subtotal round [a, b] = 6000 ∧ Cart.Double.shipping round [a, b] = 0 ∧
        Cart.Double.total round [a, b] = 6000) ∧
      ((∀ item ∈ cartItems, ∃ p : Int, item.price = (p : ℚ) ∧ 0 ≤ p ∧ 0 ≤ item.quantity) →
        (cartItems.map (fun item => item.price * (item.quantity : ℚ))).sum + 350 ≤ 2 ^ 53 →
        Cart.Double.subtotal round cartItems
          = (cartItems.map (fun item => item.price * (item.quantity : ℚ))).sum ∧
        Cart.Double.total round cartItems
          = (cartItems.map (fun item => item.price * (item.quantity : ℚ))).sum
            + Cart.Double.shipping round cartItems)) := by
  refine ⟨rfl, double_subtotal_snoc round cartItems, ?_, ?_, rfl, ?_⟩
  · intro h
    simp [Cart.Double.shipping, h]
  · intro h
    simp [Cart.Double.shipping, not_le.mpr h]
  · intro hexact
    have hwhole : ∀ (items : List Marketplace.CartItem),
        (∀ item ∈ items, ∃ p : Int, item.price = (p : ℚ) ∧ 0 ≤ p ∧ 0 ≤ item.quantity) →
        (items.map (fun item => item.price * (item.quantity : ℚ))).sum + 350 ≤ 2 ^ 53 →
        Cart.Double.subtotal round items
          = (items.map (fun item => item.price * (item.quantity : ℚ))).sum ∧
        Cart.Double.total round items
          = (items.map (fun item => item.price * (item.quantity : ℚ))).sum
            + Cart.Double.shipping round items := by
      intro items hitems hbound
      have hsub : Cart.Double.subtotal round items
          = (items.map (fun item => item.price * (item.quantity : ℚ))).sum := by
        have h := double_fold_exact round hexact items 0 (le_refl 0) hitems
          (by
            push_cast
            linarith)
        unfold Cart.Double.subtotal
        have e : ((0 : Int) : ℚ) = 0 := by norm_num
        rw [e] at h
        rw [h]
        ring
      refine ⟨hsub, ?_⟩
      obtain ⟨n, hn0, hn⟩ : ∃ n : Int, 0 ≤ n ∧
          (items.map (fun item => item.price * (item.quantity : ℚ))).sum = (n : ℚ) := by
        clear hsub hbound
        induction items with
        | nil => exact ⟨0, le_refl 0, by simp⟩
        | cons a rest ih =>
          obtain ⟨p, hp, hp0, hq0⟩ := hitems a (List.mem_cons_self _ _)
          obtain ⟨m, hm0, hm⟩ := ih (fun item hi => hitems item (List.mem_cons_of_mem _ hi))
          refine ⟨p * a.quantity + m, add_nonneg (mul_nonneg hp0 hq0) hm0, ?_⟩
          simp only [List.map_cons, List.sum_cons]
          rw [hm, hp]
          push_cast
          ring
      unfold Cart.Double.total
      rw [hsub, hn]
      rw [hn] at hbound
      unfold Cart.Double.shipping
      rw [hsub, hn]
      split
      · have e : (n : ℚ) + 0 = ((n : Int) : ℚ) := by ring
        rw [e]
        apply hexact
        rw [abs_of_nonneg hn0]
        have : (n : ℚ) ≤ 2 ^ 53 := by linarith
        exact_mod_cast this
      · have e : (n : ℚ) + 350 = ((n + 350 : Int) : ℚ) := by
          push_cast
          ring
        rw [e]
        apply hexact
        rw [abs_of_nonneg (by linarith)]
        have : ((n + 350 : Int) : ℚ) ≤ 2 ^ 53 := by
          push_cast
          linarith
        exact_mod_cast this
    refine ⟨?_, hwhole cartItems⟩
    intro a b ha1 ha2 hb1 hb2
    have hitems : ∀ item ∈ [a, b],
        ∃ p : Int, item.price = (p : ℚ) ∧ 0 ≤ p ∧ 0 ≤ item.quantity := by
      intro item hi
      simp only [List.mem_cons, List.mem_singleton, List.not_mem_nil, or_false] at hi
      rcases hi with rfl | rfl
      · exact ⟨2000, by rw [ha1]; norm_num, by norm_num, by rw [ha2]; norm_num⟩
      · exact ⟨4000, by rw [hb1]; norm_num, by norm_num, by rw [hb2]; norm_num⟩
    have hsum : ([a, b].map (fun item => item.price * (item.quantity : ℚ))).sum = 6000 := by
      simp only [List.map_cons, List.map_nil, List.sum_cons, List.sum_nil, ha1, ha2, hb1, hb2]
      norm_num
    obtain ⟨hsub, htot⟩ := hwhole [a, b] hitems (by rw [hsum]; norm_num)
    rw [hsum] at hsub htot
    have hship : Cart.Double.shipping round [a, b] = 0 := by
      unfold Cart.Double.shipping
      rw [hsub]
      norm_num
    refine ⟨hsub, hship, ?_⟩
    rw [htot, hship]
    norm_num

theorem sampleRound_whole (n : Int) : sampleRound (n : ℚ) = (n : ℚ) := by
  unfold sampleRound
  have e : (n : ℚ) * 1024 = ((n * 1024 : Int) : ℚ) := by
    push_cast
    ring
  rw [e, Int.floor_intCast]
  push_cast
  field_simp

theorem cart_totals_in_double_arithmetic_witness :
    (∀ n : Int, |n| ≤ 2 ^ 53 → sampleRound (n : ℚ) = (n : ℚ)) ∧
    sampleRound (1 / 3) ≠ 1 / 3 ∧
    Cart.Double.subtotal sampleRound [bagItem, bagItem, penItem] = 5000 ∧
    Cart.Double.shipping sampleRound [bagItem, bagItem, penItem] = 0 ∧
    Cart.Double.total sampleRound [bagItem, bagItem, penItem] = 5000 := by
  have hexact : ∀ n : Int, |n| ≤ 2 ^ 53 → sampleRound (n : ℚ) = (n : ℚ) :=
    fun n _ => sampleRound_whole n
  have hsum : ([bagItem, bagItem, penItem].map
      (fun item => item.price * (item.quantity : ℚ))).sum = 5000 := by
    norm_num [bagItem, penItem]
  have hitems : ∀ item ∈ [bagItem, bagItem, penItem],
      ∃ p : Int, item.price = (p : ℚ) ∧ 0 ≤ p ∧ 0 ≤ item.quantity := by
    intro item hi
    simp only [List.mem_cons, List.mem_singleton, List.not_mem_nil, or_false] at hi
    rcases hi with rfl | rfl | rfl
    · exact ⟨2000, by norm_num [bagItem], by norm_num, by norm_num [bagItem]⟩
    · exact ⟨2000, by norm_num [bagItem], by norm_num, by norm_num [bagItem]⟩
    · exact ⟨500, by norm_num [penItem], by norm_num, by norm_num [penItem]⟩
  have h := cart_totals_in_double_arithmetic sampleRound [bagItem, bagItem, penItem]
  obtain ⟨hsub, htot⟩ := (h.2.2.2.2.2 hexact).2 hitems (by rw [hsum]; norm_num)
  rw [hsum] at hsub htot
  have hship := h.2.2.1 (le_of_eq hsub.symm)
  refine ⟨hexact, ?_, hsub, hship, ?_⟩
  · unfold sampleRound
    norm_num
  · rw [htot, hship]
    norm_num

end PlasticWaste
